import Mathlib

/-! A shallow embedding of the Game Boy emulator core (`src/gameboy.c`).

The C program keeps its whole state in file-scope variables.  Here that state
is one record, `Machine`, and every C function that touches it becomes a pure
function that takes the record and returns the new one.

* `uint8_t` / `uint16_t` values are natural numbers; every conversion to a
  narrower type is written as an explicit `% 256` or `% 65536`.
* `uint8_t x[N]` arrays are functions `Nat → Nat` read at indices below `N`.
* `assert(...)` aborts the program: a function that can reach a failing
  assertion, or index an array outside its extent, returns in `Except Fault`.
-/

namespace Gameboy

/-- The two ways a call can fail to return a value. -/
inductive Fault where
  /-- An `assert(...)` of the source does not hold: the program aborts. -/
  | assert_failed
  /-- An array is indexed outside its extent. -/
  | out_of_bounds
  /-- The step budget given to the model of a `while` loop is used up. -/
  | out_of_fuel
  deriving DecidableEq, Repr

/-- Modelled from the spec: the `GameboyInput` type of `gameboy.h`, which is not
among the sources; the eight buttons that `read_io8` and `main.c` name. -/
structure GameboyInput where
  start : Bool
  select : Bool
  a : Bool
  b : Bool
  up : Bool
  down : Bool
  left : Bool
  right : Bool
  deriving DecidableEq, Repr

/-- The bit-field `Flags`: `zero` is the 4-bit field of mask `0x0F`, then one
bit each for `cy` (0x10), `h` (0x20), `n` (0x40) and `zf` (0x80). -/
structure Flags where
  zero : Nat
  cy : Bool
  h : Bool
  n : Bool
  zf : Bool
  deriving DecidableEq, Repr

/-- The struct `Registers`; the unions `af`, `bc`, `de`, `hl` are the
functions `Registers.af` … and `Registers.set_af` … below. -/
structure Registers where
  f : Flags
  a : Nat
  c : Nat
  b : Nat
  e : Nat
  d : Nat
  l : Nat
  h : Nat
  sp : Nat
  pc : Nat
  deriving DecidableEq, Repr

/-- All file-scope state of `gameboy.c`. -/
structure Machine where
  cpu : Registers
  io_ports : Nat → Nat
  ie : Nat
  ime : Bool
  vram_memory : Nat → Nat
  cartridge_ram_memory : Nat → Nat
  wram0_memory : Nat → Nat
  wram1_memory : Nat → Nat
  echo_memory : Nat → Nat
  oam_memory : Nat → Nat
  hram_memory : Nat → Nat
  ram_enable : Bool
  rom_bank_number : Nat
  rom_ram_bank_number : Nat
  rom_ram_mode_select : Bool
  cartridge_rom_size : Nat
  cartridge_rom_memory : Nat → Nat
  gameboy_input : GameboyInput
  gameboy_framebuffer : Nat → Nat

/-- Assignment `m[i] = v` on an array. -/
def upd (m : Nat → Nat) (i v : Nat) : Nat → Nat :=
  fun j => if j = i then v else m j

/-- Value of a C `bool` used as an integer. -/
def b2n (b : Bool) : Nat := if b then 1 else 0

/-! ## I/O port addresses -/

def JOYP : Nat := 0xFF00
def TIMA : Nat := 0xFF05
def TMA : Nat := 0xFF06
def TAC : Nat := 0xFF07
def IF : Nat := 0xFF0F
def LCDC : Nat := 0xFF40
def STAT : Nat := 0xFF41
def SCY : Nat := 0xFF42
def SCX : Nat := 0xFF43
def LY : Nat := 0xFF44
def LYC : Nat := 0xFF45
def DMA : Nat := 0xFF46
def BGP : Nat := 0xFF47
def OBP0 : Nat := 0xFF48
def OBP1 : Nat := 0xFF49
def WY : Nat := 0xFF4A
def WX : Nat := 0xFF4B

def CARTRIDGE_RAM_BANKS : Nat := 4

/-! ## The flag byte and the register pairs -/

/-- The byte that the bit-field `Flags` occupies. -/
def Flags.toByte (f : Flags) : Nat :=
  f.zero % 16 + 16 * b2n f.cy + 32 * b2n f.h + 64 * b2n f.n + 128 * b2n f.zf

/-- The bit-field read back from a byte. -/
def Flags.ofByte (v : Nat) : Flags :=
  { zero := v % 16
    cy := (v >>> 4) % 2 == 1
    h := (v >>> 5) % 2 == 1
    n := (v >>> 6) % 2 == 1
    zf := (v >>> 7) % 2 == 1 }

def Registers.af (r : Registers) : Nat := r.a % 256 * 256 + r.f.toByte
def Registers.bc (r : Registers) : Nat := r.b % 256 * 256 + r.c % 256
def Registers.de (r : Registers) : Nat := r.d % 256 * 256 + r.e % 256
def Registers.hl (r : Registers) : Nat := r.h % 256 * 256 + r.l % 256

def Registers.set_af (r : Registers) (v : Nat) : Registers :=
  { r with a := (v % 65536) >>> 8, f := Flags.ofByte (v % 256) }
def Registers.set_bc (r : Registers) (v : Nat) : Registers :=
  { r with b := (v % 65536) >>> 8, c := v % 256 }
def Registers.set_de (r : Registers) (v : Nat) : Registers :=
  { r with d := (v % 65536) >>> 8, e := v % 256 }
def Registers.set_hl (r : Registers) (v : Nat) : Registers :=
  { r with h := (v % 65536) >>> 8, l := v % 256 }

/-! ## Memory bus -/

/-- Function `read_io8`: the stored byte, except for the joypad register. -/
def read_io8 (s : Machine) (address : Nat) : Except Fault Nat :=
  let address := address % 65536
  if ¬ (0xFF00 ≤ address ∧ address ≤ 0xFF7F) then .error .assert_failed else
  let offset := address - 0xFF00
  let v := s.io_ports offset % 256
  if address = JOYP then
    let v := v ||| 0xF
    let button_mode := (v &&& 0x20) == 0
    let direction_mode := (v &&& 0x10) == 0
    if button_mode == direction_mode then .error .assert_failed else
    let v := if button_mode then
        let v := if s.gameboy_input.start then v &&& 0xF7 else v
        let v := if s.gameboy_input.select then v &&& 0xFB else v
        let v := if s.gameboy_input.b then v &&& 0xFD else v
        if s.gameboy_input.a then v &&& 0xFE else v
      else v
    let v := if direction_mode then
        let v := if s.gameboy_input.down then v &&& 0xF7 else v
        let v := if s.gameboy_input.up then v &&& 0xFB else v
        let v := if s.gameboy_input.left then v &&& 0xFD else v
        if s.gameboy_input.right then v &&& 0xFE else v
      else v
    .ok v
  else
    .ok v

/-- Function `get_rom_bank_number`. -/
def get_rom_bank_number (s : Machine) (address : Nat) : Nat :=
  if 0x4000 ≤ address ∧ address ≤ 0x7FFF then
    if ¬ s.rom_ram_mode_select then
      (s.rom_ram_bank_number <<< 5) ||| s.rom_bank_number
    else
      s.rom_bank_number
  else
    0x00

/-- Function `get_ram_bank_number`. -/
def get_ram_bank_number (s : Machine) : Nat :=
  if ¬ s.rom_ram_mode_select then 0x00 else s.rom_ram_bank_number

/-- What a `uint8_t*` returned by `map_memory` points at: an array and an index. -/
inductive Cell where
  | rom (i : Nat)
  | vram (i : Nat)
  | cartridge_ram (i : Nat)
  | wram0 (i : Nat)
  | wram1 (i : Nat)
  | echo (i : Nat)
  | oam (i : Nat)
  | hram (i : Nat)
  | ie
  deriving DecidableEq, Repr

/-- Function `map_memory`: the memory map, I/O ports excepted. -/
def map_memory (s : Machine) (address : Nat) : Except Fault Cell :=
  let address := address % 65536
  if address ≤ 0x3FFF then
    .ok (.rom (address - 0x0000))
  else if 0x4000 ≤ address ∧ address ≤ 0x7FFF then
    let offset := address - 0x4000
    let bank_base := get_rom_bank_number s address * 0x4000
    .ok (.rom (bank_base + offset))
  else if 0x8000 ≤ address ∧ address ≤ 0x9FFF then
    .ok (.vram (address - 0x8000))
  else if 0xA000 ≤ address ∧ address ≤ 0xBFFF then
    let offset := address - 0xA000
    let bank_base := get_ram_bank_number s * 0x2000
    .ok (.cartridge_ram (bank_base + offset))
  else if 0xC000 ≤ address ∧ address ≤ 0xCFFF then
    .ok (.wram0 (address - 0xC000))
  else if 0xD000 ≤ address ∧ address ≤ 0xDFFF then
    .ok (.wram1 (address - 0xD000))
  else if 0xE000 ≤ address ∧ address ≤ 0xFDFF then
    .ok (.echo (address - 0xE000))
  else if 0xFE00 ≤ address ∧ address ≤ 0xFE9F then
    .ok (.oam (address - 0xFE00))
  else if 0xFEA0 ≤ address ∧ address ≤ 0xFEFF then
    .error .assert_failed
  else if 0xFF00 ≤ address ∧ address ≤ 0xFF7F then
    .error .assert_failed
  else if 0xFF80 ≤ address ∧ address ≤ 0xFFFE then
    .ok (.hram (address - 0xFF80))
  else if address = 0xFFFF then
    .ok .ie
  else
    .error .assert_failed

/-- The read `*memory` through a pointer obtained from `map_memory`. -/
def Machine.load (s : Machine) : Cell → Except Fault Nat
  | .rom i => if i < s.cartridge_rom_size then .ok (s.cartridge_rom_memory i % 256) else .error .out_of_bounds
  | .vram i => if i < 8 * 1024 then .ok (s.vram_memory i % 256) else .error .out_of_bounds
  | .cartridge_ram i =>
    if i < 8 * 1024 * CARTRIDGE_RAM_BANKS then .ok (s.cartridge_ram_memory i % 256) else .error .out_of_bounds
  | .wram0 i => if i < 4 * 1024 then .ok (s.wram0_memory i % 256) else .error .out_of_bounds
  | .wram1 i => if i < 4 * 1024 then .ok (s.wram1_memory i % 256) else .error .out_of_bounds
  | .echo i => if i < 0x1E00 then .ok (s.echo_memory i % 256) else .error .out_of_bounds
  | .oam i => if i < 0xA0 then .ok (s.oam_memory i % 256) else .error .out_of_bounds
  | .hram i => if i < 0x80 then .ok (s.hram_memory i % 256) else .error .out_of_bounds
  | .ie => .ok (s.ie % 256)

/-- The write `*memory = v` through a pointer obtained from `map_memory`. -/
def Machine.store (s : Machine) (v : Nat) : Cell → Except Fault Machine
  | .rom i =>
    if i < s.cartridge_rom_size then .ok { s with cartridge_rom_memory := upd s.cartridge_rom_memory i v }
    else .error .out_of_bounds
  | .vram i =>
    if i < 8 * 1024 then .ok { s with vram_memory := upd s.vram_memory i v } else .error .out_of_bounds
  | .cartridge_ram i =>
    if i < 8 * 1024 * CARTRIDGE_RAM_BANKS then
      .ok { s with cartridge_ram_memory := upd s.cartridge_ram_memory i v }
    else .error .out_of_bounds
  | .wram0 i =>
    if i < 4 * 1024 then .ok { s with wram0_memory := upd s.wram0_memory i v } else .error .out_of_bounds
  | .wram1 i =>
    if i < 4 * 1024 then .ok { s with wram1_memory := upd s.wram1_memory i v } else .error .out_of_bounds
  | .echo i =>
    if i < 0x1E00 then .ok { s with echo_memory := upd s.echo_memory i v } else .error .out_of_bounds
  | .oam i =>
    if i < 0xA0 then .ok { s with oam_memory := upd s.oam_memory i v } else .error .out_of_bounds
  | .hram i =>
    if i < 0x80 then .ok { s with hram_memory := upd s.hram_memory i v } else .error .out_of_bounds
  | .ie => .ok { s with ie := v }

/-- Function `read_memory8`. -/
def read_memory8 (s : Machine) (address : Nat) : Except Fault Nat :=
  let address := address % 65536
  if 0xFEA0 ≤ address ∧ address ≤ 0xFEFF then
    .ok 0xFF
  else if 0xFF00 ≤ address ∧ address ≤ 0xFF7F then
    read_io8 s address
  else
    (map_memory s address).bind s.load

/-- The branches of `write_memory8` other than the I/O one (0xFF00-0xFF7F).
The DMA loop of `write_io8` calls `write_memory8` only with destinations
0xFE00-0xFE9F, where `write_memory8` is this function (`write_memory8_eq_mapped`). -/
def write_memory8_mapped (s : Machine) (address v : Nat) : Except Fault Machine :=
  let address := address % 65536
  let v := v % 256
  if address ≤ 0x1FFF then
    .ok { s with ram_enable := ((v &&& 0xF) == 0xA) }
  else if 0x2000 ≤ address ∧ address ≤ 0x3FFF then
    -- the four `if (v == 0x00) { v == 0x01; }` statements compare and discard
    if v ≤ 0x1F then .ok { s with rom_bank_number := v } else .error .assert_failed
  else if 0x4000 ≤ address ∧ address ≤ 0x5FFF then
    if v ≤ 0x3 then .ok { s with rom_ram_bank_number := v } else .error .assert_failed
  else if 0x6000 ≤ address ∧ address ≤ 0x7FFF then
    if v = 0x00 ∨ v = 0x01 then .ok { s with rom_ram_mode_select := (v != 0) }
    else .error .assert_failed
  else if 0xFEA0 ≤ address ∧ address ≤ 0xFEFF then
    .ok s
  else
    (map_memory s address).bind (s.store v)

/-- The `while(size--)` loop of the DMA transfer in `write_io8`. -/
def dma_copy : Nat → Machine → Nat → Nat → Except Fault Machine
  | 0, s, _, _ => .ok s
  | size + 1, s, source, destination => do
    let byte ← read_memory8 s source
    let s ← write_memory8_mapped s destination byte
    dma_copy size s ((source + 1) % 65536) ((destination + 1) % 65536)

/-- Function `write_io8`. -/
def write_io8 (s : Machine) (address v : Nat) : Except Fault Machine :=
  let address := address % 65536
  let v := v % 256
  if ¬ (0xFF00 ≤ address ∧ address ≤ 0xFF7F) then .error .assert_failed else
  let offset := address - 0xFF00
  let s := { s with io_ports := upd s.io_ports offset v }
  if address = DMA then
    let source := (v * 0x100) % 65536
    let destination := 0xFE00
    dma_copy 0xA0 s source destination
  else
    .ok s

/-- Function `write_memory8`. -/
def write_memory8 (s : Machine) (address v : Nat) : Except Fault Machine :=
  if 0xFF00 ≤ address % 65536 ∧ address % 65536 ≤ 0xFF7F then
    write_io8 s address v
  else
    write_memory8_mapped s address v

/-- Function `write_memory16`: little endian, low byte first. -/
def write_memory16 (s : Machine) (address value : Nat) : Except Fault Machine := do
  let s ← write_memory8 s (address + 0) ((value >>> 0) &&& 0xFF)
  write_memory8 s (address + 1) ((value >>> 8) &&& 0xFF)

/-- Function `read_memory16`. -/
def read_memory16 (s : Machine) (address : Nat) : Except Fault Nat := do
  let lo ← read_memory8 s (address + 0)
  let hi ← read_memory8 s (address + 1)
  .ok ((0x0000 ||| (lo <<< 0) ||| (hi <<< 8)) % 65536)

/-! ## Register access -/

/-- Function `read_x16` over the table `registers16 = { bc, de, hl, sp }`. -/
def read_x16 (s : Machine) (reg_index : Nat) : Except Fault Nat :=
  match reg_index with
  | 0 => .ok s.cpu.bc
  | 1 => .ok s.cpu.de
  | 2 => .ok s.cpu.hl
  | 3 => .ok (s.cpu.sp % 65536)
  | _ => .error .assert_failed

/-- Function `write_x16`. -/
def write_x16 (s : Machine) (reg_index value : Nat) : Except Fault Machine :=
  match reg_index with
  | 0 => .ok { s with cpu := s.cpu.set_bc value }
  | 1 => .ok { s with cpu := s.cpu.set_de value }
  | 2 => .ok { s with cpu := s.cpu.set_hl value }
  | 3 => .ok { s with cpu := { s.cpu with sp := value % 65536 } }
  | _ => .error .assert_failed

/-- Function `read_x8` over `registers8 = { b, c, d, e, h, l, NULL, a }`; index 6 is `(HL)`. -/
def read_x8 (s : Machine) (reg_index : Nat) : Except Fault Nat :=
  if reg_index = 6 then read_memory8 s s.cpu.hl else
  match reg_index with
  | 0 => .ok (s.cpu.b % 256)
  | 1 => .ok (s.cpu.c % 256)
  | 2 => .ok (s.cpu.d % 256)
  | 3 => .ok (s.cpu.e % 256)
  | 4 => .ok (s.cpu.h % 256)
  | 5 => .ok (s.cpu.l % 256)
  | 7 => .ok (s.cpu.a % 256)
  | _ => .error .assert_failed

/-- Function `write_x8`. -/
def write_x8 (s : Machine) (reg_index value : Nat) : Except Fault Machine :=
  if reg_index = 6 then write_memory8 s s.cpu.hl value else
  match reg_index with
  | 0 => .ok { s with cpu := { s.cpu with b := value % 256 } }
  | 1 => .ok { s with cpu := { s.cpu with c := value % 256 } }
  | 2 => .ok { s with cpu := { s.cpu with d := value % 256 } }
  | 3 => .ok { s with cpu := { s.cpu with e := value % 256 } }
  | 4 => .ok { s with cpu := { s.cpu with h := value % 256 } }
  | 5 => .ok { s with cpu := { s.cpu with l := value % 256 } }
  | 7 => .ok { s with cpu := { s.cpu with a := value % 256 } }
  | _ => .error .assert_failed

/-! ## Stack -/

/-- Function `push16`. -/
def push16 (s : Machine) (value : Nat) : Except Fault Machine :=
  let s := { s with cpu := { s.cpu with sp := (s.cpu.sp % 65536 + 65536 - 2) % 65536 } }
  write_memory16 s s.cpu.sp (value % 65536)

/-- Function `pop16`. -/
def pop16 (s : Machine) : Except Fault (Nat × Machine) := do
  let value ← read_memory16 s s.cpu.sp
  .ok (value, { s with cpu := { s.cpu with sp := (s.cpu.sp + 2) % 65536 } })

/-- Function `call`. -/
def call (s : Machine) (address : Nat) : Except Fault Machine := do
  let s ← push16 s s.cpu.pc
  .ok { s with cpu := { s.cpu with pc := address % 65536 } }

/-! ## Arithmetic and logic; each function returns the value and the new flags -/

/-- Function `rr`. -/
def rr (f : Flags) (value : Nat) : Nat × Flags :=
  let value := value % 256
  let carry := ((value >>> 0) &&& 1) != 0
  let value := value >>> 1
  let value := if f.cy then value ||| 0x80 else value
  (value, { f with zf := (value == 0x00), n := false, h := false, cy := carry })

/-- Function `rl`. -/
def rl (f : Flags) (value : Nat) : Nat × Flags :=
  let value := value % 256
  let carry := ((value >>> 7) &&& 1) != 0
  let value := (value <<< 1) % 256
  let value := if f.cy then value ||| 0x01 else value
  (value, { f with zf := (value == 0x00), n := false, h := false, cy := carry })

/-- Function `rrc`. -/
def rrc (f : Flags) (value : Nat) : Nat × Flags :=
  let value := value % 256
  let carry := ((value >>> 0) &&& 1) != 0
  let value := value >>> 1
  let value := if carry then value ||| 0x80 else value
  (value, { f with zf := (value == 0x00), n := false, h := false, cy := carry })

/-- Function `rlc`. -/
def rlc (f : Flags) (value : Nat) : Nat × Flags :=
  let value := value % 256
  let carry := ((value >>> 7) &&& 1) != 0
  let value := (value <<< 1) % 256
  let value := if carry then value ||| 0x01 else value
  (value, { f with zf := (value == 0x00), n := false, h := false, cy := carry })

/-- Function `and8`. -/
def and8 (f : Flags) (a b : Nat) : Nat × Flags :=
  let result := (a &&& b) % 256
  (result, { f with zf := (result == 0x00), n := false, h := true, cy := false })

/-- Function `or8`. -/
def or8 (f : Flags) (a b : Nat) : Nat × Flags :=
  let result := (a ||| b) % 256
  (result, { f with zf := (result == 0x00), n := false, h := false, cy := false })

/-- Function `xor8`. -/
def xor8 (f : Flags) (a b : Nat) : Nat × Flags :=
  let result := (a ^^^ b) % 256
  (result, { f with zf := (result == 0x00), n := false, h := false, cy := false })

/-- Function `add8`; the `int` arguments are never negative at a call site. -/
def add8 (f : Flags) (a b : Nat) (update_carry : Bool) : Nat × Flags :=
  let result := a + b
  let half_carry_result := (a &&& 0xF) + (b &&& 0xF)
  let f := { f with zf := (result % 256 == 0x00), n := false, h := decide (half_carry_result > 0xF) }
  let f := if update_carry then { f with cy := decide (result > 0xFF) } else f
  (result % 256, f)

/-- Function `sub8`; the `int` arguments are never negative at a call site. -/
def sub8 (f : Flags) (a b : Nat) (update_carry : Bool) : Nat × Flags :=
  let result : Int := (a : Int) - (b : Int)
  let half_carry_result : Int := ((a &&& 0xF : Nat) : Int) - ((b &&& 0xF : Nat) : Int)
  let f := { f with zf := ((result % 256).toNat == 0x00), n := true, h := decide (half_carry_result < 0x0) }
  let f := if update_carry then { f with cy := decide (result < 0x00) } else f
  ((result % 256).toNat, f)

/-- Function `add16`; `half_carry_result` is computed by the source and not used. -/
def add16 (f : Flags) (a b : Nat) : Nat × Flags :=
  let result := a + b
  (result % 65536, { f with n := false, h := false, cy := decide (result > 0xFFFF) })

/-- Function `get_cc_result`. -/
def get_cc_result (f : Flags) (cc : Nat) : Except Fault Bool :=
  match cc with
  | 0 => .ok (!f.zf)
  | 1 => .ok f.zf
  | 2 => .ok (!f.cy)
  | 3 => .ok f.cy
  | _ => .error .assert_failed

/-! ## Operand decoding (the `DECODE_…` macros) -/

/-- The instruction bytes `uint8_t code[32]`, of which an emulator reads
`code[0]`, `code[1]` and `code[2]` only. -/
abbrev Code := Nat → Nat

/-- Second operand of `DECODE_X8_X8`, and the operand of `DECODE_X8`: `code[0] & 7`. -/
def decode_low3 (code : Code) : Nat := code 0 &&& 7

/-- First operand of `DECODE_X8_X8`: `(code[0] >> 3) & 7`. -/
def decode_mid3 (code : Code) : Nat := (code 0 >>> 3) &&& 7

/-- Macro `DECODE_A16` (and the `d16` of `DECODE_X16_D16`): `(code[2] << 8) | code[1]`. -/
def decode_a16 (code : Code) : Nat := ((code 2 <<< 8) ||| code 1) % 65536

/-- Macro `DECODE_X16`: `(code[0] >> 4) & 3`. -/
def decode_x16 (code : Code) : Nat := (code 0 >>> 4) &&& 3

/-- Macros `DECODE_D8` and `DECODE_A8`: `code[1]`. -/
def decode_d8 (code : Code) : Nat := code 1 % 256

/-- Macro `DECODE_CC`: `(code[0] >> 3) & 3`. -/
def decode_cc (code : Code) : Nat := (code 0 >>> 3) &&& 3

/-- Macro `DECODE_R8` followed by the conversion of the `int8_t` to `uint16_t`:
the byte sign-extended to 16 bits. -/
def decode_r8 (code : Code) : Nat :=
  if code 1 % 256 < 128 then code 1 % 256 else code 1 % 256 + 0xFF00

/-! ## Instruction emulators; each returns the cycle count and the new state -/

def Machine.set_f (s : Machine) (f : Flags) : Machine := { s with cpu := { s.cpu with f := f } }
def Machine.set_a (s : Machine) (v : Nat) : Machine := { s with cpu := { s.cpu with a := v % 256 } }
def Machine.set_pc (s : Machine) (v : Nat) : Machine := { s with cpu := { s.cpu with pc := v % 65536 } }
def Machine.set_sp (s : Machine) (v : Nat) : Machine := { s with cpu := { s.cpu with sp := v % 65536 } }

/-- Assignment `cpu.a = v; cpu.f = f` after an arithmetic function returned `(v, f)`. -/
def Machine.set_a_f (s : Machine) (r : Nat × Flags) : Machine := (s.set_f r.2).set_a r.1

def emulate_nop (_code : Code) (s : Machine) : Except Fault (Nat × Machine) := .ok (4, s)

def emulate_halt (_code : Code) (s : Machine) : Except Fault (Nat × Machine) := .ok (4, s)

def emulate_stop_0 (_code : Code) (s : Machine) : Except Fault (Nat × Machine) := .ok (4, s)

def emulate_ld (code : Code) (s : Machine) : Except Fault (Nat × Machine) := do
  let value ← read_x8 s (decode_low3 code)
  let s ← write_x8 s (decode_mid3 code) value
  .ok (4, s)

def emulate_ld_a16 (code : Code) (s : Machine) : Except Fault (Nat × Machine) := do
  let s ← write_memory16 s (decode_a16 code) (s.cpu.sp % 65536)
  .ok (20, s)

def emulate_ld_x16_d16 (code : Code) (s : Machine) : Except Fault (Nat × Machine) := do
  let s ← write_x16 s (decode_x16 code) (decode_a16 code)
  .ok (12, s)

def emulate_ldd (_code : Code) (s : Machine) : Except Fault (Nat × Machine) := do
  let s ← write_memory8 s s.cpu.hl s.cpu.a
  .ok (8, { s with cpu := s.cpu.set_hl ((s.cpu.hl + 65536 - 1) % 65536) })

def emulate_ldi (_code : Code) (s : Machine) : Except Fault (Nat × Machine) := do
  let s ← write_memory8 s s.cpu.hl s.cpu.a
  .ok (8, { s with cpu := s.cpu.set_hl ((s.cpu.hl + 1) % 65536) })

def emulate_dec_x16 (code : Code) (s : Machine) : Except Fault (Nat × Machine) := do
  let value ← read_x16 s (decode_x16 code)
  let s ← write_x16 s (decode_x16 code) ((value + 65536 - 1) % 65536)
  .ok (8, s)

def emulate_inc_x16 (code : Code) (s : Machine) : Except Fault (Nat × Machine) := do
  let value ← read_x16 s (decode_x16 code)
  let s ← write_x16 s (decode_x16 code) ((value + 1) % 65536)
  .ok (8, s)

def emulate_dec_x8 (code : Code) (s : Machine) : Except Fault (Nat × Machine) := do
  let value ← read_x8 s (decode_mid3 code)
  let r := sub8 s.cpu.f value 1 false
  let s ← write_x8 (s.set_f r.2) (decode_mid3 code) r.1
  .ok (4, s)

def emulate_inc_x8 (code : Code) (s : Machine) : Except Fault (Nat × Machine) := do
  let value ← read_x8 s (decode_mid3 code)
  let r := add8 s.cpu.f value 1 false
  let s ← write_x8 (s.set_f r.2) (decode_mid3 code) r.1
  .ok (4, s)

def emulate_ld_mem_02 (_code : Code) (s : Machine) : Except Fault (Nat × Machine) := do
  let s ← write_memory8 s s.cpu.bc s.cpu.a
  .ok (8, s)

def emulate_ld_mem_12 (_code : Code) (s : Machine) : Except Fault (Nat × Machine) := do
  let s ← write_memory8 s s.cpu.de s.cpu.a
  .ok (8, s)

def emulate_ld_mem_0a (_code : Code) (s : Machine) : Except Fault (Nat × Machine) := do
  let value ← read_memory16 s s.cpu.bc
  .ok (8, s.set_a value)

def emulate_ld_mem_1a (_code : Code) (s : Machine) : Except Fault (Nat × Machine) := do
  let value ← read_memory16 s s.cpu.de
  .ok (8, s.set_a value)

def emulate_ldi_2a (_code : Code) (s : Machine) : Except Fault (Nat × Machine) := do
  let value ← read_memory8 s s.cpu.hl
  let s := s.set_a value
  .ok (8, { s with cpu := s.cpu.set_hl ((s.cpu.hl + 1) % 65536) })

def emulate_ldd_3a (_code : Code) (s : Machine) : Except Fault (Nat × Machine) := do
  let value ← read_memory8 s s.cpu.hl
  let s := s.set_a value
  .ok (8, { s with cpu := s.cpu.set_hl ((s.cpu.hl + 65536 - 1) % 65536) })

def emulate_jr_cc_r8 (code : Code) (s : Machine) : Except Fault (Nat × Machine) := do
  if ← get_cc_result s.cpu.f (decode_cc code) then
    .ok (12, s.set_pc (s.cpu.pc + decode_r8 code))
  else
    .ok (8, s)

def emulate_jr_r8 (code : Code) (s : Machine) : Except Fault (Nat × Machine) :=
  .ok (12, s.set_pc (s.cpu.pc + decode_r8 code))

def emulate_jp_a16 (code : Code) (s : Machine) : Except Fault (Nat × Machine) :=
  .ok (16, s.set_pc (decode_a16 code))

def emulate_jp_hl (_code : Code) (s : Machine) : Except Fault (Nat × Machine) :=
  .ok (4, s.set_pc s.cpu.hl)

def emulate_jp_cc (code : Code) (s : Machine) : Except Fault (Nat × Machine) := do
  if ← get_cc_result s.cpu.f (decode_cc code) then
    .ok (16, s.set_pc (decode_a16 code))
  else
    .ok (12, s)

def emulate_sub (code : Code) (s : Machine) : Except Fault (Nat × Machine) := do
  let value ← read_x8 s (decode_low3 code)
  .ok (4, s.set_a_f (sub8 s.cpu.f (s.cpu.a % 256) value true))

def emulate_sbc (code : Code) (s : Machine) : Except Fault (Nat × Machine) := do
  let carry := b2n s.cpu.f.cy
  let value ← read_x8 s (decode_low3 code)
  .ok (4, s.set_a_f (sub8 s.cpu.f (s.cpu.a % 256) (value + carry) true))

def emulate_add (code : Code) (s : Machine) : Except Fault (Nat × Machine) := do
  let value ← read_x8 s (decode_low3 code)
  .ok (4, s.set_a_f (add8 s.cpu.f (s.cpu.a % 256) value true))

def emulate_adc (code : Code) (s : Machine) : Except Fault (Nat × Machine) := do
  let carry := b2n s.cpu.f.cy
  let value ← read_x8 s (decode_low3 code)
  .ok (4, s.set_a_f (add8 s.cpu.f (s.cpu.a % 256) (value + carry) true))

def emulate_adc_d8 (code : Code) (s : Machine) : Except Fault (Nat × Machine) :=
  let carry := b2n s.cpu.f.cy
  .ok (8, s.set_a_f (add8 s.cpu.f (s.cpu.a % 256) (decode_d8 code + carry) true))

def emulate_sbc_d8 (code : Code) (s : Machine) : Except Fault (Nat × Machine) :=
  let carry := b2n s.cpu.f.cy
  .ok (8, s.set_a_f (sub8 s.cpu.f (s.cpu.a % 256) (decode_d8 code + carry) true))

def emulate_rst (code : Code) (s : Machine) : Except Fault (Nat × Machine) := do
  let target := ((((code 0 >>> 3) &&& 7) * 0x8) % 256)
  let s ← call s target
  .ok (16, s)

def emulate_xor (code : Code) (s : Machine) : Except Fault (Nat × Machine) := do
  let value ← read_x8 s (decode_low3 code)
  .ok (4, s.set_a_f (xor8 s.cpu.f (s.cpu.a % 256) value))

def emulate_and (code : Code) (s : Machine) : Except Fault (Nat × Machine) := do
  let value ← read_x8 s (decode_low3 code)
  .ok (4, s.set_a_f (and8 s.cpu.f (s.cpu.a % 256) value))

def emulate_or (code : Code) (s : Machine) : Except Fault (Nat × Machine) := do
  let value ← read_x8 s (decode_low3 code)
  .ok (4, s.set_a_f (or8 s.cpu.f (s.cpu.a % 256) value))

def emulate_e0_ldh (code : Code) (s : Machine) : Except Fault (Nat × Machine) := do
  let s ← write_memory8 s (0xFF00 + decode_d8 code) s.cpu.a
  .ok (12, s)

def emulate_f0_ldh (code : Code) (s : Machine) : Except Fault (Nat × Machine) := do
  let value ← read_memory8 s (0xFF00 + decode_d8 code)
  .ok (12, s.set_a value)

def emulate_cp_d8 (code : Code) (s : Machine) : Except Fault (Nat × Machine) :=
  .ok (8, s.set_f (sub8 s.cpu.f (s.cpu.a % 256) (decode_d8 code) true).2)

def emulate_cp_x8 (code : Code) (s : Machine) : Except Fault (Nat × Machine) := do
  let value ← read_x8 s (decode_low3 code)
  .ok (4, s.set_f (sub8 s.cpu.f (s.cpu.a % 256) value true).2)

def emulate_and_d8 (code : Code) (s : Machine) : Except Fault (Nat × Machine) :=
  .ok (8, s.set_a_f (and8 s.cpu.f (s.cpu.a % 256) (decode_d8 code)))

def emulate_or_d8 (code : Code) (s : Machine) : Except Fault (Nat × Machine) :=
  .ok (8, s.set_a_f (or8 s.cpu.f (s.cpu.a % 256) (decode_d8 code)))

def emulate_add_d8 (code : Code) (s : Machine) : Except Fault (Nat × Machine) :=
  .ok (8, s.set_a_f (add8 s.cpu.f (s.cpu.a % 256) (decode_d8 code) true))

def emulate_sub_d8 (code : Code) (s : Machine) : Except Fault (Nat × Machine) :=
  .ok (8, s.set_a_f (sub8 s.cpu.f (s.cpu.a % 256) (decode_d8 code) true))

def emulate_xor_d8 (code : Code) (s : Machine) : Except Fault (Nat × Machine) :=
  .ok (8, s.set_a_f (xor8 s.cpu.f (s.cpu.a % 256) (decode_d8 code)))

def emulate_add_sp (code : Code) (s : Machine) : Except Fault (Nat × Machine) :=
  let r := add16 s.cpu.f (s.cpu.sp % 65536) (decode_r8 code)
  .ok (16, (s.set_f r.2).set_sp r.1)

def emulate_add_hl (code : Code) (s : Machine) : Except Fault (Nat × Machine) := do
  let a := s.cpu.hl
  let b ← read_x16 s (decode_x16 code)
  let r := add16 s.cpu.f a b
  let s := s.set_f r.2
  .ok (8, { s with cpu := s.cpu.set_hl r.1 })

def emulate_ld_f8 (code : Code) (s : Machine) : Except Fault (Nat × Machine) :=
  let r := add16 s.cpu.f (s.cpu.sp % 65536) (decode_r8 code)
  let s := s.set_f r.2
  .ok (12, { s with cpu := s.cpu.set_hl r.1 })

/-- The value and flags that `emulate_cb_prefix` computes from the operand
`value`, before it writes the value back: the `if` chain over `operation`. -/
def cb_operation (f : Flags) (operation value : Nat) : Nat × Flags :=
  let operation_index := (operation >>> 3) &&& 7
  if operation ≤ 0x07 then rlc f value
  else if 0x08 ≤ operation ∧ operation ≤ 0x0F then rrc f value
  else if 0x10 ≤ operation ∧ operation ≤ 0x17 then rl f value
  else if 0x18 ≤ operation ∧ operation ≤ 0x1F then rr f value
  else if 0x20 ≤ operation ∧ operation ≤ 0x27 then
    let carry := ((value >>> 7) &&& 1) != 0
    let value := (value <<< 1) % 256
    (value, { f with zf := (value == 0x00), n := false, h := false, cy := carry })
  else if 0x28 ≤ operation ∧ operation ≤ 0x2F then
    let carry := ((value >>> 0) &&& 1) != 0
    let value := (value &&& 0x80) ||| (value >>> 1)
    (value, { f with zf := (value == 0x00), n := false, h := false, cy := carry })
  else if 0x30 ≤ operation ∧ operation ≤ 0x37 then
    let high_nibble := (value >>> 4) &&& 0xF
    let low_nibble := (value >>> 0) &&& 0xF
    let value := ((low_nibble <<< 4) ||| high_nibble) % 256
    (value, { f with zf := (value == 0x00), n := false, h := false, cy := false })
  else if 0x37 ≤ operation ∧ operation ≤ 0x3F then
    let carry := ((value >>> 0) &&& 1) != 0
    let value := value >>> 1
    (value, { f with zf := (value == 0x00), n := false, h := false, cy := carry })
  else if 0x40 ≤ operation ∧ operation ≤ 0x7F then
    let bit := ((value >>> operation_index) &&& 1) != 0
    (value, { f with zf := bit, n := false, h := true })
  else if 0x80 ≤ operation ∧ operation ≤ 0xBF then
    (value &&& (0xFF ^^^ (1 <<< operation_index)), f)
  else if 0xC0 ≤ operation ∧ operation ≤ 0xFF then
    ((value ||| (1 <<< operation_index)) % 256, f)
  else
    (value, f)

def emulate_cb_prefix (code : Code) (s : Machine) : Except Fault (Nat × Machine) := do
  let operation := code 1 % 256
  let op1 := operation &&& 7
  let value ← read_x8 s op1
  let r := cb_operation s.cpu.f operation value
  let s ← write_x8 (s.set_f r.2) op1 r.1
  .ok (8, s)

def emulate_call (code : Code) (s : Machine) : Except Fault (Nat × Machine) := do
  let s ← call s (decode_a16 code)
  .ok (24, s)

def emulate_call_cc_a16 (code : Code) (s : Machine) : Except Fault (Nat × Machine) := do
  if ← get_cc_result s.cpu.f (decode_cc code) then
    let s ← call s (decode_a16 code)
    .ok (24, s)
  else
    .ok (12, s)

def emulate_push_x16 (code : Code) (s : Machine) : Except Fault (Nat × Machine) := do
  let value ← read_x16 s (decode_x16 code)
  let s ← push16 s value
  .ok (16, s)

def emulate_push_af (_code : Code) (s : Machine) : Except Fault (Nat × Machine) := do
  let s ← push16 s s.cpu.af
  .ok (16, s)

def emulate_ret (_code : Code) (s : Machine) : Except Fault (Nat × Machine) := do
  let (value, s) ← pop16 s
  .ok (16, s.set_pc value)

def emulate_ret_cc (code : Code) (s : Machine) : Except Fault (Nat × Machine) := do
  if ← get_cc_result s.cpu.f (decode_cc code) then
    let (value, s) ← pop16 s
    .ok (20, s.set_pc value)
  else
    .ok (8, s)

def emulate_reti (_code : Code) (s : Machine) : Except Fault (Nat × Machine) := do
  let s := { s with ime := true }
  let (value, s) ← pop16 s
  .ok (16, s.set_pc value)

def emulate_pop_x16 (code : Code) (s : Machine) : Except Fault (Nat × Machine) := do
  let (value, s) ← pop16 s
  let s ← write_x16 s (decode_x16 code) value
  .ok (12, s)

def emulate_pop_af (_code : Code) (s : Machine) : Except Fault (Nat × Machine) := do
  let (value, s) ← pop16 s
  .ok (12, { s with cpu := s.cpu.set_af value })

def emulate_ld_x8_d8 (code : Code) (s : Machine) : Except Fault (Nat × Machine) := do
  let s ← write_x8 s (decode_mid3 code) (decode_d8 code)
  .ok (8, s)

def emulate_ld_ea (code : Code) (s : Machine) : Except Fault (Nat × Machine) := do
  let s ← write_memory8 s (decode_a16 code) s.cpu.a
  .ok (16, s)

def emulate_ld_e2 (_code : Code) (s : Machine) : Except Fault (Nat × Machine) := do
  let s ← write_memory8 s (0xFF00 + s.cpu.c % 256) s.cpu.a
  .ok (8, s)

def emulate_ld_f2 (_code : Code) (s : Machine) : Except Fault (Nat × Machine) := do
  let value ← read_memory8 s (0xFF00 + s.cpu.c % 256)
  .ok (8, s.set_a value)

def emulate_ld_fa (code : Code) (s : Machine) : Except Fault (Nat × Machine) := do
  let value ← read_memory8 s (decode_a16 code)
  .ok (16, s.set_a value)

def emulate_ld_f9 (_code : Code) (s : Machine) : Except Fault (Nat × Machine) :=
  .ok (8, s.set_sp s.cpu.hl)

def emulate_ei (_code : Code) (s : Machine) : Except Fault (Nat × Machine) :=
  .ok (4, { s with ime := true })

def emulate_di (_code : Code) (s : Machine) : Except Fault (Nat × Machine) :=
  .ok (4, { s with ime := false })

def emulate_undefined (_code : Code) (s : Machine) : Except Fault (Nat × Machine) :=
  .ok (0, s.set_pc (s.cpu.pc % 65536 + 65536 - 1))

def emulate_rra (_code : Code) (s : Machine) : Except Fault (Nat × Machine) :=
  let r := rr s.cpu.f (s.cpu.a % 256)
  .ok (4, s.set_a_f (r.1, { r.2 with zf := false }))

def emulate_rrca (_code : Code) (s : Machine) : Except Fault (Nat × Machine) :=
  let r := rrc s.cpu.f (s.cpu.a % 256)
  .ok (4, s.set_a_f (r.1, { r.2 with zf := false }))

def emulate_rla (_code : Code) (s : Machine) : Except Fault (Nat × Machine) :=
  let r := rl s.cpu.f (s.cpu.a % 256)
  .ok (4, s.set_a_f (r.1, { r.2 with zf := false }))

def emulate_rlca (_code : Code) (s : Machine) : Except Fault (Nat × Machine) :=
  let r := rlc s.cpu.f (s.cpu.a % 256)
  .ok (4, s.set_a_f (r.1, { r.2 with zf := false }))

def emulate_cpl (_code : Code) (s : Machine) : Except Fault (Nat × Machine) :=
  .ok (4, s.set_a_f ((s.cpu.a % 256) ^^^ 0xFF, { s.cpu.f with n := true, h := true }))

def emulate_scf (_code : Code) (s : Machine) : Except Fault (Nat × Machine) :=
  .ok (4, s.set_f { s.cpu.f with n := false, h := false, cy := true })

def emulate_ccf (_code : Code) (s : Machine) : Except Fault (Nat × Machine) :=
  .ok (4, s.set_f { s.cpu.f with n := false, h := false, cy := !s.cpu.f.cy })

/-- The accumulator and flags that `emulate_daa` leaves, from those it finds. -/
def daa (f : Flags) (a : Nat) : Nat × Flags :=
  let r : Nat × Flags :=
    if f.n then
      let a := if f.h then (a % 256 + 0xFA) % 256 else a % 256
      let a := if f.cy then (a + 0xA0) % 256 else a
      (a, f)
    else
      let a := a % 256
      let a := if (a &&& 0x00F) > 0x09 ∨ f.h = true then a + 0x06 else a
      if (a &&& 0x1F0) > 0x90 ∨ f.cy = true then
        ((a + 0x60) % 256, { f with cy := true })
      else
        (a % 256, { f with cy := false })
  (r.1, { r.2 with h := false, zf := (r.1 != 0x00) })

def emulate_daa (_code : Code) (s : Machine) : Except Fault (Nat × Machine) :=
  .ok (4, s.set_a_f (daa s.cpu.f s.cpu.a))

/-! ## The handler table (`INSTRUCTION_HANDLER`) and the decoder -/

/-- One constructor per `INSTRUCTION_HANDLER(name, length)` line: the object `handle_name`. -/
inductive Handler where
  | stop_0
  | rra
  | rla
  | jr_cc_r8
  | cp_d8
  | cp_x8
  | and_d8
  | add_d8
  | sub_d8
  | or_d8
  | xor_d8
  | dec_x8
  | dec_x16
  | inc_x16
  | inc_x8
  | nop
  | call
  | call_cc_a16
  | push_x16
  | pop_x16
  | push_af
  | pop_af
  | halt
  | ld
  | ldi
  | ldd
  | ld_mem_02
  | ld_mem_12
  | ld_mem_0a
  | ld_mem_1a
  | ldi_2a
  | ldd_3a
  | ld_x8_d8
  | ld_e2
  | ld_f2
  | jp_a16
  | jp_hl
  | jp_cc
  | jr_r8
  | add_hl
  | sub
  | sbc
  | add
  | adc
  | adc_d8
  | xor
  | sbc_d8
  | or
  | and
  | e0_ldh
  | ld_ea
  | ld_fa
  | ld_f8
  | ld_f9
  | f0_ldh
  | cb_prefix
  | ret
  | ret_cc
  | reti
  | ld_x16_d16
  | undefined
  | ei
  | di
  | rst
  | rrca
  | rlca
  | ld_a16
  | add_sp
  | cpl
  | scf
  | ccf
  | daa
  deriving DecidableEq, Repr

/-- The field `length` of a handler. -/
def Handler.length : Handler → Nat
  | .stop_0 => 2
  | .rra => 1
  | .rla => 1
  | .jr_cc_r8 => 2
  | .cp_d8 => 2
  | .cp_x8 => 1
  | .and_d8 => 2
  | .add_d8 => 2
  | .sub_d8 => 2
  | .or_d8 => 2
  | .xor_d8 => 2
  | .dec_x8 => 1
  | .dec_x16 => 1
  | .inc_x16 => 1
  | .inc_x8 => 1
  | .nop => 1
  | .call => 3
  | .call_cc_a16 => 3
  | .push_x16 => 1
  | .pop_x16 => 1
  | .push_af => 1
  | .pop_af => 1
  | .halt => 1
  | .ld => 1
  | .ldi => 1
  | .ldd => 1
  | .ld_mem_02 => 1
  | .ld_mem_12 => 1
  | .ld_mem_0a => 1
  | .ld_mem_1a => 1
  | .ldi_2a => 1
  | .ldd_3a => 1
  | .ld_x8_d8 => 2
  | .ld_e2 => 1
  | .ld_f2 => 1
  | .jp_a16 => 3
  | .jp_hl => 1
  | .jp_cc => 3
  | .jr_r8 => 2
  | .add_hl => 1
  | .sub => 1
  | .sbc => 1
  | .add => 1
  | .adc => 1
  | .adc_d8 => 2
  | .xor => 1
  | .sbc_d8 => 2
  | .or => 1
  | .and => 1
  | .e0_ldh => 2
  | .ld_ea => 3
  | .ld_fa => 3
  | .ld_f8 => 2
  | .ld_f9 => 1
  | .f0_ldh => 2
  | Handler.cb_prefix => 2
  | .ret => 1
  | .ret_cc => 1
  | .reti => 1
  | .ld_x16_d16 => 3
  | .undefined => 1
  | .ei => 1
  | .di => 1
  | .rst => 1
  | .rrca => 1
  | .rlca => 1
  | .ld_a16 => 3
  | .add_sp => 2
  | .cpl => 1
  | .scf => 1
  | .ccf => 1
  | .daa => 1

/-- The field `emulate` of a handler. -/
def Handler.emulate : Handler → Code → Machine → Except Fault (Nat × Machine)
  | .stop_0 => emulate_stop_0
  | .rra => emulate_rra
  | .rla => emulate_rla
  | .jr_cc_r8 => emulate_jr_cc_r8
  | .cp_d8 => emulate_cp_d8
  | .cp_x8 => emulate_cp_x8
  | .and_d8 => emulate_and_d8
  | .add_d8 => emulate_add_d8
  | .sub_d8 => emulate_sub_d8
  | .or_d8 => emulate_or_d8
  | .xor_d8 => emulate_xor_d8
  | .dec_x8 => emulate_dec_x8
  | .dec_x16 => emulate_dec_x16
  | .inc_x16 => emulate_inc_x16
  | .inc_x8 => emulate_inc_x8
  | .nop => emulate_nop
  | .call => emulate_call
  | .call_cc_a16 => emulate_call_cc_a16
  | .push_x16 => emulate_push_x16
  | .pop_x16 => emulate_pop_x16
  | .push_af => emulate_push_af
  | .pop_af => emulate_pop_af
  | .halt => emulate_halt
  | .ld => emulate_ld
  | .ldi => emulate_ldi
  | .ldd => emulate_ldd
  | .ld_mem_02 => emulate_ld_mem_02
  | .ld_mem_12 => emulate_ld_mem_12
  | .ld_mem_0a => emulate_ld_mem_0a
  | .ld_mem_1a => emulate_ld_mem_1a
  | .ldi_2a => emulate_ldi_2a
  | .ldd_3a => emulate_ldd_3a
  | .ld_x8_d8 => emulate_ld_x8_d8
  | .ld_e2 => emulate_ld_e2
  | .ld_f2 => emulate_ld_f2
  | .jp_a16 => emulate_jp_a16
  | .jp_hl => emulate_jp_hl
  | .jp_cc => emulate_jp_cc
  | .jr_r8 => emulate_jr_r8
  | .add_hl => emulate_add_hl
  | .sub => emulate_sub
  | .sbc => emulate_sbc
  | .add => emulate_add
  | .adc => emulate_adc
  | .adc_d8 => emulate_adc_d8
  | .xor => emulate_xor
  | .sbc_d8 => emulate_sbc_d8
  | .or => emulate_or
  | .and => emulate_and
  | .e0_ldh => emulate_e0_ldh
  | .ld_ea => emulate_ld_ea
  | .ld_fa => emulate_ld_fa
  | .ld_f8 => emulate_ld_f8
  | .ld_f9 => emulate_ld_f9
  | .f0_ldh => emulate_f0_ldh
  | Handler.cb_prefix => emulate_cb_prefix
  | .ret => emulate_ret
  | .ret_cc => emulate_ret_cc
  | .reti => emulate_reti
  | .ld_x16_d16 => emulate_ld_x16_d16
  | .undefined => emulate_undefined
  | .ei => emulate_ei
  | .di => emulate_di
  | .rst => emulate_rst
  | .rrca => emulate_rrca
  | .rlca => emulate_rlca
  | .ld_a16 => emulate_ld_a16
  | .add_sp => emulate_add_sp
  | .cpl => emulate_cpl
  | .scf => emulate_scf
  | .ccf => emulate_ccf
  | .daa => emulate_daa

/-- Function `cpu_decode`; the last branch is the failing assertion of the source. -/
def cpu_decode (opcode : Nat) : Except Fault Handler :=
  if opcode = 0x00 then .ok .nop
  else if opcode = 0x01 ∨ opcode = 0x11 ∨ opcode = 0x21 ∨ opcode = 0x31 then .ok .ld_x16_d16
  else if opcode = 0x02 then .ok .ld_mem_02
  else if opcode = 0x03 ∨ opcode = 0x13 ∨ opcode = 0x23 ∨ opcode = 0x33 then .ok .inc_x16
  else if opcode = 0x04 ∨ opcode = 0x14 ∨ opcode = 0x24 ∨ opcode = 0x34 ∨ opcode = 0x0C ∨ opcode = 0x1C
      ∨ opcode = 0x2C ∨ opcode = 0x3C then .ok .inc_x8
  else if opcode = 0x05 ∨ opcode = 0x15 ∨ opcode = 0x25 ∨ opcode = 0x35 ∨ opcode = 0x0D ∨ opcode = 0x1D
      ∨ opcode = 0x2D ∨ opcode = 0x3D then .ok .dec_x8
  else if opcode = 0x06 ∨ opcode = 0x16 ∨ opcode = 0x26 ∨ opcode = 0x36 ∨ opcode = 0x0E ∨ opcode = 0x1E
      ∨ opcode = 0x2E ∨ opcode = 0x3E then .ok .ld_x8_d8
  else if opcode = 0x07 then .ok .rlca
  else if opcode = 0x08 then .ok .ld_a16
  else if opcode = 0x09 ∨ opcode = 0x19 ∨ opcode = 0x29 ∨ opcode = 0x39 then .ok .add_hl
  else if opcode = 0x0A then .ok .ld_mem_0a
  else if opcode = 0x0B ∨ opcode = 0x1B ∨ opcode = 0x2B ∨ opcode = 0x3B then .ok .dec_x16
  else if opcode = 0x0F then .ok .rrca
  else if opcode = 0x10 then .ok .stop_0
  else if opcode = 0x12 then .ok .ld_mem_12
  else if opcode = 0x17 then .ok .rla
  else if opcode = 0x18 then .ok .jr_r8
  else if opcode = 0x1A then .ok .ld_mem_1a
  else if opcode = 0x1F then .ok .rra
  else if opcode = 0x20 ∨ opcode = 0x28 ∨ opcode = 0x30 ∨ opcode = 0x38 then .ok .jr_cc_r8
  else if opcode = 0x22 then .ok .ldi
  else if opcode = 0x27 then .ok .daa
  else if opcode = 0x2A then .ok .ldi_2a
  else if opcode = 0x2F then .ok .cpl
  else if opcode = 0x32 then .ok .ldd
  else if opcode = 0x37 then .ok .scf
  else if opcode = 0x3A then .ok .ldd_3a
  else if opcode = 0x3F then .ok .ccf
  else if 0x40 ≤ opcode ∧ opcode ≤ 0x7F then
    if opcode = 0x76 then .ok .halt else .ok .ld
  else if 0x80 ≤ opcode ∧ opcode ≤ 0x87 then .ok .add
  else if 0x88 ≤ opcode ∧ opcode ≤ 0x8F then .ok .adc
  else if 0x90 ≤ opcode ∧ opcode ≤ 0x97 then .ok .sub
  else if 0x98 ≤ opcode ∧ opcode ≤ 0x9F then .ok .sbc
  else if 0xA8 ≤ opcode ∧ opcode ≤ 0xAF then .ok .xor
  else if 0xA0 ≤ opcode ∧ opcode ≤ 0xA7 then .ok .and
  else if 0xB0 ≤ opcode ∧ opcode ≤ 0xB7 then .ok .or
  else if 0xB8 ≤ opcode ∧ opcode ≤ 0xBF then .ok .cp_x8
  else if opcode = 0xC0 ∨ opcode = 0xC8 ∨ opcode = 0xD0 ∨ opcode = 0xD8 then .ok .ret_cc
  else if opcode = 0xC1 ∨ opcode = 0xD1 ∨ opcode = 0xE1 then .ok .pop_x16
  else if opcode = 0xC2 ∨ opcode = 0xCA ∨ opcode = 0xD2 ∨ opcode = 0xDA then .ok .jp_cc
  else if opcode = 0xC3 then .ok .jp_a16
  else if opcode = 0xC4 ∨ opcode = 0xCC ∨ opcode = 0xD4 ∨ opcode = 0xDC then .ok .call_cc_a16
  else if opcode = 0xC5 ∨ opcode = 0xD5 ∨ opcode = 0xE5 then .ok .push_x16
  else if opcode = 0xC6 then .ok .add_d8
  else if opcode = 0xC7 ∨ opcode = 0xD7 ∨ opcode = 0xE7 ∨ opcode = 0xF7 ∨ opcode = 0xCF ∨ opcode = 0xDF
      ∨ opcode = 0xEF ∨ opcode = 0xFF then .ok .rst
  else if opcode = 0xC9 then .ok .ret
  else if opcode = 0xCB then .ok Handler.cb_prefix
  else if opcode = 0xCD then .ok .call
  else if opcode = 0xCE then .ok .adc_d8
  else if opcode = 0xD3 ∨ opcode = 0xDB ∨ opcode = 0xDD ∨ opcode = 0xE3 ∨ opcode = 0xE4
      ∨ (0xEB ≤ opcode ∧ opcode ≤ 0xED) ∨ opcode = 0xF4 ∨ opcode = 0xFC ∨ opcode = 0xFD then .ok .undefined
  else if opcode = 0xD6 then .ok .sub_d8
  else if opcode = 0xD9 then .ok .reti
  else if opcode = 0xDE then .ok .sbc_d8
  else if opcode = 0xE0 then .ok .e0_ldh
  else if opcode = 0xE2 then .ok .ld_e2
  else if opcode = 0xE6 then .ok .and_d8
  else if opcode = 0xE8 then .ok .add_sp
  else if opcode = 0xE9 then .ok .jp_hl
  else if opcode = 0xEA then .ok .ld_ea
  else if opcode = 0xEE then .ok .xor_d8
  else if opcode = 0xF0 then .ok .f0_ldh
  else if opcode = 0xF1 then .ok .pop_af
  else if opcode = 0xF2 then .ok .ld_f2
  else if opcode = 0xF3 then .ok .di
  else if opcode = 0xF5 then .ok .push_af
  else if opcode = 0xF6 then .ok .or_d8
  else if opcode = 0xF8 then .ok .ld_f8
  else if opcode = 0xF9 then .ok .ld_f9
  else if opcode = 0xFA then .ok .ld_fa
  else if opcode = 0xFB then .ok .ei
  else if opcode = 0xFE then .ok .cp_d8
  else .error .assert_failed

/-! ## The CPU step -/

def INTERRUPTS_VBLANK : Nat := 1 <<< 0
def INTERRUPTS_LCDSTAT : Nat := 1 <<< 1
def INTERRUPTS_TIMER : Nat := 1 <<< 2
def INTERRUPTS_SERIAL : Nat := 1 <<< 3
def INTERRUPTS_JOYPAD : Nat := 1 <<< 4

/-- Function `invoke_interrupt`. -/
def invoke_interrupt (s : Machine) (address : Nat) : Except Fault Machine :=
  call { s with ime := false } address

/-- The body of `if (ime) { … }` in `cpu_step`.  Only the LCD-STAT test is
chained to the one before it by `else`; the Timer, Serial and Joypad tests are
`if` statements of their own, and the last two start with `assert(false)`. -/
def cpu_interrupts (s : Machine) : Except Fault Machine := do
  let _if ← read_io8 s IF
  let irq := (s.ie % 256) &&& _if
  let (s, _if) ←
    if irq &&& INTERRUPTS_VBLANK ≠ 0 then do
      let s ← invoke_interrupt s 0x40
      pure (s, _if &&& (0xFF ^^^ INTERRUPTS_VBLANK))
    else if irq &&& INTERRUPTS_LCDSTAT ≠ 0 then do
      let s ← invoke_interrupt s 0x48
      pure (s, _if &&& (0xFF ^^^ INTERRUPTS_LCDSTAT))
    else pure (s, _if)
  let (s, _if) ←
    if irq &&& INTERRUPTS_TIMER ≠ 0 then do
      let s ← invoke_interrupt s 0x50
      pure (s, _if &&& (0xFF ^^^ INTERRUPTS_TIMER))
    else pure (s, _if)
  if irq &&& INTERRUPTS_SERIAL ≠ 0 then .error .assert_failed else
  if irq &&& INTERRUPTS_JOYPAD ≠ 0 then .error .assert_failed else
  write_io8 s IF _if

/-- The loop `for (int i = 1; i < handler->length; i++) code[i] = read_memory8(cpu.pc + i)`,
with `n` iterations left. -/
def read_code (s : Machine) : Nat → Nat → Code → Except Fault Code
  | 0, _, code => .ok code
  | n + 1, i, code => do
    let v ← read_memory8 s (s.cpu.pc + i)
    read_code s n (i + 1) (upd code i v)

/-- What one iteration of the `while` loop of `cpu_step` does after the
interrupt check: fetch, decode, read the operand bytes, advance PC, emulate.
Returns the cycles of the instruction and the new state. -/
def cpu_fetch_execute (s : Machine) : Except Fault (Nat × Machine) := do
  let opcode ← read_memory8 s s.cpu.pc
  let handler ← cpu_decode opcode
  let code ← read_code s (handler.length - 1) 1 (upd (fun _ => 0) 0 opcode)
  let s := s.set_pc (s.cpu.pc + handler.length)
  handler.emulate code s

/-- One iteration of the `while` loop of `cpu_step`. -/
def cpu_step_once (s : Machine) : Except Fault (Nat × Machine) := do
  let s := s.set_f { s.cpu.f with zero := 0 }
  let s ← if s.ime then cpu_interrupts s else pure s
  cpu_fetch_execute s

/-- Function `cpu_step`; `fuel` bounds the number of iterations of its loop. -/
def cpu_step : Nat → Int → Machine → Except Fault (Int × Machine)
  | fuel, mcycles, s =>
    if mcycles > 0 then
      match fuel with
      | 0 => .error .out_of_fuel
      | fuel + 1 => do
        let (cycles, s) ← cpu_step_once s
        cpu_step fuel (mcycles - cycles) s
    else
      .ok (mcycles, s)

/-! ## Initialisation -/

/-- The first four assignments of `initialize_cartridge`: the MBC1 registers
after initialisation (RAM disabled, both bank registers 0, ROM-banking mode). -/
def initialize_cartridge_registers (s : Machine) : Machine :=
  { s with
    ram_enable := false
    rom_bank_number := 0x00
    rom_ram_bank_number := 0x00
    rom_ram_mode_select := false }

/-! ## Vocabulary of the statements -/

deriving instance DecidableEq for Except

/-- Addresses that `map_memory` sends to an array other than the ROM, or to `ie`:
VRAM, cartridge RAM, work RAM, echo, OAM (0x8000-0xFE9F), high RAM and IE (0xFF80-0xFFFF). -/
def is_ram (a : Nat) : Prop := (0x8000 ≤ a ∧ a ≤ 0xFE9F) ∨ (0xFF80 ≤ a ∧ a ≤ 0xFFFF)

instance (a : Nat) : Decidable (is_ram a) := by unfold is_ram; infer_instance

/-- Work RAM (0xC000-0xDFFF) or high RAM (0xFF80-0xFFFE). -/
def is_wram_or_hram (a : Nat) : Prop := (0xC000 ≤ a ∧ a ≤ 0xDFFF) ∨ (0xFF80 ≤ a ∧ a ≤ 0xFFFE)

instance (a : Nat) : Decidable (is_wram_or_hram a) := by unfold is_wram_or_hram; infer_instance

/-- The cell lies inside a RAM array (or is `ie`). -/
def Cell.in_ram : Cell → Prop
  | .rom _ => False
  | .vram i => i < 8 * 1024
  | .cartridge_ram i => i < 8 * 1024 * CARTRIDGE_RAM_BANKS
  | .wram0 i => i < 4 * 1024
  | .wram1 i => i < 4 * 1024
  | .echo i => i < 0x1E00
  | .oam i => i < 0xA0
  | .hram i => i < 0x80
  | .ie => True

/-- The bus address at which a RAM cell is visible (for cartridge RAM, in the
window 0xA000-0xBFFF of the bank that holds it). -/
def Cell.address : Cell → Nat
  | .rom i => i
  | .vram i => 0x8000 + i
  | .cartridge_ram i => 0xA000 + i % 0x2000
  | .wram0 i => 0xC000 + i
  | .wram1 i => 0xD000 + i
  | .echo i => 0xE000 + i
  | .oam i => 0xFE00 + i
  | .hram i => 0xFF80 + i
  | .ie => 0xFFFF

/-- All flags clear. -/
def flags0 : Flags := { zero := 0, cy := false, h := false, n := false, zf := false }

/-- Packed BCD encoding of a number below 100: tens in the high nibble. -/
def bcd (x : Nat) : Nat := (x / 10) * 16 + x % 10

/-- A machine with every byte zero, a 32 KiB ROM, SP = 0xFFFE and PC = 0x0100. -/
def Machine.blank : Machine :=
  { cpu := { f := flags0, a := 0, c := 0, b := 0, e := 0, d := 0, l := 0, h := 0, sp := 0xFFFE, pc := 0x0100 }
    io_ports := fun _ => 0
    ie := 0
    ime := false
    vram_memory := fun _ => 0
    cartridge_ram_memory := fun _ => 0
    wram0_memory := fun _ => 0
    wram1_memory := fun _ => 0
    echo_memory := fun _ => 0
    oam_memory := fun _ => 0
    hram_memory := fun _ => 0
    ram_enable := false
    rom_bank_number := 0
    rom_ram_bank_number := 0
    rom_ram_mode_select := false
    cartridge_rom_size := 0x8000
    cartridge_rom_memory := fun _ => 0
    gameboy_input :=
      { start := false, select := false, a := false, b := false
        up := false, down := false, left := false, right := false }
    gameboy_framebuffer := fun _ => 0 }

/-- The blank machine with the bytes `prog` in ROM from address 0x0100 on. -/
def Machine.with_program (prog : List Nat) : Machine :=
  { Machine.blank with cartridge_rom_memory := fun i => prog.getD (i - 0x0100) 0 }

/-- The machine `t` holds the same bytes as `s` in every RAM array and in `ie`,
and the same MBC1 registers: a read of RAM gives the same value in both. -/
def Machine.same_ram (s t : Machine) : Prop :=
  t.vram_memory = s.vram_memory ∧ t.cartridge_ram_memory = s.cartridge_ram_memory ∧
  t.wram0_memory = s.wram0_memory ∧ t.wram1_memory = s.wram1_memory ∧ t.echo_memory = s.echo_memory ∧
  t.oam_memory = s.oam_memory ∧ t.hram_memory = s.hram_memory ∧ t.ie = s.ie ∧
  t.rom_ram_bank_number = s.rom_ram_bank_number ∧ t.rom_bank_number = s.rom_bank_number ∧
  t.rom_ram_mode_select = s.rom_ram_mode_select

/-- What a write to RAM keeps: registers, I/O ports, IME, MBC1 registers, buttons and ROM. -/
def Machine.frame (s s' : Machine) : Prop :=
  s'.cpu = s.cpu ∧ s'.io_ports = s.io_ports ∧ s'.ime = s.ime ∧
  s'.rom_ram_bank_number = s.rom_ram_bank_number ∧ s'.rom_bank_number = s.rom_bank_number ∧
  s'.rom_ram_mode_select = s.rom_ram_mode_select ∧ s'.gameboy_input = s.gameboy_input ∧
  s'.cartridge_rom_memory = s.cartridge_rom_memory ∧ s'.cartridge_rom_size = s.cartridge_rom_size

/-- The blank machine with IME set and the bytes `ie_byte` in IE and `if_byte` in IF. -/
def Machine.with_interrupts (ie_byte if_byte : Nat) : Machine :=
  { Machine.blank with ime := true, ie := ie_byte, io_ports := upd (fun _ => 0) 0x0F if_byte }

/-- The address `a` is one that machine `s` maps into a RAM array (or to `ie`):
`is_ram a`, and for the cartridge-RAM window the selected RAM bank is one of the
`CARTRIDGE_RAM_BANKS` banks of `cartridge_ram_memory`. -/
def Machine.ram_at (s : Machine) (a : Nat) : Prop :=
  is_ram a ∧ ((0xA000 ≤ a ∧ a ≤ 0xBFFF) → get_ram_bank_number s ≤ 3)

instance (s : Machine) (a : Nat) : Decidable (s.ram_at a) := by
  unfold Machine.ram_at; infer_instance

/-- A machine with VBlank pending whose stack pointer is in the ROM bank
register range, and whose PC has a low byte above 0x1F. -/
def Machine.stack_in_rom : Machine :=
  { Machine.with_interrupts 0x01 0x01 with cpu := { Machine.blank.cpu with sp := 0x3000, pc := 0x0150 } }

/-- A machine with VBlank pending whose stack pointer is in the unusable range 0xFEA0-0xFEFF. -/
def Machine.stack_in_unusable : Machine :=
  { Machine.with_interrupts 0x01 0x01 with cpu := { Machine.blank.cpu with sp := 0xFEA2 } }

/-- A machine about to execute `POP AF` (0xF1 at PC = 0x0100) with the word 0x12FF at SP = 0xFFFC. -/
def Machine.pop_af_0x12FF : Machine :=
  { Machine.with_program [0xF1] with
    cpu := { Machine.blank.cpu with sp := 0xFFFC }
    hram_memory := upd (upd (fun _ => 0) 0x7C 0xFF) 0x7D 0x12 }

/-- A machine about to execute `POP AF; PUSH AF` (0xF1, 0xF5 at PC = 0x0100) with the word
0x12FF at SP = 0xFFFC. -/
def Machine.pop_push_af : Machine :=
  { Machine.with_program [0xF1, 0xF5] with
    cpu := { Machine.blank.cpu with sp := 0xFFFC }
    hram_memory := upd (upd (fun _ => 0) 0x7C 0xFF) 0x7D 0x12 }

/-- An MBC1 machine in ROM mode with primary bank 3 and secondary 2, a 2 MiB ROM whose
every byte holds the number of its 16 KiB bank, and a cartridge RAM whose every byte
holds 0x10 plus the number of its 8 KiB bank. -/
def Machine.mbc1_banked : Machine :=
  { Machine.blank with
    rom_bank_number := 3
    rom_ram_bank_number := 2
    rom_ram_mode_select := false
    cartridge_rom_size := 0x200000
    cartridge_rom_memory := fun i => i / 0x4000
    cartridge_ram_memory := fun i => 0x10 + i / 0x2000 }

/-- The four `if (pressed) { v &= ~(1 << k); }` statements of one row of the key matrix
in `read_io8`, for the keys wired to bits 3, 2, 1, 0. -/
def clear_pressed (v : Nat) (k3 k2 k1 k0 : Bool) : Nat :=
  let v := if k3 then v &&& 0xF7 else v
  let v := if k2 then v &&& 0xFB else v
  let v := if k1 then v &&& 0xFD else v
  if k0 then v &&& 0xFE else v

/-- The blank machine with `stored` in the joypad register and the keys `keys` held. -/
def Machine.with_joypad (stored : Nat) (keys : GameboyInput) : Machine :=
  { Machine.blank with io_ports := upd Machine.blank.io_ports 0x00 stored, gameboy_input := keys }

/-- Start, A, Up and Left held; the other four keys released. -/
def keys_start_a_up_left : GameboyInput :=
  { start := true, select := false, a := true, b := false
    up := true, down := false, left := true, right := false }

/-- Partial correctness of a fallible computation: if it returns, the result satisfies `P`. -/
def ensures {α : Type} (x : Except Fault α) (P : α → Prop) : Prop := ∀ a, x = .ok a → P a

/-- Whether the body of the handler's emulator holds an assignment to `cpu.pc`
(directly, or through `call`). -/
def Handler.assigns_pc : Handler → Bool
  | .jp_a16 | .jp_hl | .jp_cc | .jr_r8 | .jr_cc_r8 => true
  | .call | .call_cc_a16 | .rst => true
  | .ret | .ret_cc | .reti => true
  | .undefined => true
  | _ => false

/-- The blank machine with the value 5 in the four unused bits of F and 0x3C in A. -/
def Machine.low_nibble_5 : Machine :=
  { Machine.blank with cpu := { Machine.blank.cpu with f := { flags0 with zero := 5 }, a := 0x3C } }

/-- A machine about to execute the three-byte instruction LD BC,d16 (opcode 0x01) at
PC = 0xFFFE: the opcode byte is the high-RAM byte 0xFFFE, the operand bytes are IE
(0xFFFF) and the ROM byte 0x0000. -/
def Machine.ld_at_0xFFFE : Machine :=
  { Machine.blank with
    cpu := { Machine.blank.cpu with pc := 0xFFFE }
    hram_memory := upd Machine.blank.hram_memory 0x7E 0x01
    ie := 0x34
    cartridge_rom_memory := upd Machine.blank.cartridge_rom_memory 0x0000 0x12 }

/-- A machine with IME set, VBlank enabled and pending, and the undefined opcode 0xD3 in
the ROM byte at the VBlank vector 0x0040. -/
def Machine.undefined_at_vector : Machine :=
  { Machine.with_interrupts 0x01 0x01 with
    cartridge_rom_memory := upd Machine.blank.cartridge_rom_memory 0x0040 0xD3 }

/-- The blank machine with the undefined opcode 0xD3 at PC = 0x0100, the value 5 in the
unused bits of F and IME set with nothing pending. -/
def Machine.undefined_at_pc : Machine :=
  { Machine.blank with
    cpu := { Machine.blank.cpu with f := { flags0 with zero := 5 } }
    ime := true
    cartridge_rom_memory := upd Machine.blank.cartridge_rom_memory 0x0100 0xD3 }

/-- The state of the DMA loop of `write_io8` after `k` iterations, started by the write of
`v` to the DMA register of `s`, when the bytes read from the source are `b 0`, `b 1`, ... -/
def Machine.dma_after (s : Machine) (v : Nat) (b : Nat → Nat) (k : Nat) : Machine :=
  { s with
    io_ports := upd s.io_ports 0x46 v
    oam_memory := fun j => if j < k then b j else s.oam_memory j }

/-- The blank machine with the byte `(7 * i + 3) mod 256` at offset `i` of work RAM bank 0
and 0xEE in every OAM byte. -/
def Machine.dma_source : Machine :=
  { Machine.blank with
    wram0_memory := fun i => (7 * i + 3) % 256
    oam_memory := fun _ => 0xEE }

/-- A machine about to run ADD HL,BC with HL = 0x0FFF and BC = 0x0001. -/
def Machine.add_hl_0x0FFF : Machine :=
  { Machine.blank with cpu := { Machine.blank.cpu with h := 0x0F, l := 0xFF, b := 0x00, c := 0x01 } }

/-- The blank machine with A = `a` and the carry flag `cy`. -/
def Machine.with_a_carry (a : Nat) (cy : Bool) : Machine :=
  { Machine.blank with cpu := { Machine.blank.cpu with a := a, f := { flags0 with cy := cy } } }

/-- Spec side of the rotates: the byte `v` rotated left by one bit, bit 7 re-entering at bit 0. -/
def rotate_left_circular (v : Nat) : Nat := ((v <<< 1) ||| (v >>> 7)) % 256

/-- Spec side of the rotates: the byte `v` rotated right by one bit, bit 0 re-entering at bit 7. -/
def rotate_right_circular (v : Nat) : Nat := ((v >>> 1) ||| (v <<< 7)) % 256

/-- Spec side of the rotates: the nine bits `c`, `v` rotated left, the old carry entering at bit 0. -/
def rotate_left_through_carry (v : Nat) (c : Bool) : Nat := ((v <<< 1) ||| b2n c) % 256

/-- Spec side of the rotates: the nine bits `c`, `v` rotated right, the old carry entering at bit 7. -/
def rotate_right_through_carry (v : Nat) (c : Bool) : Nat := ((v >>> 1) ||| (b2n c <<< 7)) % 256

/-- Bit `k` of `v` as a C `bool`. -/
def bit_of (v k : Nat) : Bool := (v >>> k) % 2 == 1

/-- A machine about to run LD B,(HL) with HL = 0xC000 and the byte 0x5A there. -/
def Machine.ld_b_hl : Machine :=
  { Machine.blank with
    cpu := { Machine.blank.cpu with h := 0xC0, l := 0x00 }
    wram0_memory := upd Machine.blank.wram0_memory 0 0x5A }

/-! ## Display pipeline -/

/-- Modelled from the spec: the macro `GAMEBOY_SCREEN_WIDTH` of `gameboy.h`, which is not
among the sources; the framebuffer is 160 x 144 bytes. -/
def GAMEBOY_SCREEN_WIDTH : Nat := 160

/-- Modelled from the spec: the macro `GAMEBOY_SCREEN_HEIGHT` of `gameboy.h`, which is not
among the sources; the framebuffer is 160 x 144 bytes. -/
def GAMEBOY_SCREEN_HEIGHT : Nat := 144

/-- Function `u2_to_u8`: `ab => abababab`. -/
def u2_to_u8 (v : Nat) : Except Fault Nat :=
  if v ≤ 3 then .ok (((v <<< 6) ||| (v <<< 4) ||| (v <<< 2) ||| v) % 256) else .error .assert_failed

/-- Function `u8_to_u2`. -/
def u8_to_u2 (v : Nat) : Nat := (v % 256) >>> 6

/-- Function `get_palette_color`. -/
def get_palette_color (s : Machine) (palette_register palette_index : Nat) : Except Fault Nat :=
  if ¬ palette_index ≤ 3 then .error .assert_failed else do
  let palette ← read_io8 s palette_register
  let palette_color := (palette >>> (2 * palette_index)) &&& 0x3
  .ok (3 - palette_color)

/-- The loop `for (dx = 0; dx < 8; dx++)` of `draw_tile_line` on the framebuffer, with
`n` iterations left; `continue` leaves the state as it is. -/
def draw_tile_pixels (w h : Nat) (x y : Int) (low_byte high_byte palette_register : Nat)
    (flip_x : Bool) : Nat → Nat → Machine → Except Fault Machine
  | 0, _, s => .ok s
  | n + 1, dx, s => do
    let tile_x := if flip_x then dx else 7 - dx
    let low_bit := (low_byte >>> tile_x) &&& 1
    let high_bit := (high_byte >>> tile_x) &&& 1
    let palette_index := (high_bit <<< 1) ||| low_bit
    let image_x : Int := x + dx
    let image_y : Int := y
    let s ←
      if palette_index = 0 then pure s
      else if image_x < 0 then pure s
      else if image_y < 0 then pure s
      else if image_x ≥ w then pure s
      else if image_y ≥ h then pure s
      else do
        let color ← get_palette_color s palette_register palette_index
        let image_pixel_index := image_y.toNat * w + image_x.toNat
        let byte ← u2_to_u8 color
        pure { s with gameboy_framebuffer := upd s.gameboy_framebuffer image_pixel_index byte }
    draw_tile_pixels w h x y low_byte high_byte palette_register flip_x n (dx + 1) s

/-- Function `draw_tile_line` with `image = gameboy_framebuffer`; `address` is the
`uint16_t` parameter. -/
def draw_tile_line (s : Machine) (w h : Nat) (x y : Int) (address : Nat) (__dx dy : Int)
    (palette_register : Nat) (flip_x flip_y : Bool) : Except Fault Machine :=
  if __dx ≠ 0 then .error .assert_failed else
  if dy < 0 then .ok s else
  if dy ≥ 8 then .ok s else do
  let tile_y : Int := if flip_y then 7 - dy else dy
  let row_offset := (tile_y * 2).toNat
  let low_byte ← read_memory8 s (address % 65536 + row_offset + 0)
  let high_byte ← read_memory8 s (address % 65536 + row_offset + 1)
  draw_tile_pixels w h x y low_byte high_byte palette_register flip_x 8 0 s

/-- The loop `for (screen_x = 0; screen_x < 32*8; screen_x++)` of `draw_background_line`,
with `n` iterations left. -/
def draw_background_columns (w h : Nat) (x y : Int) (map_address : Nat) (bg_tiles : Bool)
    (dx tile_row tile_line : Nat) : Nat → Nat → Machine → Except Fault Machine
  | 0, _, s => .ok s
  | n + 1, screen_x, s => do
    let tile_col := screen_x / 8
    let block_index := tile_row * 32 + tile_col
    let tile_index ← read_memory8 s (map_address + block_index)
    let tile_address : Int := if bg_tiles then 0x9000 else 0x8000
    -- `tile_index = (int8_t)tile_index` when `bg_tiles`
    let tile_index : Int :=
      if bg_tiles then (if tile_index < 128 then (tile_index : Int) else (tile_index : Int) - 256)
      else (tile_index : Int)
    let address := ((tile_address + tile_index * 0x10) % 65536).toNat
    let s ← draw_tile_line s w h (x + 8 * tile_col - dx) y address 0 tile_line BGP false false
    let s ← draw_tile_line s w h (x + 8 * tile_col + 32 * 8 - dx) y address 0 tile_line BGP false false
    draw_background_columns w h x y map_address bg_tiles dx tile_row tile_line n (screen_x + 1) s

/-- Function `draw_background_line` with `image = gameboy_framebuffer`; `dx` and `dy` are
the `uint8_t` parameters. -/
def draw_background_line (s : Machine) (w h : Nat) (x y : Int) (map_address : Nat) (bg_tiles : Bool)
    (dx dy : Nat) : Except Fault Machine :=
  let dx := dx % 256
  let dy := dy % 256
  let tile_row := dy / 8
  let tile_line := dy % 8
  draw_background_columns w h x y (map_address % 65536) bg_tiles dx tile_row tile_line (32 * 8) 0 s

/-- The loop `for (sprite_index = 0; sprite_index < 40; sprite_index++)` of
`draw_sprites_line`, with `n` iterations left. -/
def draw_sprites (w h : Nat) (x y dy : Int) (background tall_sprites : Bool) :
    Nat → Nat → Machine → Except Fault Machine
  | 0, _, s => .ok s
  | n + 1, sprite_index, s => do
    let sprite_address := (0xFE00 + sprite_index * 4) % 65536
    let sprite_y : Int := ((← read_memory8 s (sprite_address + 0)) : Int) - 16
    let sprite_x : Int := ((← read_memory8 s (sprite_address + 1)) : Int) - 8
    let tile_index ← read_memory8 s (sprite_address + 2)
    let flags ← read_memory8 s (sprite_address + 3)
    let sprite_background := (flags &&& (1 <<< 7)) != 0
    let s ←
      if sprite_background != background then pure s
      else
        let palette_register := if flags &&& (1 <<< 4) ≠ 0 then OBP1 else OBP0
        let flip_x := (flags &&& (1 <<< 5)) != 0
        let flip_y := (flags &&& (1 <<< 6)) != 0
        let tile_address := 0x8000
        if tall_sprites then
          if flip_y then .error .assert_failed else do
          let s ← draw_tile_line s w h (x + sprite_x) y (tile_address + (tile_index &&& 0xFE) * 0x10) 0
            (dy - (sprite_y + 0)) palette_register flip_x flip_y
          draw_tile_line s w h (x + sprite_x) y (tile_address + (tile_index ||| 0x01) * 0x10) 0
            (dy - (sprite_y + 8)) palette_register flip_x flip_y
        else
          draw_tile_line s w h (x + sprite_x) y (tile_address + tile_index * 0x10) 0
            (dy - sprite_y) palette_register flip_x flip_y
    draw_sprites w h x y dy background tall_sprites n (sprite_index + 1) s

/-- Function `draw_sprites_line` with `image = gameboy_framebuffer`. -/
def draw_sprites_line (s : Machine) (w h : Nat) (x y dy : Int) (background : Bool) :
    Except Fault Machine := do
  let lcdc ← read_io8 s LCDC
  let tall_sprites := (lcdc &&& (1 <<< 2)) != 0
  let sprites_enabled := (lcdc &&& (1 <<< 1)) != 0
  if ¬ sprites_enabled then .ok s else
  draw_sprites w h x y dy background tall_sprites 40 0 s

/-- The statements of one iteration of the line loop of `gameboy_step_once` up to and
including `stat &= ~0x3`: LY is written, IF, LYC and STAT are read, the coincidence bit
is updated in the local `stat` and the coincidence interrupt requested. Returns the state
and the locals `_if` and `stat`. -/
def lcd_line_begin (s : Machine) (ly : Nat) : Except Fault (Machine × Nat × Nat) := do
  let s ← write_io8 s LY ly
  let _if ← read_io8 s IF
  let lyc ← read_io8 s LYC
  let stat ← read_io8 s STAT
  let (s, stat) ←
    if lyc ≠ ly then
      pure (s, stat &&& (0xFF ^^^ (1 <<< 2)))
    else do
      let stat := stat ||| (1 <<< 2)
      let s ← if stat &&& (1 <<< 6) ≠ 0 then write_io8 s IF (_if ||| INTERRUPTS_LCDSTAT) else pure s
      pure (s, stat)
  let stat := stat &&& (0xFF ^^^ 0x3)
  pure (s, _if, stat)

/-- The statements under `// Mode 2` before `cpu_step(80 + wasted_cycles)`. -/
def lcd_mode_2 (s : Machine) (_if stat : Nat) : Except Fault Machine := do
  let s ← write_io8 s STAT (stat ||| 2)
  if stat &&& (1 <<< 5) ≠ 0 then write_io8 s IF (_if ||| INTERRUPTS_LCDSTAT) else pure s

/-- The statement under `// Mode 3` before `cpu_step(172 + wasted_cycles)`. -/
def lcd_mode_3 (s : Machine) (stat : Nat) : Except Fault Machine :=
  write_io8 s STAT (stat ||| 3)

/-- The statements under `// Mode 0` before `cpu_step(204 + wasted_cycles)`; the test is
`stat & (1 << 5)` in the source. -/
def lcd_mode_0 (s : Machine) (_if stat : Nat) : Except Fault Machine := do
  let s ← write_io8 s STAT (stat ||| 0)
  if stat &&& (1 <<< 5) ≠ 0 then write_io8 s IF (_if ||| INTERRUPTS_LCDSTAT) else pure s

/-- The statements under `// Mode 1` before `cpu_step(456 + wasted_cycles)`. -/
def lcd_mode_1 (s : Machine) (ly _if stat : Nat) : Except Fault Machine := do
  let s ← write_io8 s STAT (stat ||| 1)
  if ly = 144 then do
    let s ← write_io8 s IF (_if ||| INTERRUPTS_VBLANK)
    if stat &&& (1 <<< 4) ≠ 0 then write_io8 s IF (_if ||| INTERRUPTS_LCDSTAT) else pure s
  else pure s

/-- The rendering of line `ly` at the end of the visible branch of `gameboy_step_once`:
clear to background colour 0, sprites behind, background, sprites in front. -/
def render_line (s : Machine) (ly : Nat) : Except Fault Machine := do
  let color ← get_palette_color s BGP 0
  let byte ← u2_to_u8 color
  let s := { s with gameboy_framebuffer := fun j =>
    if ly * GAMEBOY_SCREEN_WIDTH ≤ j ∧ j < ly * GAMEBOY_SCREEN_WIDTH + GAMEBOY_SCREEN_WIDTH then byte
    else s.gameboy_framebuffer j }
  let s ← draw_sprites_line s GAMEBOY_SCREEN_WIDTH GAMEBOY_SCREEN_HEIGHT 0 ly ly true
  let lcdc ← read_io8 s LCDC
  let bg_tiles := !((lcdc &&& (1 <<< 4)) != 0)
  let map_address := if lcdc &&& (1 <<< 3) ≠ 0 then 0x9C00 else 0x9800
  let scx ← read_io8 s SCX
  let scy ← read_io8 s SCY
  let s ← draw_background_line s GAMEBOY_SCREEN_WIDTH GAMEBOY_SCREEN_HEIGHT 0 ly map_address bg_tiles
    scx (ly + scy)
  draw_sprites_line s GAMEBOY_SCREEN_WIDTH GAMEBOY_SCREEN_HEIGHT 0 ly ly false

/-- One iteration of the line loop of `gameboy_step_once`, from the state and the
`wasted_cycles` of the line before; `fuel` bounds each call of `cpu_step`. -/
def gameboy_line (fuel : Nat) (ly : Nat) (wasted_cycles : Int) (s : Machine) :
    Except Fault (Int × Machine) := do
  let (s, _if, stat) ← lcd_line_begin s ly
  if ly < 144 then do
    let s ← lcd_mode_2 s _if stat
    let (wasted_cycles, s) ← cpu_step fuel (80 + wasted_cycles) s
    let s ← lcd_mode_3 s stat
    let (wasted_cycles, s) ← cpu_step fuel (172 + wasted_cycles) s
    let s ← lcd_mode_0 s _if stat
    let (wasted_cycles, s) ← cpu_step fuel (204 + wasted_cycles) s
    let s ← render_line s ly
    pure (wasted_cycles, s)
  else do
    let s ← lcd_mode_1 s ly _if stat
    cpu_step fuel (456 + wasted_cycles) s

/-- The loop `for (uint8_t ly = 0; ly < 154; ly++)` with `n` iterations left. -/
def gameboy_lines (fuel : Nat) : Nat → Nat → Int → Machine → Except Fault (Int × Machine)
  | 0, _, wasted_cycles, s => .ok (wasted_cycles, s)
  | n + 1, ly, wasted_cycles, s => do
    let (wasted_cycles, s) ← gameboy_line fuel ly wasted_cycles s
    gameboy_lines fuel n (ly + 1) wasted_cycles s

/-- Function `gameboy_step_once`: one frame of 154 lines. -/
def gameboy_step_once (fuel : Nat) (s : Machine) : Except Fault Machine := do
  let (_, s) ← gameboy_lines fuel 154 0 0 s
  pure s

/-- The blank machine with the byte `v` in the I/O port of offset `port`. -/
def Machine.with_io (port v : Nat) : Machine :=
  { Machine.blank with io_ports := upd Machine.blank.io_ports port v }

/-- The state in which the CPU begins the 456-cycle batch of line `ly` (144 ≤ ly):
`gameboy_step_once` up to `cpu_step(456 + wasted_cycles)`. -/
def lcd_before_mode_1_batch (s : Machine) (ly : Nat) : Except Fault Machine := do
  let (s, _if, stat) ← lcd_line_begin s ly
  lcd_mode_1 s ly _if stat

/-- The state in which the CPU begins the 80-cycle batch of line `ly` (ly < 144):
`gameboy_step_once` up to `cpu_step(80 + wasted_cycles)`. -/
def lcd_before_mode_2_batch (s : Machine) (ly : Nat) : Except Fault Machine := do
  let (s, _if, stat) ← lcd_line_begin s ly
  lcd_mode_2 s _if stat

/-- The local `stat` of the line loop after `stat &= ~0x3`, from the bytes read from STAT
and LYC. -/
def line_stat (stat lyc ly : Nat) : Nat :=
  (if lyc ≠ ly then stat &&& (0xFF ^^^ (1 <<< 2)) else stat ||| (1 <<< 2)) &&& (0xFF ^^^ 0x3)

/-- The blank machine with `stat` in STAT, `lyc` in LYC and `if_byte` in IF. -/
def Machine.with_lcd (stat lyc if_byte : Nat) : Machine :=
  { Machine.blank with
    io_ports := upd (upd (upd Machine.blank.io_ports 0x41 stat) 0x45 lyc) 0x0F if_byte }

/-! ## Initialisation of the CPU and the I/O ports -/

def NR10 : Nat := 0xFF10
def NR11 : Nat := 0xFF11
def NR12 : Nat := 0xFF12
def NR14 : Nat := 0xFF14
def NR21 : Nat := 0xFF16
def NR22 : Nat := 0xFF17
def NR24 : Nat := 0xFF19
def NR30 : Nat := 0xFF1A
def NR31 : Nat := 0xFF1B
def NR32 : Nat := 0xFF1C
def NR33 : Nat := 0xFF1E
def NR41 : Nat := 0xFF20
def NR42 : Nat := 0xFF21
def NR43 : Nat := 0xFF22
def NR44 : Nat := 0xFF23
def NR50 : Nat := 0xFF24
def NR51 : Nat := 0xFF25
def NR52 : Nat := 0xFF26

/-- The register assignments of `initialize_cpu`: the first block, then the block under
`#if 1` that assigns all six again. -/
def initialize_cpu_registers (r : Registers) : Registers :=
  let r := r.set_af 0x01B0
  let r := r.set_bc 0x0013
  let r := r.set_de 0x00D8
  let r := r.set_hl 0x014D
  let r := { r with sp := 0xFFFE }
  let r := { r with pc := 0x0100 }
  -- #if 1
  let r := r.set_af 0x1180
  let r := r.set_bc 0x0000
  let r := r.set_de 0x0008
  let r := r.set_hl 0x007C
  let r := { r with sp := 0xFFFE }
  { r with pc := 0x0100 }

/-- Function `initialize_cpu`. -/
def initialize_cpu (s : Machine) : Except Fault Machine := do
  let s := { s with cpu := initialize_cpu_registers s.cpu }
  let s ← write_io8 s TIMA 0x00
  let s ← write_io8 s TMA 0x00
  let s ← write_io8 s TAC 0x00
  let s ← write_io8 s NR10 0x80
  let s ← write_io8 s NR11 0xBF
  let s ← write_io8 s NR12 0xF3
  let s ← write_io8 s NR14 0xBF
  let s ← write_io8 s NR21 0x3F
  let s ← write_io8 s NR22 0x00
  let s ← write_io8 s NR24 0xBF
  let s ← write_io8 s NR30 0x7F
  let s ← write_io8 s NR31 0xFF
  let s ← write_io8 s NR32 0x9F
  let s ← write_io8 s NR33 0xBF
  let s ← write_io8 s NR41 0xFF
  let s ← write_io8 s NR42 0x00
  let s ← write_io8 s NR43 0x00
  let s ← write_io8 s NR30 0xBF
  let s ← write_io8 s NR50 0x77
  let s ← write_io8 s NR51 0xF3
  let s ← write_io8 s NR52 0xF1
  let s ← write_io8 s LCDC 0x91
  let s ← write_io8 s SCY 0x00
  let s ← write_io8 s SCX 0x00
  let s ← write_io8 s LYC 0x00
  let s ← write_io8 s BGP 0xFC
  let s ← write_io8 s OBP0 0xFF
  let s ← write_io8 s OBP1 0xFF
  let s ← write_io8 s WY 0x00
  let s ← write_io8 s WX 0x00
  let s := { s with ie := 0x00 }
  pure { s with ime := false }

/-- Function `gameboy_init` up to the file contents: the framebuffer is filled with 0x33,
the six RAM arrays with 0x00, then `initialize_cpu` and the register assignments of
`initialize_cartridge` run. `rom_size` and `rom` stand for the ROM file that
`initialize_cartridge` reads and `saved_ram` for the cartridge RAM after the `memset` and
the optional read of the `.sav` file. -/
def gameboy_init (s : Machine) (rom_size : Nat) (rom saved_ram : Nat → Nat) : Except Fault Machine := do
  let s := { s with gameboy_framebuffer := fun _ => 0x33 }
  let s := { s with
    vram_memory := fun _ => 0x00, wram0_memory := fun _ => 0x00, wram1_memory := fun _ => 0x00,
    echo_memory := fun _ => 0x00, oam_memory := fun _ => 0x00, hram_memory := fun _ => 0x00 }
  let s ← initialize_cpu s
  let s := initialize_cartridge_registers s
  pure { s with cartridge_rom_size := rom_size, cartridge_rom_memory := rom,
                cartridge_ram_memory := saved_ram }
/-- The I/O ports after the thirty `write_io8` calls of `initialize_cpu`, in their order. -/
def initial_io_ports (p : Nat → Nat) : Nat → Nat :=
  [(TIMA, 0x00), (TMA, 0x00), (TAC, 0x00), (NR10, 0x80), (NR11, 0xBF), (NR12, 0xF3), (NR14, 0xBF),
   (NR21, 0x3F), (NR22, 0x00), (NR24, 0xBF), (NR30, 0x7F), (NR31, 0xFF), (NR32, 0x9F), (NR33, 0xBF),
   (NR41, 0xFF), (NR42, 0x00), (NR43, 0x00), (NR30, 0xBF), (NR50, 0x77), (NR51, 0xF3), (NR52, 0xF1),
   (LCDC, 0x91), (SCY, 0x00), (SCX, 0x00), (LYC, 0x00), (BGP, 0xFC), (OBP0, 0xFF), (OBP1, 0xFF),
   (WY, 0x00), (WX, 0x00)].foldl (fun q w => upd q (w.1 - 0xFF00) (w.2 % 256)) p


/-! ## Termination of `cpu_step` -/

/-- The blank machine with `JR -2` (0x18 0xFE) at 0x0100: a loop of one instruction. -/
def Machine.jr_self : Machine := Machine.with_program [0x18, 0xFE]

/-- No interrupt is pending and the byte at PC is decoded to the undefined handler. -/
def Machine.stuck (s : Machine) : Prop :=
  (s.ime = true → ((s.ie % 256) &&& (s.io_ports 0x0F % 256)) &&& 0x1F = 0) ∧ s.cpu.pc < 65536 ∧
  ∃ opcode, read_memory8 s s.cpu.pc = .ok opcode ∧ cpu_decode opcode = .ok Handler.undefined

/-! ## BIT on (HL) -/

/-- A machine about to run `BIT 0,(HL)` (0xCB 0x46) with HL = 0x2000, in the range of the
ROM bank register, where the ROM holds 0x05. -/
def Machine.bit_hl_rom_bank : Machine :=
  { Machine.with_program [0xCB, 0x46] with
    cpu := { Machine.blank.cpu with h := 0x20, l := 0x00 }
    cartridge_rom_memory :=
      upd (Machine.with_program [0xCB, 0x46]).cartridge_rom_memory 0x2000 0x05 }

/-- A machine about to run `BIT 0,(HL)` with HL = 0xFF46, the DMA register, which holds
0xC0; work RAM bank 0 holds `(7 * i + 3) mod 256` at offset `i` and OAM holds 0xEE. -/
def Machine.bit_hl_dma : Machine :=
  { Machine.dma_source with
    cpu := { Machine.blank.cpu with h := 0xFF, l := 0x46 }
    io_ports := upd Machine.dma_source.io_ports 0x46 0xC0
    cartridge_rom_memory := (Machine.with_program [0xCB, 0x46]).cartridge_rom_memory }

/-- The blank machine with `CALL 0x0104` at 0x0100 and `RET` at 0x0104. -/
def Machine.call_ret : Machine := Machine.with_program [0xCD, 0x04, 0x01, 0x00, 0xC9]


/-! ## Vocabulary of the rendering statements -/

/-- The 2-bit palette index that the bit `bit` of the two bytes of a tile row encodes. -/
def tile_index (low high bit : Nat) : Nat :=
  (((high >>> bit) &&& 1) <<< 1) ||| ((low >>> bit) &&& 1)

/-- The framebuffer byte of palette index `i` through a palette register that reads `P`. -/
def shade (P i : Nat) : Nat := 0x55 * (3 - ((P >>> (2 * i)) &&& 3))

/-- The bit of the tile row drawn at column offset `c`: bit `7 - c`, or bit `c` with X-flip. -/
def tile_bit (flip_x : Bool) (c : Nat) : Nat := if flip_x then c else 7 - c

/-- Column offset `c` of a tile row drawn at `(x, y)` has a non-zero index and lies inside
the `w` by `h` image. -/
def tile_hit (w h : Nat) (x y : Int) (low high : Nat) (flip_x : Bool) (c : Nat) : Prop :=
  tile_index low high (tile_bit flip_x c) ≠ 0 ∧ 0 ≤ x + c ∧ 0 ≤ y ∧ x + c < w ∧ y < h

instance (w h : Nat) (x y : Int) (low high : Nat) (flip_x : Bool) (c : Nat) :
    Decidable (tile_hit w h x y low high flip_x c) := by
  unfold tile_hit; infer_instance

/-- The framebuffer offset of column offset `c` of a tile row drawn at `(x, y)`. -/
def tile_pos (w : Nat) (x y : Int) (c : Nat) : Nat := y.toNat * w + (x + c).toNat

/-- The blank machine with the sprite of OAM entry 0 at Y = 0x10, X = 0x08, tile 1, flags
0x20 (X-flip); row 0 of tile 1 is the byte pair (0xF0, 0xCC); OBP0 and BGP hold 0xE4 and
LCDC holds 0x93 (display on, tile data at 0x8000, sprites on, 8x8); every framebuffer byte
is 0x33. -/
def Machine.one_sprite : Machine :=
  { Machine.blank with
    oam_memory := fun i => [0x10, 0x08, 0x01, 0x20].getD i 0
    vram_memory := upd (upd (fun _ => 0) 0x10 0xF0) 0x11 0xCC
    io_ports := upd (upd (upd (fun _ => 0) 0x40 0x93) 0x47 0xE4) 0x48 0xE4
    gameboy_framebuffer := fun _ => 0x33 }


/-- A byte taken as a signed 8-bit value. -/
def signed8 (n : Nat) : Int := if n < 128 then (n : Int) else (n : Int) - 256

/-- The address of the data of background tile `n`: 0x9000 + 16 n with `n` signed when
`bg_tiles` (LCDC bit 4 clear), 0x8000 + 16 n with `n` unsigned otherwise. -/
def bg_tile_address (bg_tiles : Bool) (n : Nat) : Nat :=
  if bg_tiles then (0x9000 + 16 * signed8 n).toNat else 0x8000 + 16 * n

/-- The tile number of the 32x32 map at `map_address` for the pixel `(col, row)` of the
256x256 background. -/
def bg_tile_number (s : Machine) (map_address row col : Nat) : Nat :=
  s.vram_memory (map_address + (row / 8) * 32 + col / 8 - 0x8000) % 256

/-- The 2-bit index of the pixel `(col, row)` of the 256x256 background. -/
def bg_index (s : Machine) (map_address : Nat) (bg_tiles : Bool) (row col : Nat) : Nat :=
  tile_index
    (s.vram_memory
      (bg_tile_address bg_tiles (bg_tile_number s map_address row col) + 2 * (row % 8) - 0x8000) % 256)
    (s.vram_memory
      (bg_tile_address bg_tiles (bg_tile_number s map_address row col) + 2 * (row % 8) + 1 - 0x8000)
        % 256)
    (7 - col % 8)

/-- The blank machine with LCDC = 0x91 (sprites off, tile data at 0x8000, map at 0x9800),
SCY = 2, SCX = 3, BGP = 0xE4; entry 0 of the map at 0x9800 holds tile number 1 and row 2 of
tile 1 is the byte pair (0xF0, 0xCC). -/
def Machine.one_tile_background : Machine :=
  { Machine.blank with
    vram_memory := upd (upd (upd (fun _ => 0) 0x1800 0x01) 0x14 0xF0) 0x15 0xCC
    io_ports := upd (upd (upd (upd (fun _ => 0) 0x40 0x91) 0x42 0x02) 0x43 0x03) 0x47 0xE4 }


/-- Byte `i` (0 = Y, 1 = X, 2 = tile number, 3 = flags) of OAM entry `k`. -/
def sprite_byte (s : Machine) (k i : Nat) : Nat := s.oam_memory (4 * k + i) % 256

/-- The 8x8 sprite of OAM entry `k`, with OAM bytes `(Y, X)`, covers the pixel `(x, ly)`:
columns X-8..X-1 and rows Y-16..Y-9. -/
def sprite_covers (s : Machine) (k x ly : Nat) : Prop :=
  (sprite_byte s k 1 : Int) - 8 ≤ x ∧ (x : Int) < (sprite_byte s k 1 : Int) - 8 + 8 ∧
  (sprite_byte s k 0 : Int) - 16 ≤ ly ∧ (ly : Int) < (sprite_byte s k 0 : Int) - 16 + 8

instance (s : Machine) (k x ly : Nat) : Decidable (sprite_covers s k x ly) := by
  unfold sprite_covers; infer_instance

/-- The row of its tile that the sprite of OAM entry `k` shows on line `ly`: `ly - (Y - 16)`,
counted from the bottom with Y-flip (flag bit 6). -/
def sprite_row (s : Machine) (k ly : Nat) : Nat :=
  if sprite_byte s k 3 &&& 0x40 ≠ 0 then 7 - (ly + 16 - sprite_byte s k 0)
  else ly + 16 - sprite_byte s k 0

/-- The 2-bit index of the pixel `(x, ly)` in the 8x8 sprite of OAM entry `k`: tile data at
0x8000 + 16 n, tile column `x - (X - 8)`, mirrored with X-flip (flag bit 5). -/
def sprite_index (s : Machine) (k x ly : Nat) : Nat :=
  tile_index
    (s.vram_memory (0x8000 + 16 * sprite_byte s k 2 + 2 * sprite_row s k ly - 0x8000) % 256)
    (s.vram_memory (0x8000 + 16 * sprite_byte s k 2 + 2 * sprite_row s k ly + 1 - 0x8000) % 256)
    (tile_bit ((sprite_byte s k 3 &&& 0x20) != 0) (x + 8 - sprite_byte s k 1))

/-- The byte of the palette register of the sprite of OAM entry `k`: OBP1 if flag bit 4 is
set, OBP0 otherwise. -/
def sprite_palette (s : Machine) (k : Nat) : Nat :=
  if sprite_byte s k 3 &&& 0x10 ≠ 0 then s.io_ports 0x49 % 256 else s.io_ports 0x48 % 256

/-! ## Memory bus lemmas -/

theorem get_ram_bank_number_le (s : Machine) (hs : s.rom_ram_bank_number ≤ 3) :
    get_ram_bank_number s ≤ 3 := by
  unfold get_ram_bank_number
  cases s.rom_ram_mode_select <;> simp
  omega

/-- On RAM addresses `map_memory` returns a cell inside its array, whose bus
address is the one asked for. -/
theorem ram_at_of_is_ram (s : Machine) (a : Nat) (hs : s.rom_ram_bank_number ≤ 3) (ha : is_ram a) :
    s.ram_at a :=
  ⟨ha, fun _ => get_ram_bank_number_le s hs⟩

theorem ram_at_of_wram_or_hram (s : Machine) (a : Nat) (ha : is_wram_or_hram a) : s.ram_at a := by
  unfold is_wram_or_hram at ha
  exact ⟨by unfold is_ram; omega, fun h => by omega⟩

/-- Whether an address is mapped into RAM depends on the MBC1 registers only. -/
theorem ram_at_congr (s s' : Machine) (a : Nat)
    (h1 : s'.rom_ram_bank_number = s.rom_ram_bank_number)
    (h3 : s'.rom_ram_mode_select = s.rom_ram_mode_select) (ha : s.ram_at a) : s'.ram_at a := by
  unfold Machine.ram_at get_ram_bank_number at *
  rw [h1, h3]; exact ha

theorem map_memory_ram (s : Machine) (a : Nat) (hra : s.ram_at a) :
    ∃ c, map_memory s a = .ok c ∧ c.in_ram ∧ c.address = a := by
  obtain ⟨ha, hb⟩ := hra
  unfold is_ram at ha
  have ha' : a % 65536 = a := Nat.mod_eq_of_lt (by omega)
  simp only [map_memory, ha']
  -- the two ROM windows
  have n1 : ¬ a ≤ 0x3FFF := by omega
  have n2 : ¬ (0x4000 ≤ a ∧ a ≤ 0x7FFF) := by omega
  rw [if_neg n1, if_neg n2]
  by_cases h1 : 0x8000 ≤ a ∧ a ≤ 0x9FFF
  · rw [if_pos h1]
    exact ⟨_, rfl, by simp only [Cell.in_ram]; omega, by simp only [Cell.address]; omega⟩
  rw [if_neg h1]
  by_cases h2 : 0xA000 ≤ a ∧ a ≤ 0xBFFF
  · have hbank := hb h2
    rw [if_pos h2]
    exact ⟨_, rfl, by simp only [Cell.in_ram, CARTRIDGE_RAM_BANKS]; omega,
      by simp only [Cell.address]; omega⟩
  rw [if_neg h2]
  by_cases h3 : 0xC000 ≤ a ∧ a ≤ 0xCFFF
  · rw [if_pos h3]
    exact ⟨_, rfl, by simp only [Cell.in_ram]; omega, by simp only [Cell.address]; omega⟩
  rw [if_neg h3]
  by_cases h4 : 0xD000 ≤ a ∧ a ≤ 0xDFFF
  · rw [if_pos h4]
    exact ⟨_, rfl, by simp only [Cell.in_ram]; omega, by simp only [Cell.address]; omega⟩
  rw [if_neg h4]
  by_cases h5 : 0xE000 ≤ a ∧ a ≤ 0xFDFF
  · rw [if_pos h5]
    exact ⟨_, rfl, by simp only [Cell.in_ram]; omega, by simp only [Cell.address]; omega⟩
  rw [if_neg h5]
  by_cases h6 : 0xFE00 ≤ a ∧ a ≤ 0xFE9F
  · rw [if_pos h6]
    exact ⟨_, rfl, by simp only [Cell.in_ram]; omega, by simp only [Cell.address]; omega⟩
  rw [if_neg h6]
  -- the unusable range and the I/O window are not RAM
  have n7 : ¬ (0xFEA0 ≤ a ∧ a ≤ 0xFEFF) := by omega
  have n8 : ¬ (0xFF00 ≤ a ∧ a ≤ 0xFF7F) := by omega
  rw [if_neg n7, if_neg n8]
  by_cases h9 : 0xFF80 ≤ a ∧ a ≤ 0xFFFE
  · rw [if_pos h9]
    exact ⟨_, rfl, by simp only [Cell.in_ram]; omega, by simp only [Cell.address]; omega⟩
  rw [if_neg h9, if_pos (show a = 0xFFFF by omega)]
  exact ⟨_, rfl, trivial, by simp only [Cell.address]; omega⟩

/-- The memory map depends on the MBC1 registers only. -/
theorem map_memory_congr (s s' : Machine) (a : Nat)
    (h1 : s'.rom_ram_bank_number = s.rom_ram_bank_number) (h2 : s'.rom_bank_number = s.rom_bank_number)
    (h3 : s'.rom_ram_mode_select = s.rom_ram_mode_select) : map_memory s' a = map_memory s a := by
  simp only [map_memory, get_rom_bank_number, get_ram_bank_number, h1, h2, h3]

/-- A store to a RAM cell succeeds, is read back, and leaves the MBC1 registers alone. -/
theorem store_load (s : Machine) (v : Nat) (c : Cell) (hc : c.in_ram) :
    ∃ s', s.store v c = .ok s' ∧ s'.load c = .ok (v % 256) ∧
      s'.rom_ram_bank_number = s.rom_ram_bank_number ∧ s'.rom_bank_number = s.rom_bank_number ∧
      s'.rom_ram_mode_select = s.rom_ram_mode_select := by
  cases c <;> simp_all [Cell.in_ram, Machine.store, Machine.load, upd]

theorem read_memory8_ram (s : Machine) (a : Nat) (ha : is_ram a) :
    read_memory8 s a = (map_memory s a).bind s.load := by
  unfold is_ram at ha
  have ha' : a % 65536 = a := Nat.mod_eq_of_lt (by omega)
  simp only [read_memory8, ha']
  rw [if_neg (by omega), if_neg (by omega)]

theorem write_memory8_ram (s : Machine) (a v : Nat) (ha : is_ram a) :
    write_memory8 s a v = (map_memory s a).bind (s.store (v % 256)) := by
  unfold is_ram at ha
  have ha' : a % 65536 = a := Nat.mod_eq_of_lt (by omega)
  have n0 : ¬ (0xFF00 ≤ a ∧ a ≤ 0xFF7F) := by omega
  have n1 : ¬ a ≤ 0x1FFF := by omega
  have n2 : ¬ (0x2000 ≤ a ∧ a ≤ 0x3FFF) := by omega
  have n3 : ¬ (0x4000 ≤ a ∧ a ≤ 0x5FFF) := by omega
  have n4 : ¬ (0x6000 ≤ a ∧ a ≤ 0x7FFF) := by omega
  have n5 : ¬ (0xFEA0 ≤ a ∧ a ≤ 0xFEFF) := by omega
  simp only [write_memory8, write_memory8_mapped, ha']
  rw [if_neg n0, if_neg n1, if_neg n2, if_neg n3, if_neg n4, if_neg n5]

/-- Outside the I/O window `write_memory8` is `write_memory8_mapped`; the DMA
loop of `write_io8` writes to 0xFE00-0xFE9F only. -/
theorem write_memory8_eq_mapped (s : Machine) (a v : Nat)
    (ha : ¬ (0xFF00 ≤ a % 65536 ∧ a % 65536 ≤ 0xFF7F)) :
    write_memory8 s a v = write_memory8_mapped s a v := by
  unfold write_memory8
  rw [if_neg ha]

/-! ## C1: a byte written to RAM is read back -/

/-- C1. For every byte `B`, every address `a` in VRAM, cartridge RAM, work RAM,
echo, OAM, high RAM or at the IE register, and every MBC1 state (2-bit
secondary register), `write_memory8(a, B)` completes and a following
`read_memory8(a)` returns `B`. -/
theorem write_then_read_ram (s : Machine) (a B : Nat) (hB : B < 256)
    (hs : s.rom_ram_bank_number ≤ 3)
    (ha : (0x8000 ≤ a ∧ a ≤ 0x9FFF) ∨ (0xA000 ≤ a ∧ a ≤ 0xBFFF) ∨ (0xC000 ≤ a ∧ a ≤ 0xDFFF) ∨
      (0xE000 ≤ a ∧ a ≤ 0xFDFF) ∨ (0xFE00 ≤ a ∧ a ≤ 0xFE9F) ∨ (0xFF80 ≤ a ∧ a ≤ 0xFFFE) ∨ a = 0xFFFF) :
    (write_memory8 s a B).bind (fun s' => read_memory8 s' a) = .ok B := by
  have hram : is_ram a := by unfold is_ram; omega
  obtain ⟨c, hc, hin, _⟩ := map_memory_ram s a (ram_at_of_is_ram s a hs hram)
  obtain ⟨s', hst, hld, e1, e2, e3⟩ := store_load s B c hin
  have hB' : B % 256 = B := Nat.mod_eq_of_lt hB
  have hw : write_memory8 s a B = .ok s' := by
    rw [write_memory8_ram s a B hram, hc, hB']; exact hst
  have hr : read_memory8 s' a = .ok B := by
    rw [read_memory8_ram s' a hram, map_memory_congr s s' a e1 e2 e3, hc, ← hB']; exact hld
  rw [hw]; exact hr

/-- C1 at a work-RAM address of the blank machine. -/
theorem write_then_read_ram_witness :
    (0x5A < 256 ∧ Machine.blank.rom_ram_bank_number ≤ 3) ∧
    (write_memory8 Machine.blank 0xC123 0x5A).bind (fun s' => read_memory8 s' 0xC123) = .ok 0x5A :=
  ⟨by decide, write_then_read_ram Machine.blank 0xC123 0x5A (by decide) (by decide) (by decide)⟩

/-! ## C2: the ROM bank register -/

/-- C2 (the code at the inputs of the claim). From the MBC1 state that
initialisation leaves, `write_memory8(0x2000, 0x00)` leaves the bank of the
window 0x4000-0x7FFF at 0x00, not 0x01, and `write_memory8(0x2000, v)` for
`v` = 0x20, 0x40, 0x60 stops at `assert(v <= 0x1F)`: the four statements
`if (v == 0x00) { v == 0x01; }` compare, they do not assign. -/
theorem rom_bank_write_not_remapped (s : Machine) :
    (write_memory8 (initialize_cartridge_registers s) 0x2000 0x00).map
        (fun s' => get_rom_bank_number s' 0x4000) = .ok 0x00 ∧
    (write_memory8 (initialize_cartridge_registers s) 0x2000 0x20).map
        (fun s' => get_rom_bank_number s' 0x4000) = .error .assert_failed ∧
    (write_memory8 (initialize_cartridge_registers s) 0x2000 0x40).map
        (fun s' => get_rom_bank_number s' 0x4000) = .error .assert_failed ∧
    (write_memory8 (initialize_cartridge_registers s) 0x2000 0x60).map
        (fun s' => get_rom_bank_number s' 0x4000) = .error .assert_failed := by
  simp [write_memory8, write_memory8_mapped, initialize_cartridge_registers, get_rom_bank_number,
    Except.map]

/-! ## C3, C4: 8-bit addition and subtraction -/

/-- C3. For all bytes `a`, `b` and every prior flag state, `add8(a, b, use_c)`
returns `(a + b) mod 256`, sets Z iff that result is 0, clears N, sets H iff
`(a & 0xF) + (b & 0xF) > 0xF`; with `use_c` it sets C iff `a + b > 0xFF`, and
without `use_c` it leaves C as it was. -/
theorem add8_spec (f : Flags) (a b : Nat) (use_c : Bool) (_ha : a < 256) (_hb : b < 256) :
    (add8 f a b use_c).1 = (a + b) % 256 ∧
    ((add8 f a b use_c).2.zf = true ↔ (a + b) % 256 = 0) ∧
    (add8 f a b use_c).2.n = false ∧
    ((add8 f a b use_c).2.h = true ↔ (a &&& 0xF) + (b &&& 0xF) > 0xF) ∧
    (use_c = true → ((add8 f a b use_c).2.cy = true ↔ a + b > 0xFF)) ∧
    (use_c = false → (add8 f a b use_c).2.cy = f.cy) := by
  cases use_c <;> simp [add8]

/-- C3 at the two witnesses of the claim, 0x0F + 0x01 and 0x90 + 0x90, and the
programs `LD A,0x0F; ADD A,0x01` and `LD A,0x90; ADD A,0x90` run by `cpu_step`. -/
theorem add8_spec_witness :
    ((0x0F < 256 ∧ 0x01 < 256) ∧
      (add8 flags0 0x0F 0x01 true).1 = (0x0F + 0x01) % 256 ∧
      ((add8 flags0 0x0F 0x01 true).2.zf = true ↔ (0x0F + 0x01) % 256 = 0) ∧
      (add8 flags0 0x0F 0x01 true).2.n = false ∧
      ((add8 flags0 0x0F 0x01 true).2.h = true ↔ (0x0F &&& 0xF) + (0x01 &&& 0xF) > 0xF) ∧
      (true = true → ((add8 flags0 0x0F 0x01 true).2.cy = true ↔ 0x0F + 0x01 > 0xFF)) ∧
      (true = false → (add8 flags0 0x0F 0x01 true).2.cy = flags0.cy)) ∧
    add8 flags0 0x0F 0x01 true = (0x10, { zero := 0, cy := false, h := true, n := false, zf := false }) ∧
    add8 flags0 0x90 0x90 true = (0x20, { zero := 0, cy := true, h := false, n := false, zf := false }) ∧
    (cpu_step 2 16 (Machine.with_program [0x3E, 0x0F, 0xC6, 0x01])).map (fun r => (r.2.cpu.a, r.2.cpu.f))
      = .ok (0x10, { zero := 0, cy := false, h := true, n := false, zf := false }) ∧
    (cpu_step 2 16 (Machine.with_program [0x3E, 0x90, 0xC6, 0x90])).map (fun r => (r.2.cpu.a, r.2.cpu.f))
      = .ok (0x20, { zero := 0, cy := true, h := false, n := false, zf := false }) :=
  ⟨⟨by decide, add8_spec flags0 0x0F 0x01 true (by decide) (by decide)⟩, by decide, by decide,
    by decide, by decide⟩

/-- C4. For all bytes `a`, `b` and every prior flag state, `sub8(a, b, use_c)`
returns `(a - b) mod 256`, sets Z iff that result is 0, sets N, sets H iff
`(a & 0xF) < (b & 0xF)`; with `use_c` it sets C iff `a < b`, and without
`use_c` (as `DEC r` calls it) it leaves C as it was. -/
theorem sub8_spec (f : Flags) (a b : Nat) (use_c : Bool) (_ha : a < 256) (_hb : b < 256) :
    ((sub8 f a b use_c).1 : Int) = ((a : Int) - (b : Int)) % 256 ∧
    ((sub8 f a b use_c).2.zf = true ↔ ((a : Int) - (b : Int)) % 256 = 0) ∧
    (sub8 f a b use_c).2.n = true ∧
    ((sub8 f a b use_c).2.h = true ↔ (a &&& 0xF) < (b &&& 0xF)) ∧
    (use_c = true → ((sub8 f a b use_c).2.cy = true ↔ a < b)) ∧
    (use_c = false → (sub8 f a b use_c).2.cy = f.cy) := by
  have h0 : (0 : Int) ≤ ((a : Int) - (b : Int)) % 256 := Int.emod_nonneg _ (by decide)
  have h1 : (((a : Int) - (b : Int)) % 256).toNat = 0 ↔ ((a : Int) - (b : Int)) % 256 = 0 := by omega
  cases use_c <;> simp [sub8, h0, h1]

/-- C4 at 0x10 - 0x01 (a borrow from bit 4) and at 0x00 - 0x01 as `DEC` computes it. -/
theorem sub8_spec_witness :
    ((0x10 < 256 ∧ 0x01 < 256) ∧
      ((sub8 flags0 0x10 0x01 true).1 : Int) = ((0x10 : Nat) - (0x01 : Nat) : Int) % 256 ∧
      ((sub8 flags0 0x10 0x01 true).2.zf = true ↔ ((0x10 : Nat) - (0x01 : Nat) : Int) % 256 = 0) ∧
      (sub8 flags0 0x10 0x01 true).2.n = true ∧
      ((sub8 flags0 0x10 0x01 true).2.h = true ↔ (0x10 &&& 0xF) < (0x01 &&& 0xF)) ∧
      (true = true → ((sub8 flags0 0x10 0x01 true).2.cy = true ↔ 0x10 < 0x01)) ∧
      (true = false → (sub8 flags0 0x10 0x01 true).2.cy = flags0.cy)) ∧
    sub8 flags0 0x10 0x01 true = (0x0F, { zero := 0, cy := false, h := true, n := true, zf := false }) ∧
    sub8 flags0 0x00 0x01 false = (0xFF, { zero := 0, cy := false, h := true, n := true, zf := false }) :=
  ⟨⟨by decide, sub8_spec flags0 0x10 0x01 true (by decide) (by decide)⟩, by decide, by decide⟩

/-! ## C7, C8: decimal adjust -/

/-- The accumulator and carry after `ADD` then `DAA`, for all decimal operands, from clear flags. -/
theorem daa_after_add_table :
    ∀ a < 100, ∀ b < 100,
      (daa (add8 flags0 (bcd a) (bcd b) true).2 (add8 flags0 (bcd a) (bcd b) true).1).1
        = bcd ((a + b) % 100) ∧
      (daa (add8 flags0 (bcd a) (bcd b) true).2 (add8 flags0 (bcd a) (bcd b) true).1).2.cy
        = decide (a + b ≥ 100) := by
  decide!

/-- The accumulator and carry that `daa` leaves depend on the flags N, H, C only. -/
theorem daa_congr (f g : Flags) (a : Nat) (hn : f.n = g.n) (hh : f.h = g.h) (hc : f.cy = g.cy) :
    (daa f a).1 = (daa g a).1 ∧ (daa f a).2.cy = (daa g a).2.cy := by
  simp only [daa, hn, hh, hc]
  constructor <;> simp only [apply_ite Prod.fst, apply_ite Prod.snd, apply_ite Flags.cy, hc]

theorem daa_add8_flags (f : Flags) (x y : Nat) :
    (daa (add8 f x y true).2 (add8 f x y true).1).1
      = (daa (add8 flags0 x y true).2 (add8 flags0 x y true).1).1 ∧
    (daa (add8 f x y true).2 (add8 f x y true).1).2.cy
      = (daa (add8 flags0 x y true).2 (add8 flags0 x y true).1).2.cy := by
  have h1 : (add8 f x y true).1 = (add8 flags0 x y true).1 := rfl
  rw [h1]
  exact daa_congr _ _ _ rfl rfl rfl

theorem bcd_lt (a : Nat) (ha : a < 100) : bcd a < 256 := by unfold bcd; omega

/-- C7. For all decimal `a`, `b` in 0..99, with A holding the packed BCD of
`a`, executing `ADD A, bcd(b)` and then `DAA` leaves A equal to the packed BCD
of `(a + b) mod 100`, with C set iff `a + b >= 100`. -/
theorem daa_after_add (s : Machine) (code : Code) (a b : Nat) (ha : a < 100) (hb : b < 100)
    (hA : s.cpu.a = bcd a) (hcode : code 1 = bcd b) :
    ∃ s1 s2, emulate_add_d8 code s = .ok (8, s1) ∧ emulate_daa code s1 = .ok (4, s2) ∧
      s2.cpu.a = bcd ((a + b) % 100) ∧ (s2.cpu.f.cy = true ↔ a + b ≥ 100) := by
  have hx := Nat.mod_eq_of_lt (bcd_lt a ha)
  have hy := Nat.mod_eq_of_lt (bcd_lt b hb)
  have ht := daa_after_add_table a ha b hb
  have hf := daa_add8_flags s.cpu.f (bcd a) (bcd b)
  have hr : (daa (add8 s.cpu.f (bcd a) (bcd b) true).2 (add8 s.cpu.f (bcd a) (bcd b) true).1).1 < 256 := by
    rw [hf.1, ht.1]; exact bcd_lt _ (Nat.mod_lt _ (by decide))
  have h256 : (add8 s.cpu.f (bcd a) (bcd b) true).1 % 256 = (add8 s.cpu.f (bcd a) (bcd b) true).1 := by
    simp [add8]
  refine ⟨_, _, rfl, rfl, ?_, ?_⟩
  · simp only [Machine.set_a_f, Machine.set_a, Machine.set_f, decode_d8, hA, hcode, hx, hy]
    rw [h256, Nat.mod_eq_of_lt hr, hf.1, ht.1]
  · simp only [Machine.set_a_f, Machine.set_a, Machine.set_f, decode_d8, hA, hcode, hx, hy]
    rw [h256, hf.2, ht.2]; simp

/-- C7 at 58 + 67 = 125: A = 0x58, `ADD A, 0x67`, `DAA` leave A = 0x25 and C set. -/
theorem daa_after_add_witness :
    (58 < 100 ∧ 67 < 100 ∧ (Machine.blank.set_a 0x58).cpu.a = bcd 58 ∧
      upd (fun _ => 0) 1 0x67 1 = bcd 67) ∧
    ∃ s1 s2, emulate_add_d8 (upd (fun _ => 0) 1 0x67) (Machine.blank.set_a 0x58) = .ok (8, s1) ∧
      emulate_daa (upd (fun _ => 0) 1 0x67) s1 = .ok (4, s2) ∧
      s2.cpu.a = bcd ((58 + 67) % 100) ∧ (s2.cpu.f.cy = true ↔ 58 + 67 ≥ 100) :=
  ⟨by decide, daa_after_add (Machine.blank.set_a 0x58) (upd (fun _ => 0) 1 0x67) 58 67
    (by decide) (by decide) (by decide) (by decide)⟩

/-- C8 (what the code does). After `DAA` the H flag is clear, and the Z flag
is set iff the resulting A is not zero: `cpu.f.zf = (cpu.a != 0x00)`. With
A = 0x00 and N = H = C = 0 the result is A = 0x00 with Z clear. -/
theorem daa_zero_flag_inverted (f : Flags) (a : Nat) :
    ((daa f a).2.zf = true ↔ (daa f a).1 ≠ 0x00) ∧ (daa f a).2.h = false ∧
    (daa flags0 0x00).1 = 0x00 ∧ (daa flags0 0x00).2.zf = false ∧
    (emulate_daa (fun _ => 0) Machine.blank).map (fun r => (r.2.cpu.a, r.2.cpu.f.zf)) = .ok (0x00, false) := by
  refine ⟨?_, rfl, by decide, by decide, by decide⟩
  simp [daa]

/-! ## Stack and interrupt lemmas -/

theorem load_same_ram (s t : Machine) (h : s.same_ram t) (c : Cell) (hc : c.in_ram) :
    t.load c = s.load c := by
  obtain ⟨h1, h2, h3, h4, h5, h6, h7, h8, -, -, -⟩ := h
  cases c <;> simp_all [Machine.load, Cell.in_ram]

theorem read_memory8_same_ram (s t : Machine) (h : s.same_ram t) (a : Nat) (hra : s.ram_at a) :
    read_memory8 t a = read_memory8 s a := by
  obtain ⟨c, hc, hin, -⟩ := map_memory_ram s a hra
  have ha := hra.1
  rw [read_memory8_ram t a ha, read_memory8_ram s a ha,
    map_memory_congr s t a h.2.2.2.2.2.2.2.2.1 h.2.2.2.2.2.2.2.2.2.1 h.2.2.2.2.2.2.2.2.2.2, hc]
  exact load_same_ram s t h c hin

/-- A store to a RAM cell changes no register, I/O port, ROM byte or MBC1 register. -/
theorem store_frame (s s' : Machine) (v : Nat) (c : Cell) (hc : c.in_ram) (h : s.store v c = .ok s') :
    s'.cpu = s.cpu ∧ s'.io_ports = s.io_ports ∧ s'.ime = s.ime ∧
    s'.rom_ram_bank_number = s.rom_ram_bank_number ∧ s'.rom_bank_number = s.rom_bank_number ∧
    s'.rom_ram_mode_select = s.rom_ram_mode_select ∧ s'.gameboy_input = s.gameboy_input ∧
    s'.cartridge_rom_memory = s.cartridge_rom_memory ∧ s'.cartridge_rom_size = s.cartridge_rom_size := by
  cases c <;> simp_all [Cell.in_ram, Machine.store] <;> subst h <;> simp

theorem store_load_other (s s' : Machine) (v : Nat) (c c' : Cell) (hc : c.in_ram)
    (h : s.store v c = .ok s') (hne : c' ≠ c) : s'.load c' = s.load c' := by
  cases c <;> simp_all [Cell.in_ram, Machine.store] <;> subst h <;> cases c' <;>
    simp_all [Machine.load, upd]

theorem word_of_bytes (lo hi : Nat) (hlo : lo < 256) (hhi : hi < 256) :
    (0x0000 ||| (lo <<< 0) ||| (hi <<< 8)) % 65536 = hi * 256 + lo := by
  simp only [Nat.shiftLeft_eq, Nat.zero_or, Nat.pow_zero, Nat.mul_one]
  have h3 := Nat.mul_add_lt_is_or (i := 8) (b := lo) (by omega) hi
  rw [Nat.lor_comm, Nat.mul_comm, ← h3]
  omega

theorem low_byte (w : Nat) : (w >>> 0) &&& 0xFF = w % 256 :=
  Nat.and_pow_two_sub_one_eq_mod w 8

theorem high_byte (w : Nat) : (w >>> 8) &&& 0xFF = w / 256 % 256 := by
  have h := Nat.and_pow_two_sub_one_eq_mod (w >>> 8) 8
  rw [Nat.shiftRight_eq_div_pow w 8] at h
  rw [Nat.shiftRight_eq_div_pow w 8]
  exact h

theorem read_memory8_mod (s : Machine) (a : Nat) : read_memory8 s (a % 65536) = read_memory8 s a := by
  simp only [read_memory8, Nat.mod_mod]

theorem write_memory8_mod (s : Machine) (a v : Nat) :
    write_memory8 s (a % 65536) v = write_memory8 s a v := by
  simp only [write_memory8, write_memory8_mapped, write_io8, Nat.mod_mod]

theorem write_memory8_ram_ok (s : Machine) (a v : Nat) (hra : s.ram_at a) :
    ∃ s' c, map_memory s a = .ok c ∧ c.in_ram ∧ c.address = a ∧ s.store (v % 256) c = .ok s' ∧
      write_memory8 s a v = .ok s' ∧ s'.load c = .ok (v % 256) ∧ s.frame s' := by
  obtain ⟨c, hc, hin, hadr⟩ := map_memory_ram s a hra
  have ha := hra.1
  obtain ⟨s', hst, hld, -, -, -⟩ := store_load s (v % 256) c hin
  refine ⟨s', c, hc, hin, hadr, hst, ?_, ?_, store_frame s s' _ c hin hst⟩
  · rw [write_memory8_ram s a v ha, hc]; exact hst
  · rw [hld, Nat.mod_mod]

theorem write_memory16_ram (s : Machine) (a w : Nat)
    (ha : s.ram_at a) (hb : s.ram_at ((a + 1) % 65536)) :
    ∃ s', write_memory16 s a w = .ok s' ∧ read_memory8 s' a = .ok (w % 256) ∧
      read_memory8 s' (a + 1) = .ok (w / 256 % 256) ∧ s.frame s' := by
  have ha16 : a < 65536 := by have := ha.1; unfold is_ram at this; omega
  obtain ⟨s1, c1, hc1, hin1, hadr1, hst1, hw1, hld1, hf1⟩ := write_memory8_ram_ok s a ((w >>> 0) &&& 0xFF) ha
  have hb1 : s1.ram_at ((a + 1) % 65536) := ram_at_congr s s1 _ hf1.2.2.2.1 hf1.2.2.2.2.2.1 hb
  obtain ⟨s2, c2, hc2, hin2, hadr2, hst2, hw2, hld2, hf2⟩ :=
    write_memory8_ram_ok s1 ((a + 1) % 65536) ((w >>> 8) &&& 0xFF) hb1
  have hne : c1 ≠ c2 := by
    intro h; rw [h] at hadr1; rw [hadr1] at hadr2; omega
  have hmap1 : map_memory s2 a = .ok c1 := by
    rw [map_memory_congr s1 s2 a hf2.2.2.2.1 hf2.2.2.2.2.1 hf2.2.2.2.2.2.1,
      map_memory_congr s s1 a hf1.2.2.2.1 hf1.2.2.2.2.1 hf1.2.2.2.2.2.1]; exact hc1
  have hmap2 : map_memory s2 ((a + 1) % 65536) = .ok c2 := by
    rw [map_memory_congr s1 s2 _ hf2.2.2.2.1 hf2.2.2.2.2.1 hf2.2.2.2.2.2.1]; exact hc2
  refine ⟨s2, ?_, ?_, ?_, ?_⟩
  · simp only [write_memory16, Nat.add_zero]
    rw [hw1]
    show write_memory8 s1 (a + 1) _ = _
    rw [← write_memory8_mod]; exact hw2
  · rw [read_memory8_ram s2 a ha.1, hmap1]
    show s2.load c1 = _
    rw [store_load_other s1 s2 _ c2 c1 hin2 hst2 hne, hld1, low_byte, Nat.mod_mod]
  · rw [← read_memory8_mod, read_memory8_ram s2 _ hb.1, hmap2]
    show s2.load c2 = _
    rw [hld2, high_byte, Nat.mod_mod]
  · obtain ⟨a1, a2, a3, a4, a5, a6, a7, a8, a9⟩ := hf1
    obtain ⟨b1, b2, b3, b4, b5, b6, b7, b8, b9⟩ := hf2
    exact ⟨b1.trans a1, b2.trans a2, b3.trans a3, b4.trans a4, b5.trans a5, b6.trans a6, b7.trans a7,
      b8.trans a8, b9.trans a9⟩

theorem read_io8_IF (s : Machine) : read_io8 s IF = .ok (s.io_ports 0x0F % 256) := by
  simp [read_io8, IF, JOYP]

theorem write_io8_IF (s : Machine) (v : Nat) :
    write_io8 s IF v = .ok { s with io_ports := upd s.io_ports 0x0F (v % 256) } := by
  simp [write_io8, IF, DMA]

/-- With one of the sources 0, 1, 2 pending and no other, which of the five tests of `cpu_step` hold. -/
theorem pending_bits :
    ∀ irq < 256, ∀ k < 3, irq &&& 0x1F = 1 <<< k →
      (irq &&& 1 != 0) = (k == 0) ∧ (irq &&& 2 != 0) = (k == 1) ∧ (irq &&& 4 != 0) = (k == 2) ∧
      irq &&& 8 = 0 ∧ irq &&& 16 = 0 := by
  decide!

theorem ok_bind {α β : Type} (a : α) (f : α → Except Fault β) : (Except.ok a >>= f) = f a := rfl

theorem ne_zero_of_bne {x : Nat} {b : Bool} (h : (x != 0) = b) : (x ≠ 0) = (b = true) := by
  cases b <;> simp_all

/-- With exactly one of VBlank, LCD-STAT, Timer pending, the interrupt check is
one `invoke_interrupt` followed by the write of IF. -/
theorem cpu_interrupts_single (s : Machine) (k : Nat) (hk : k < 3)
    (hirq : ((s.ie % 256) &&& (s.io_ports 0x0F % 256)) &&& 0x1F = 1 <<< k) :
    cpu_interrupts s = (invoke_interrupt s (0x40 + 8 * k)).bind
      (fun s' => write_io8 s' IF ((s.io_ports 0x0F % 256) &&& (0xFF ^^^ (1 <<< k)))) := by
  have hlt : (s.ie % 256) &&& (s.io_ports 0x0F % 256) < 256 :=
    lt_of_le_of_lt Nat.and_le_left (Nat.mod_lt _ (by decide))
  obtain ⟨h0, h1, h2, h3, h4⟩ := pending_bits _ hlt k hk hirq
  have e0 := ne_zero_of_bne h0
  have e1 := ne_zero_of_bne h1
  have e2 := ne_zero_of_bne h2
  unfold cpu_interrupts
  rw [read_io8_IF, ok_bind]
  simp only [show INTERRUPTS_VBLANK = 1 from rfl, show INTERRUPTS_LCDSTAT = 2 from rfl,
    show INTERRUPTS_TIMER = 4 from rfl, show INTERRUPTS_SERIAL = 8 from rfl,
    show INTERRUPTS_JOYPAD = 16 from rfl, e0, e1, e2, h3, h4]
  interval_cases k <;>
    simp only [beq_self_eq_true, ↓reduceIte, Nat.reduceBEq, Bool.false_eq_true, ne_eq, not_true_eq_false,
      Nat.reduceMul, Nat.reduceAdd, Nat.reduceShiftLeft, Nat.reduceXor, pure_bind] <;>
    rfl

theorem read_memory16_of_bytes (s : Machine) (a lo hi : Nat) (hlo : lo < 256) (hhi : hi < 256)
    (h0 : read_memory8 s a = .ok lo) (h1 : read_memory8 s (a + 1) = .ok hi) :
    read_memory16 s a = .ok (hi * 256 + lo) := by
  simp only [read_memory16, Nat.add_zero, h0, h1, ok_bind, word_of_bytes lo hi hlo hhi]

/-- A push onto a stack in RAM: the new stack pointer, the two bytes stored, and what is kept. -/
theorem push16_ram (s : Machine) (v : Nat)
    (h0 : s.ram_at ((s.cpu.sp % 65536 + 65536 - 2) % 65536))
    (h1 : s.ram_at ((s.cpu.sp % 65536 + 65536 - 1) % 65536)) :
    ∃ s', push16 s v = .ok s' ∧
      Machine.frame { s with cpu := { s.cpu with sp := (s.cpu.sp % 65536 + 65536 - 2) % 65536 } } s' ∧
      read_memory8 s' ((s.cpu.sp % 65536 + 65536 - 2) % 65536) = .ok (v % 65536 % 256) ∧
      read_memory8 s' ((s.cpu.sp % 65536 + 65536 - 2) % 65536 + 1) = .ok (v % 65536 / 256 % 256) := by
  have e : ((s.cpu.sp % 65536 + 65536 - 2) % 65536 + 1) % 65536
      = (s.cpu.sp % 65536 + 65536 - 1) % 65536 := by omega
  have hb : s.ram_at (((s.cpu.sp % 65536 + 65536 - 2) % 65536 + 1) % 65536) := by rw [e]; exact h1
  obtain ⟨s', hw, hr0, hr1, hf⟩ :=
    write_memory16_ram { s with cpu := { s.cpu with sp := (s.cpu.sp % 65536 + 65536 - 2) % 65536 } }
      ((s.cpu.sp % 65536 + 65536 - 2) % 65536) (v % 65536)
      (ram_at_congr s _ _ rfl rfl h0) (ram_at_congr s _ _ rfl rfl hb)
  exact ⟨s', hw, hf, hr0, hr1⟩

/-! ## C5, C6: interrupt dispatch -/

/-- C5 (amended). With IME set, exactly one of VBlank, LCD-STAT, Timer
(source `k` = 0, 1, 2) pending in IE & IF and no other source, and the two
bytes below SP mapped into RAM, one step of `cpu_step` is the fetch and
execution from a state `s1` in which IME is clear, IF has lost bit `k` and
kept every other bit, SP is two lower, the word at the new SP is the old PC
(low byte first) and PC is the vector `0x40 + 8 * k`. -/
theorem interrupt_dispatch_single (s : Machine) (k : Nat) (hk : k < 3)
    (hime : s.ime = true)
    (hirq : ((s.ie % 256) &&& (s.io_ports 0x0F % 256)) &&& 0x1F = 1 <<< k)
    (hsp0 : s.ram_at ((s.cpu.sp % 65536 + 65536 - 2) % 65536))
    (hsp1 : s.ram_at ((s.cpu.sp % 65536 + 65536 - 1) % 65536)) :
    ∃ s1, cpu_step_once s = cpu_fetch_execute s1 ∧ s1.ime = false ∧
      s1.io_ports 0x0F = (s.io_ports 0x0F % 256) &&& (0xFF ^^^ (1 <<< k)) ∧
      s1.cpu.sp = (s.cpu.sp % 65536 + 65536 - 2) % 65536 ∧
      read_memory16 s1 s1.cpu.sp = .ok (s.cpu.pc % 65536) ∧
      s1.cpu.pc = 0x40 + 8 * k := by
  have hvec : (0x40 + 8 * k) % 65536 = 0x40 + 8 * k := Nat.mod_eq_of_lt (by omega)
  have hand : ((s.io_ports 0x0F % 256) &&& (0xFF ^^^ (1 <<< k))) % 256
      = (s.io_ports 0x0F % 256) &&& (0xFF ^^^ (1 <<< k)) :=
    Nat.mod_eq_of_lt (lt_of_le_of_lt Nat.and_le_left (Nat.mod_lt _ (by decide)))
  obtain ⟨s', hpush, ⟨c1, -, c3, c4, -, c6, -, -, -⟩, r0, r1⟩ :=
    push16_ram { s.set_f { s.cpu.f with zero := 0 } with ime := false } s.cpu.pc
      (ram_at_congr s _ _ rfl rfl hsp0) (ram_at_congr s _ _ rfl rfl hsp1)
  have e : ((s.cpu.sp % 65536 + 65536 - 2) % 65536 + 1) % 65536
      = (s.cpu.sp % 65536 + 65536 - 1) % 65536 := by omega
  have h0' : s'.ram_at ((s.cpu.sp % 65536 + 65536 - 2) % 65536) := ram_at_congr s _ _ c4 c6 hsp0
  have h1' : s'.ram_at (((s.cpu.sp % 65536 + 65536 - 2) % 65536 + 1) % 65536) := by
    rw [e]; exact ram_at_congr s _ _ c4 c6 hsp1
  have hsr : Machine.same_ram s' { s' with
      cpu := { s'.cpu with pc := 0x40 + 8 * k }
      io_ports := upd s'.io_ports 0x0F ((s.io_ports 0x0F % 256) &&& (0xFF ^^^ (1 <<< k))) } :=
    ⟨rfl, rfl, rfl, rfl, rfl, rfl, rfl, rfl, rfl, rfl, rfl⟩
  have e0 := (read_memory8_same_ram _ _ hsr _ h0').trans r0
  have e1 := ((read_memory8_mod _ _).symm.trans
    ((read_memory8_same_ram _ _ hsr _ h1').trans (read_memory8_mod _ _))).trans r1
  have hrd := read_memory16_of_bytes _ _ _ _ (Nat.mod_lt _ (by decide)) (Nat.mod_lt _ (by decide)) e0 e1
  have hsp : s'.cpu.sp = (s.cpu.sp % 65536 + 65536 - 2) % 65536 := by rw [c1]; rfl
  refine ⟨{ s' with
      cpu := { s'.cpu with pc := 0x40 + 8 * k }
      io_ports := upd s'.io_ports 0x0F ((s.io_ports 0x0F % 256) &&& (0xFF ^^^ (1 <<< k))) }, ?_, c3, ?_, hsp, ?_, rfl⟩
  · have hci := cpu_interrupts_single (s.set_f { s.cpu.f with zero := 0 }) k hk hirq
    have hinv : invoke_interrupt (s.set_f { s.cpu.f with zero := 0 }) (0x40 + 8 * k)
        = .ok { s' with cpu := { s'.cpu with pc := 0x40 + 8 * k } } := by
      simp only [invoke_interrupt, call]
      show (push16 _ s.cpu.pc >>= _) = _
      rw [hpush, ok_bind, hvec]
    have hio : (s.set_f { s.cpu.f with zero := 0 }).io_ports = s.io_ports := rfl
    rw [hio] at hci
    simp only [cpu_step_once]
    rw [show (s.set_f { s.cpu.f with zero := 0 }).ime = true from hime]
    simp only [↓reduceIte]
    rw [hci, hinv]
    show (write_io8 _ IF _ >>= cpu_fetch_execute) = _
    rw [write_io8_IF, hand, ok_bind]
  · simp [upd]
  · show read_memory16 _ s'.cpu.sp = _
    rw [hsp, hrd]
    exact congrArg Except.ok (by omega)

/-- C5 (amended) at the witness of the claim: IME = 1, IE = 0x01, IF = 0x01,
SP = 0xFFFE, PC = 0x0100. The step ends, after the `NOP` at 0x40, with
PC = 0x41, SP = 0xFFFC, IF = 0x00 and IME clear. -/
theorem interrupt_dispatch_single_witness :
    (0 < 3 ∧ (Machine.with_interrupts 0x01 0x01).ime = true ∧
      (((Machine.with_interrupts 0x01 0x01).ie % 256) &&&
        ((Machine.with_interrupts 0x01 0x01).io_ports 0x0F % 256)) &&& 0x1F = 1 <<< 0 ∧
      (Machine.with_interrupts 0x01 0x01).ram_at
        (((Machine.with_interrupts 0x01 0x01).cpu.sp % 65536 + 65536 - 2) % 65536) ∧
      (Machine.with_interrupts 0x01 0x01).ram_at
        (((Machine.with_interrupts 0x01 0x01).cpu.sp % 65536 + 65536 - 1) % 65536)) ∧
    (∃ s1, cpu_step_once (Machine.with_interrupts 0x01 0x01) = cpu_fetch_execute s1 ∧ s1.ime = false ∧
      s1.io_ports 0x0F = ((Machine.with_interrupts 0x01 0x01).io_ports 0x0F % 256) &&& (0xFF ^^^ (1 <<< 0)) ∧
      s1.cpu.sp = ((Machine.with_interrupts 0x01 0x01).cpu.sp % 65536 + 65536 - 2) % 65536 ∧
      read_memory16 s1 s1.cpu.sp = .ok ((Machine.with_interrupts 0x01 0x01).cpu.pc % 65536) ∧
      s1.cpu.pc = 0x40 + 8 * 0) ∧
    (cpu_step_once (Machine.with_interrupts 0x01 0x01)).map
      (fun r => (r.1, r.2.cpu.pc, r.2.cpu.sp, r.2.io_ports 0x0F, r.2.ime))
      = .ok (4, 0x41, 0xFFFC, 0x00, false) :=
  ⟨by decide,
    interrupt_dispatch_single (Machine.with_interrupts 0x01 0x01) 0 (by decide) (by decide) (by decide)
      (by decide) (by decide),
    by decide⟩

/-- C5 as stated fails where the stack is not in RAM. With IME set and VBlank alone
pending: if SP = 0x3000 and PC = 0x0150 the push writes 0x50 to 0x2FFE and
the step stops at `assert(v <= 0x1F)`; if SP = 0xFEA2 the two bytes are
discarded and the word at the new SP reads 0xFFFF, not the old PC 0x0100. -/
theorem interrupt_dispatch_needs_ram_stack :
    (Machine.stack_in_rom.ime = true ∧
      ((Machine.stack_in_rom.ie % 256) &&& (Machine.stack_in_rom.io_ports 0x0F % 256)) &&& 0x1F = 1 <<< 0 ∧
      (cpu_step_once Machine.stack_in_rom).map (fun r => r.1) = .error .assert_failed) ∧
    (Machine.stack_in_unusable.ime = true ∧
      ((Machine.stack_in_unusable.ie % 256) &&& (Machine.stack_in_unusable.io_ports 0x0F % 256)) &&& 0x1F
        = 1 <<< 0 ∧
      Machine.stack_in_unusable.cpu.pc = 0x0100 ∧
      (cpu_step_once Machine.stack_in_unusable).map (fun r => (r.2.cpu.sp, r.2.cpu.pc)) = .ok (0xFEA0, 0x41) ∧
      (cpu_step_once Machine.stack_in_unusable).bind (fun r => read_memory16 r.2 0xFEA0) = .ok 0xFFFF) := by
  decide

/-- C6 (the code at IE = IF = 0x05). With IME set and VBlank and Timer both
pending, PC = 0x0100, SP = 0xFFFE, the interrupt check of one step calls
`invoke_interrupt` twice: it pushes 0x0100, then 0x0040, leaves SP = 0xFFFA
and PC = 0x50, and clears both bits of IF; the step then runs the `NOP` at 0x50. -/
theorem two_pending_both_dispatched :
    (Machine.with_interrupts 0x05 0x05).cpu.pc = 0x0100 ∧ (Machine.with_interrupts 0x05 0x05).cpu.sp = 0xFFFE ∧
    (cpu_interrupts (Machine.with_interrupts 0x05 0x05)).map
      (fun s => (s.cpu.pc, s.cpu.sp, s.io_ports 0x0F, s.ime)) = .ok (0x50, 0xFFFA, 0x00, false) ∧
    (cpu_interrupts (Machine.with_interrupts 0x05 0x05)).bind (fun s => read_memory16 s 0xFFFC) = .ok 0x0100 ∧
    (cpu_interrupts (Machine.with_interrupts 0x05 0x05)).bind (fun s => read_memory16 s 0xFFFA) = .ok 0x0040 ∧
    (cpu_step_once (Machine.with_interrupts 0x05 0x05)).map
      (fun r => (r.1, r.2.cpu.pc, r.2.cpu.sp, r.2.io_ports 0x0F)) = .ok (4, 0x51, 0xFFFA, 0x00) := by
  decide

/-! ## Steps without an interrupt -/

theorem load_congr (s t : Machine) (h : s.same_ram t)
    (h4 : t.cartridge_rom_memory = s.cartridge_rom_memory) (h5 : t.cartridge_rom_size = s.cartridge_rom_size)
    (c : Cell) : t.load c = s.load c := by
  obtain ⟨h1, h2, h3, h6, h7, h8, h9, h10, -, -, -⟩ := h
  cases c <;> simp only [Machine.load, h1, h2, h3, h4, h5, h6, h7, h8, h9, h10]

/-- A read depends on the RAM arrays, IE, the MBC1 registers, the ROM, the
buttons and the I/O bytes modulo 256; not on the CPU registers or IME. -/
theorem read_memory8_congr (s t : Machine) (h : s.same_ram t)
    (h1 : ∀ i, t.io_ports i % 256 = s.io_ports i % 256) (h2 : t.gameboy_input = s.gameboy_input)
    (h4 : t.cartridge_rom_memory = s.cartridge_rom_memory) (h5 : t.cartridge_rom_size = s.cartridge_rom_size)
    (a : Nat) : read_memory8 t a = read_memory8 s a := by
  have hl : t.load = s.load := funext (load_congr s t h h4 h5)
  have hm := map_memory_congr s t (a % 65536) h.2.2.2.2.2.2.2.2.1 h.2.2.2.2.2.2.2.2.2.1 h.2.2.2.2.2.2.2.2.2.2
  simp only [read_memory8, read_io8, h1, h2, hm, hl]

theorem no_pending_bits :
    ∀ irq < 256, irq &&& 0x1F = 0 →
      irq &&& 1 = 0 ∧ irq &&& 2 = 0 ∧ irq &&& 4 = 0 ∧ irq &&& 8 = 0 ∧ irq &&& 16 = 0 := by
  decide!

theorem cpu_interrupts_none (s : Machine)
    (hirq : ((s.ie % 256) &&& (s.io_ports 0x0F % 256)) &&& 0x1F = 0) :
    cpu_interrupts s = .ok { s with io_ports := upd s.io_ports 0x0F (s.io_ports 0x0F % 256) } := by
  have hlt : (s.ie % 256) &&& (s.io_ports 0x0F % 256) < 256 :=
    lt_of_le_of_lt Nat.and_le_left (Nat.mod_lt _ (by decide))
  obtain ⟨h0, h1, h2, h3, h4⟩ := no_pending_bits _ hlt hirq
  unfold cpu_interrupts
  rw [read_io8_IF, ok_bind]
  simp only [show INTERRUPTS_VBLANK = 1 from rfl, show INTERRUPTS_LCDSTAT = 2 from rfl,
    show INTERRUPTS_TIMER = 4 from rfl, show INTERRUPTS_SERIAL = 8 from rfl,
    show INTERRUPTS_JOYPAD = 16 from rfl, h0, h1, h2, h3, h4, ne_eq, not_true_eq_false, ↓reduceIte,
    pure_bind, write_io8_IF, Nat.mod_mod]

/-- A step in which no interrupt is pending is the fetch and execution from a
state with the same registers (F masked) and the same readable memory. -/
theorem cpu_step_once_no_interrupt (s : Machine)
    (h : s.ime = true → ((s.ie % 256) &&& (s.io_ports 0x0F % 256)) &&& 0x1F = 0) :
    ∃ s0, cpu_step_once s = cpu_fetch_execute s0 ∧
      s0.cpu = { s.cpu with f := { s.cpu.f with zero := 0 } } ∧
      s0.ime = s.ime ∧ s.same_ram s0 ∧ (∀ i, s0.io_ports i % 256 = s.io_ports i % 256) ∧
      s0.gameboy_input = s.gameboy_input ∧ s0.cartridge_rom_memory = s.cartridge_rom_memory ∧
      s0.cartridge_rom_size = s.cartridge_rom_size := by
  cases hime : s.ime
  · refine ⟨s.set_f { s.cpu.f with zero := 0 }, ?_, rfl, hime, ⟨rfl, rfl, rfl, rfl, rfl, rfl, rfl, rfl, rfl, rfl, rfl⟩,
      fun _ => rfl, rfl, rfl, rfl⟩
    simp only [cpu_step_once]
    rw [if_neg (show ¬ (s.set_f { s.cpu.f with zero := 0 }).ime = true from by
      rw [show (s.set_f { s.cpu.f with zero := 0 }).ime = false from hime]; decide), pure_bind]
  · have key : cpu_step_once s = cpu_fetch_execute
        { s.set_f { s.cpu.f with zero := 0 } with
          io_ports := upd (s.set_f { s.cpu.f with zero := 0 }).io_ports 0x0F
            ((s.set_f { s.cpu.f with zero := 0 }).io_ports 0x0F % 256) } := by
      simp only [cpu_step_once]
      rw [if_pos (show (s.set_f { s.cpu.f with zero := 0 }).ime = true from hime),
        cpu_interrupts_none (s.set_f { s.cpu.f with zero := 0 }) (h hime), ok_bind]
    refine ⟨_, key, rfl, hime, ⟨rfl, rfl, rfl, rfl, rfl, rfl, rfl, rfl, rfl, rfl, rfl⟩, ?_, rfl, rfl, rfl⟩
    intro i
    show upd s.io_ports 0x0F (s.io_ports 0x0F % 256) i % 256 = _
    unfold upd
    by_cases hi : i = 15
    · rw [if_pos hi, hi, Nat.mod_mod]
    · rw [if_neg hi]

theorem cpu_fetch_execute_pop_af (s : Machine) (hop : read_memory8 s s.cpu.pc = .ok 0xF1) :
    cpu_fetch_execute s = emulate_pop_af (upd (fun _ => 0) 0 0xF1) (s.set_pc (s.cpu.pc + 1)) := by
  unfold cpu_fetch_execute
  rw [hop, ok_bind, show cpu_decode 0xF1 = .ok Handler.pop_af from by decide, ok_bind]
  simp only [Handler.length, Nat.sub_self, read_code, ok_bind, Handler.emulate]

theorem cpu_fetch_execute_push_af (s : Machine) (hop : read_memory8 s s.cpu.pc = .ok 0xF5) :
    cpu_fetch_execute s = emulate_push_af (upd (fun _ => 0) 0 0xF5) (s.set_pc (s.cpu.pc + 1)) := by
  unfold cpu_fetch_execute
  rw [hop, ok_bind, show cpu_decode 0xF5 = .ok Handler.push_af from by decide, ok_bind]
  simp only [Handler.length, Nat.sub_self, read_code, ok_bind, Handler.emulate]

theorem emulate_pop_af_eq (code : Code) (s : Machine) (w : Nat) (h : read_memory16 s s.cpu.sp = .ok w) :
    emulate_pop_af code s
      = .ok (12, { s with cpu := ({ s.cpu with sp := (s.cpu.sp + 2) % 65536 } : Registers).set_af w }) := by
  simp only [emulate_pop_af, pop16, h, ok_bind]

/-- The flag byte after the low nibble is masked. -/
theorem masked_flags_byte :
    ∀ v < 256, ({ Flags.ofByte v with zero := 0 } : Flags).toByte = v &&& 0xF0 := by
  decide!

theorem and_0xF0 (w : Nat) : w &&& 0xF0 = (w % 256) &&& 0xF0 := by
  have h := Nat.and_pow_two_sub_one_eq_mod w 8
  have e : (w &&& (2 ^ 8 - 1)) &&& 0xF0 = w &&& 0xF0 := by
    rw [Nat.and_assoc]; rfl
  rw [← e, h]

theorem read_memory16_congr (s t : Machine) (h : ∀ a, read_memory8 t a = read_memory8 s a) (a : Nat) :
    read_memory16 t a = read_memory16 s a := by
  simp only [read_memory16, h]

theorem read_memory16_lt (s : Machine) (a w : Nat) (h : read_memory16 s a = .ok w) : w < 65536 := by
  unfold read_memory16 at h
  cases h0 : read_memory8 s (a + 0) with
  | error e => rw [h0] at h; cases h
  | ok lo =>
    cases h1 : read_memory8 s (a + 1) with
    | error e => rw [h0, h1] at h; cases h
    | ok hi =>
      rw [h0, h1] at h
      simp only [ok_bind] at h
      injection h with h
      rw [← h]
      exact Nat.mod_lt _ (by decide)

/-- Changing CPU registers only does not change what a read returns. -/
theorem read_memory8_cpu (s : Machine) (c : Registers) (a : Nat) :
    read_memory8 { s with cpu := c } a = read_memory8 s a :=
  read_memory8_congr s _ ⟨rfl, rfl, rfl, rfl, rfl, rfl, rfl, rfl, rfl, rfl, rfl⟩ (fun _ => rfl) rfl rfl rfl a

theorem toByte_lt (f : Flags) : f.toByte < 256 := by
  unfold Flags.toByte b2n
  have := Nat.mod_lt f.zero (show 16 > 0 by decide)
  cases f.cy <;> cases f.h <;> cases f.n <;> cases f.zf <;> simp <;> omega

/-- One step that executes `POP AF` with no interrupt pending: 12 cycles, the
word at SP goes to AF unmasked, SP moves up by two, memory is as before. -/
theorem pop_af_step (s : Machine) (w : Nat)
    (hno : s.ime = true → ((s.ie % 256) &&& (s.io_ports 0x0F % 256)) &&& 0x1F = 0)
    (hop : read_memory8 s s.cpu.pc = .ok 0xF1)
    (hw : read_memory16 s s.cpu.sp = .ok w) :
    ∃ s1, cpu_step_once s = .ok (12, s1) ∧
      s1.cpu.pc = (s.cpu.pc + 1) % 65536 ∧ s1.cpu.sp = (s.cpu.sp + 2) % 65536 ∧
      s1.cpu.a = (w % 65536) >>> 8 ∧ s1.cpu.f = Flags.ofByte (w % 256) ∧
      s1.ime = s.ime ∧ s.same_ram s1 ∧ (∀ i, s1.io_ports i % 256 = s.io_ports i % 256) ∧
      s1.gameboy_input = s.gameboy_input ∧ s1.cartridge_rom_memory = s.cartridge_rom_memory ∧
      s1.cartridge_rom_size = s.cartridge_rom_size := by
  obtain ⟨s0, hstep1, hcpu0, hime0, hsr0, hio0, hin0, hrom0, hsz0⟩ := cpu_step_once_no_interrupt s hno
  have hread0 : ∀ a, read_memory8 s0 a = read_memory8 s a := read_memory8_congr s s0 hsr0 hio0 hin0 hrom0 hsz0
  have hpc0 : s0.cpu.pc = s.cpu.pc := by rw [hcpu0]
  have hsp0e : s0.cpu.sp = s.cpu.sp := by rw [hcpu0]
  have hfe1 := cpu_fetch_execute_pop_af s0 (by rw [hpc0, hread0]; exact hop)
  have hw0 : read_memory16 (s0.set_pc (s0.cpu.pc + 1)) (s0.set_pc (s0.cpu.pc + 1)).cpu.sp = .ok w := by
    show read_memory16 _ s0.cpu.sp = _
    rw [hsp0e, read_memory16_congr s0 (s0.set_pc (s0.cpu.pc + 1)) (read_memory8_cpu s0 _),
      read_memory16_congr s s0 hread0]
    exact hw
  have hpop := emulate_pop_af_eq (upd (fun _ => 0) 0 0xF1) _ w hw0
  rw [hpop] at hfe1
  rw [hfe1] at hstep1
  refine ⟨_, hstep1, ?_, ?_, rfl, rfl, hime0, hsr0, hio0, hin0, hrom0, hsz0⟩
  · show (s0.cpu.pc + 1) % 65536 = _
    rw [hpc0]
  · show (s0.cpu.sp + 2) % 65536 = _
    rw [hsp0e]

/-- One step that executes `PUSH AF` with no interrupt pending and the stack in
RAM: 16 cycles, SP moves down by two, the byte at the new SP is F with its low
nibble zero and the byte above it is A. -/
theorem push_af_step (s : Machine)
    (hno : s.ime = true → ((s.ie % 256) &&& (s.io_ports 0x0F % 256)) &&& 0x1F = 0)
    (hop : read_memory8 s s.cpu.pc = .ok 0xF5)
    (h0 : s.ram_at ((s.cpu.sp % 65536 + 65536 - 2) % 65536))
    (h1 : s.ram_at ((s.cpu.sp % 65536 + 65536 - 1) % 65536)) :
    ∃ s2, cpu_step_once s = .ok (16, s2) ∧
      s2.cpu.sp = (s.cpu.sp % 65536 + 65536 - 2) % 65536 ∧
      read_memory8 s2 ((s.cpu.sp % 65536 + 65536 - 2) % 65536)
        = .ok ({ s.cpu.f with zero := 0 } : Flags).toByte ∧
      read_memory8 s2 ((s.cpu.sp % 65536 + 65536 - 2) % 65536 + 1) = .ok (s.cpu.a % 256) := by
  obtain ⟨s0, hstep, hcpu0, hime0, hsr0, hio0, hin0, hrom0, hsz0⟩ := cpu_step_once_no_interrupt s hno
  have hread0 : ∀ a, read_memory8 s0 a = read_memory8 s a := read_memory8_congr s s0 hsr0 hio0 hin0 hrom0 hsz0
  have hpc0 : s0.cpu.pc = s.cpu.pc := by rw [hcpu0]
  have hfe := cpu_fetch_execute_push_af s0 (by rw [hpc0, hread0]; exact hop)
  have hsp : (s0.set_pc (s0.cpu.pc + 1)).cpu.sp = s.cpu.sp := by
    show s0.cpu.sp = _
    rw [hcpu0]
  have haf : (s0.set_pc (s0.cpu.pc + 1)).cpu.af
      = s.cpu.a % 256 * 256 + ({ s.cpu.f with zero := 0 } : Flags).toByte := by
    show s0.cpu.a % 256 * 256 + s0.cpu.f.toByte = _
    rw [hcpu0]
  have hm1 := hsr0.2.2.2.2.2.2.2.2.1
  have hm3 := hsr0.2.2.2.2.2.2.2.2.2.2
  have hp := push16_ram (s0.set_pc (s0.cpu.pc + 1)) (s0.set_pc (s0.cpu.pc + 1)).cpu.af
    (by rw [hsp]; exact ram_at_congr s _ _ hm1 hm3 h0) (by rw [hsp]; exact ram_at_congr s _ _ hm1 hm3 h1)
  obtain ⟨s2, hpush, ⟨c1, -⟩, r0, r1⟩ := hp
  rw [hsp] at r0 r1 c1
  rw [haf] at r0 r1
  have hb := toByte_lt ({ s.cpu.f with zero := 0 } : Flags)
  refine ⟨s2, ?_, ?_, ?_, ?_⟩
  · rw [hstep, hfe]
    simp only [emulate_push_af]
    rw [hpush, ok_bind]
  · rw [c1]
  · rw [r0]
    exact congrArg Except.ok (by omega)
  · rw [r1]
    exact congrArg Except.ok (by omega)

/-! ## C9, C10: `POP AF` and the low nibble of F -/

/-- C9. For every 16-bit word `w` stored at SP, with SP and SP + 1 in work RAM
or high RAM and no interrupt pending (IME clear, or no source bit in IE & IF),
executing `POP AF` and then `PUSH AF` through two steps of `cpu_step` takes 12
and 16 cycles, leaves SP where it was, and writes back at SP + 1 the high byte
of `w` (A) and at SP the byte `w & 0xF0` (F with its low nibble zero). -/
theorem pop_af_push_af (s : Machine) (w : Nat)
    (hno : s.ime = true → ((s.ie % 256) &&& (s.io_ports 0x0F % 256)) &&& 0x1F = 0)
    (hop1 : read_memory8 s s.cpu.pc = .ok 0xF1) (hop2 : read_memory8 s (s.cpu.pc + 1) = .ok 0xF5)
    (hsp0 : is_wram_or_hram s.cpu.sp) (hsp1 : is_wram_or_hram (s.cpu.sp + 1))
    (hw : read_memory16 s s.cpu.sp = .ok w) :
    ∃ s1 s2, cpu_step_once s = .ok (12, s1) ∧ cpu_step_once s1 = .ok (16, s2) ∧
      s2.cpu.sp = s.cpu.sp ∧
      read_memory8 s2 (s.cpu.sp + 1) = .ok (w >>> 8) ∧
      read_memory8 s2 s.cpu.sp = .ok (w &&& 0xF0) := by
  have hw16 := read_memory16_lt s _ w hw
  have hsp16 : s.cpu.sp + 1 < 65536 := by unfold is_wram_or_hram at hsp1; omega
  obtain ⟨s1, hstep1, hpc1, hsp1e, ha1, hf1, hime1, hsr1, hio1, hin1, hrom1, hsz1⟩ :=
    pop_af_step s w hno hop1 hw
  have hread1 : ∀ a, read_memory8 s1 a = read_memory8 s a := read_memory8_congr s s1 hsr1 hio1 hin1 hrom1 hsz1
  have hno1 : s1.ime = true → ((s1.ie % 256) &&& (s1.io_ports 0x0F % 256)) &&& 0x1F = 0 := by
    rw [hime1, hsr1.2.2.2.2.2.2.2.1, hio1]; exact hno
  have hop1' : read_memory8 s1 s1.cpu.pc = .ok 0xF5 := by
    rw [hpc1, hread1, read_memory8_mod]; exact hop2
  have ea : (s1.cpu.sp % 65536 + 65536 - 2) % 65536 = s.cpu.sp := by rw [hsp1e]; omega
  have eb : (s1.cpu.sp % 65536 + 65536 - 1) % 65536 = s.cpu.sp + 1 := by rw [hsp1e]; omega
  obtain ⟨s2, hstep2, hsp2, r0, r1⟩ := push_af_step s1 hno1 hop1'
    (by rw [ea]; exact ram_at_of_wram_or_hram s1 _ hsp0)
    (by rw [eb]; exact ram_at_of_wram_or_hram s1 _ hsp1)
  rw [ea] at hsp2 r0 r1
  refine ⟨s1, s2, hstep1, hstep2, hsp2, ?_, ?_⟩
  · rw [r1, ha1]
    refine congrArg Except.ok ?_
    rw [Nat.mod_eq_of_lt hw16, Nat.shiftRight_eq_div_pow]
    omega
  · rw [r0, hf1, masked_flags_byte _ (Nat.mod_lt _ (by decide)), ← and_0xF0]

/-- C9 at the word 0x12FF stored at SP = 0xFFFC (high RAM), with the program
`POP AF; PUSH AF` at 0x0100: the word written back is 0x12F0. -/
theorem pop_af_push_af_witness :
    ((Machine.pop_push_af.ime = true →
        ((Machine.pop_push_af.ie % 256) &&& (Machine.pop_push_af.io_ports 0x0F % 256)) &&& 0x1F = 0) ∧
      read_memory8 Machine.pop_push_af Machine.pop_push_af.cpu.pc = .ok 0xF1 ∧
      read_memory8 Machine.pop_push_af (Machine.pop_push_af.cpu.pc + 1) = .ok 0xF5 ∧
      is_wram_or_hram Machine.pop_push_af.cpu.sp ∧ is_wram_or_hram (Machine.pop_push_af.cpu.sp + 1) ∧
      read_memory16 Machine.pop_push_af Machine.pop_push_af.cpu.sp = .ok 0x12FF) ∧
    (∃ s1 s2, cpu_step_once Machine.pop_push_af = .ok (12, s1) ∧ cpu_step_once s1 = .ok (16, s2) ∧
      s2.cpu.sp = Machine.pop_push_af.cpu.sp ∧
      read_memory8 s2 (Machine.pop_push_af.cpu.sp + 1) = .ok (0x12FF >>> 8) ∧
      read_memory8 s2 Machine.pop_push_af.cpu.sp = .ok (0x12FF &&& 0xF0)) ∧
    (cpu_step 2 28 Machine.pop_push_af).bind (fun r => read_memory16 r.2 0xFFFC) = .ok 0x12F0 :=
  ⟨by decide,
    pop_af_push_af Machine.pop_push_af 0x12FF (by decide) (by decide) (by decide) (by decide) (by decide)
      (by decide),
    by decide!⟩

/-- C10 (the code at the word 0x12FF). `cpu_step` with a budget of 12 cycles
executes the one instruction `POP AF` and returns 0 with A = 0x12 and
F = 0xFF: the low nibble of F is 0xF, not zero. `emulate_pop_af` assigns
`cpu.af = pop16()` unmasked; the masking `cpu.f.zero = 0` is at the top of the
loop of `cpu_step`, before the next instruction only. -/
theorem pop_af_leaves_low_nibble :
    read_memory16 Machine.pop_af_0x12FF Machine.pop_af_0x12FF.cpu.sp = .ok 0x12FF ∧
    (cpu_step 1 12 Machine.pop_af_0x12FF).map
      (fun r => (r.1, r.2.cpu.a, r.2.cpu.f.toByte, r.2.cpu.f.zero)) = .ok (0, 0x12, 0xFF, 0x0F) := by
  decide

/-! ## The memory map: unusable range, echo region, MBC1 windows -/

theorem bind_ok {α β : Type} (a : α) (f : α → Except Fault β) : (Except.ok a).bind f = f a := rfl

theorem load_cartridge_ram (s : Machine) (i : Nat) (h : i < 0x8000) :
    s.load (.cartridge_ram i) = .ok (s.cartridge_ram_memory i % 256) := by
  have h2 : i < 8 * 1024 * CARTRIDGE_RAM_BANKS := by simp only [CARTRIDGE_RAM_BANKS]; omega
  simp only [Machine.load]
  rw [if_pos h2]

/-- A read of the cartridge-RAM window returns the byte of the bank that
`get_ram_bank_number` selects. -/
theorem read_cartridge_ram (m : Machine) (a : Nat) (h1 : 0xA000 ≤ a ∧ a ≤ 0xBFFF)
    (hb : get_ram_bank_number m ≤ 3) :
    read_memory8 m a
      = .ok (m.cartridge_ram_memory (get_ram_bank_number m * 0x2000 + (a - 0xA000)) % 256) := by
  have ha' : a % 65536 = a := Nat.mod_eq_of_lt (by omega)
  have n3 : ¬ a ≤ 0x3FFF := by omega
  have n4 : ¬ (0x4000 ≤ a ∧ a ≤ 0x7FFF) := by omega
  have n5 : ¬ (0x8000 ≤ a ∧ a ≤ 0x9FFF) := by omega
  have hmap : map_memory m a
      = .ok (.cartridge_ram (get_ram_bank_number m * 0x2000 + (a - 0xA000))) := by
    simp only [map_memory, ha']
    rw [if_neg n3, if_neg n4, if_neg n5, if_pos h1]
  have hlt : get_ram_bank_number m * 0x2000 + (a - 0xA000) < 0x8000 := by omega
  rw [read_memory8_ram m a (by unfold is_ram; omega), hmap, bind_ok, load_cartridge_ram m _ hlt]

/-- C15. The echo region 0xE000-0xFDFF is backed by its own array `echo_memory`,
not by work RAM: a write to 0xE000 never changes what a read of 0xC000 returns,
a write to 0xC000 never changes what a read of 0xE000 returns, and on the blank
machine the byte 0x5A written to one of the two addresses is read back as 0x00
from the other (while the address written reads back 0x5A). -/
theorem echo_is_a_separate_array (s : Machine) (B : Nat) :
    (write_memory8 s 0xE000 B).bind (fun s' => read_memory8 s' 0xC000) = read_memory8 s 0xC000 ∧
    (write_memory8 s 0xC000 B).bind (fun s' => read_memory8 s' 0xE000) = read_memory8 s 0xE000 ∧
    (write_memory8 Machine.blank 0xE000 0x5A).bind (fun s' => read_memory8 s' 0xC000) = .ok 0x00 ∧
    (write_memory8 Machine.blank 0xC000 0x5A).bind (fun s' => read_memory8 s' 0xE000) = .ok 0x00 ∧
    (write_memory8 Machine.blank 0xE000 0x5A).bind (fun s' => read_memory8 s' 0xE000) = .ok 0x5A := by
  refine ⟨?_, ?_, by decide, by decide, by decide⟩
  · simp [write_memory8, write_memory8_mapped, map_memory, Machine.store, read_memory8, Machine.load,
      Except.bind]
  · simp [write_memory8, write_memory8_mapped, map_memory, Machine.store, read_memory8, Machine.load,
      Except.bind]

/-- C16. For every address in 0xFEA0-0xFEFF and every machine state, `read_memory8`
returns 0xFF and `write_memory8` returns the machine state it was given, whatever
the value written. -/
theorem unusable_range (s : Machine) (a v : Nat) (ha : 0xFEA0 ≤ a ∧ a ≤ 0xFEFF) :
    read_memory8 s a = .ok 0xFF ∧ write_memory8 s a v = .ok s := by
  have ha' : a % 65536 = a := Nat.mod_eq_of_lt (by omega)
  constructor
  · simp only [read_memory8, ha']
    rw [if_pos ha]
  · have n0 : ¬ (0xFF00 ≤ a ∧ a ≤ 0xFF7F) := by omega
    have n1 : ¬ a ≤ 0x1FFF := by omega
    have n2 : ¬ (0x2000 ≤ a ∧ a ≤ 0x3FFF) := by omega
    have n3 : ¬ (0x4000 ≤ a ∧ a ≤ 0x5FFF) := by omega
    have n4 : ¬ (0x6000 ≤ a ∧ a ≤ 0x7FFF) := by omega
    simp only [write_memory8, write_memory8_mapped, ha']
    rw [if_neg n0, if_neg n1, if_neg n2, if_neg n3, if_neg n4, if_pos ha]

theorem unusable_range_witness :
    (0xFEA0 ≤ 0xFEC3 ∧ 0xFEC3 ≤ 0xFEFF) ∧
    read_memory8 Machine.blank 0xFEC3 = .ok 0xFF ∧
    write_memory8 Machine.blank 0xFEC3 0x77 = .ok Machine.blank :=
  ⟨by decide, unusable_range Machine.blank 0xFEC3 0x77 (by decide)⟩

/-- C17. MBC1 read mapping, for a state whose secondary register is a 2-bit value.
Reads of 0x0000-0x3FFF return ROM byte `a`. In ROM mode (mode flag false) a read of
0x4000-0x7FFF returns ROM byte `((s << 5) | p) * 0x4000 + (a - 0x4000)` and a read of
0xA000-0xBFFF returns cartridge-RAM byte `a - 0xA000` of bank 0. In RAM mode (mode
flag true) the upper ROM window returns ROM byte `p * 0x4000 + (a - 0x4000)` and the
cartridge-RAM read returns byte `s * 0x2000 + (a - 0xA000)`. A ROM byte is returned
when its index lies inside the loaded ROM image. -/
theorem mbc1_read_mapping (m : Machine) (a : Nat) (hs : m.rom_ram_bank_number ≤ 3) :
    (a ≤ 0x3FFF → a < m.cartridge_rom_size →
      read_memory8 m a = .ok (m.cartridge_rom_memory a % 256)) ∧
    (0x4000 ≤ a ∧ a ≤ 0x7FFF → m.rom_ram_mode_select = false →
      ((m.rom_ram_bank_number <<< 5) ||| m.rom_bank_number) * 0x4000 + (a - 0x4000)
        < m.cartridge_rom_size →
      read_memory8 m a = .ok (m.cartridge_rom_memory
        (((m.rom_ram_bank_number <<< 5) ||| m.rom_bank_number) * 0x4000 + (a - 0x4000)) % 256)) ∧
    (0x4000 ≤ a ∧ a ≤ 0x7FFF → m.rom_ram_mode_select = true →
      m.rom_bank_number * 0x4000 + (a - 0x4000) < m.cartridge_rom_size →
      read_memory8 m a
        = .ok (m.cartridge_rom_memory (m.rom_bank_number * 0x4000 + (a - 0x4000)) % 256)) ∧
    (0xA000 ≤ a ∧ a ≤ 0xBFFF → m.rom_ram_mode_select = false →
      read_memory8 m a = .ok (m.cartridge_ram_memory (0 * 0x2000 + (a - 0xA000)) % 256)) ∧
    (0xA000 ≤ a ∧ a ≤ 0xBFFF → m.rom_ram_mode_select = true →
      read_memory8 m a
        = .ok (m.cartridge_ram_memory (m.rom_ram_bank_number * 0x2000 + (a - 0xA000)) % 256)) := by
  refine ⟨?_, ?_, ?_, ?_, ?_⟩
  · intro h1 hsz
    have ha' : a % 65536 = a := Nat.mod_eq_of_lt (by omega)
    have n1 : ¬ (0xFEA0 ≤ a ∧ a ≤ 0xFEFF) := by omega
    have n2 : ¬ (0xFF00 ≤ a ∧ a ≤ 0xFF7F) := by omega
    simp only [read_memory8, map_memory, ha']
    rw [if_neg n1, if_neg n2, if_pos h1]
    simp only [Except.bind, Machine.load, Nat.sub_zero]
    rw [if_pos hsz]
  · intro h1 hmode hsz
    have ha' : a % 65536 = a := Nat.mod_eq_of_lt (by omega)
    have n1 : ¬ (0xFEA0 ≤ a ∧ a ≤ 0xFEFF) := by omega
    have n2 : ¬ (0xFF00 ≤ a ∧ a ≤ 0xFF7F) := by omega
    have n3 : ¬ a ≤ 0x3FFF := by omega
    simp only [read_memory8, map_memory, ha', get_rom_bank_number, hmode]
    rw [if_neg n1, if_neg n2, if_neg n3, if_pos h1]
    simp only [if_pos h1, Bool.false_eq_true, not_false_eq_true, if_true]
    simp only [Except.bind, Machine.load]
    rw [if_pos hsz]
  · intro h1 hmode hsz
    have ha' : a % 65536 = a := Nat.mod_eq_of_lt (by omega)
    have n1 : ¬ (0xFEA0 ≤ a ∧ a ≤ 0xFEFF) := by omega
    have n2 : ¬ (0xFF00 ≤ a ∧ a ≤ 0xFF7F) := by omega
    have n3 : ¬ a ≤ 0x3FFF := by omega
    simp only [read_memory8, map_memory, ha', get_rom_bank_number, hmode]
    rw [if_neg n1, if_neg n2, if_neg n3, if_pos h1]
    simp only [if_pos h1, not_true_eq_false, if_false]
    simp only [Except.bind, Machine.load]
    rw [if_pos hsz]
  · intro h1 hmode
    have hb : get_ram_bank_number m = 0 := by
      simp only [get_ram_bank_number, hmode, Bool.false_eq_true, not_false_eq_true, if_true]
    have h := read_cartridge_ram m a h1 (by omega)
    rw [hb] at h
    exact h
  · intro h1 hmode
    have hb : get_ram_bank_number m = m.rom_ram_bank_number := by
      simp only [get_ram_bank_number, hmode, not_true_eq_false, if_false]
    have h := read_cartridge_ram m a h1 (by omega)
    rw [hb] at h
    exact h

theorem mbc1_read_mapping_witness :
    Machine.mbc1_banked.rom_ram_bank_number ≤ 3 ∧
    read_memory8 Machine.mbc1_banked 0x4000 = .ok (Machine.mbc1_banked.cartridge_rom_memory
      (((Machine.mbc1_banked.rom_ram_bank_number <<< 5) ||| Machine.mbc1_banked.rom_bank_number)
        * 0x4000 + (0x4000 - 0x4000)) % 256) ∧
    read_memory8 { Machine.mbc1_banked with rom_ram_mode_select := true } 0xA001
      = .ok (Machine.mbc1_banked.cartridge_ram_memory (2 * 0x2000 + (0xA001 - 0xA000)) % 256) :=
  ⟨by decide,
   (mbc1_read_mapping Machine.mbc1_banked 0x4000 (by decide)).2.1 (by decide) rfl (by decide),
   (mbc1_read_mapping { Machine.mbc1_banked with rom_ram_mode_select := true } 0xA001
      (by decide)).2.2.2.2 (by decide) rfl⟩

/-- C18. A completed `write_memory8` to an address in 0x0000-0x7FFF changes at most
the four MBC1 registers: the resulting state is the old state with (possibly) new
`ram_enable`, `rom_bank_number`, `rom_ram_bank_number` and `rom_ram_mode_select`, so
ROM, every RAM array, the I/O ports, IE and the CPU registers are the same. For an
address in 0x0000-0x1FFF the only change is `ram_enable := ((v & 0x0F) == 0x0A)`. -/
theorem rom_write_frame (s s' : Machine) (a v : Nat) (ha : a ≤ 0x7FFF)
    (hw : write_memory8 s a v = .ok s') :
    s' = { s with
        ram_enable := s'.ram_enable
        rom_bank_number := s'.rom_bank_number
        rom_ram_bank_number := s'.rom_ram_bank_number
        rom_ram_mode_select := s'.rom_ram_mode_select } ∧
    (a ≤ 0x1FFF → s' = { s with ram_enable := (((v % 256) &&& 0xF) == 0xA) }) := by
  have ha' : a % 65536 = a := Nat.mod_eq_of_lt (by omega)
  have n0 : ¬ (0xFF00 ≤ a ∧ a ≤ 0xFF7F) := by omega
  simp only [write_memory8, write_memory8_mapped, ha'] at hw
  rw [if_neg n0] at hw
  by_cases h1 : a ≤ 0x1FFF
  · rw [if_pos h1] at hw
    injection hw with hw
    subst hw
    exact ⟨rfl, fun _ => rfl⟩
  rw [if_neg h1] at hw
  by_cases h2 : 0x2000 ≤ a ∧ a ≤ 0x3FFF
  · rw [if_pos h2] at hw
    by_cases hv : v % 256 ≤ 0x1F
    · rw [if_pos hv] at hw
      injection hw with hw
      subst hw
      exact ⟨rfl, fun h => absurd h h1⟩
    · rw [if_neg hv] at hw; cases hw
  rw [if_neg h2] at hw
  by_cases h3 : 0x4000 ≤ a ∧ a ≤ 0x5FFF
  · rw [if_pos h3] at hw
    by_cases hv : v % 256 ≤ 0x3
    · rw [if_pos hv] at hw
      injection hw with hw
      subst hw
      exact ⟨rfl, fun h => absurd h h1⟩
    · rw [if_neg hv] at hw; cases hw
  rw [if_neg h3, if_pos (show 0x6000 ≤ a ∧ a ≤ 0x7FFF by omega)] at hw
  by_cases hv : v % 256 = 0x00 ∨ v % 256 = 0x01
  · rw [if_pos hv] at hw
    injection hw with hw
    subst hw
    exact ⟨rfl, fun h => absurd h h1⟩
  · rw [if_neg hv] at hw; cases hw

theorem rom_write_frame_witness :
    (0 ≤ 0x7FFF ∧ write_memory8 Machine.blank 0x0000 0x0A
        = .ok { Machine.blank with ram_enable := true }) ∧
    ({ Machine.blank with ram_enable := true }
        = { Machine.blank with
            ram_enable := ({ Machine.blank with ram_enable := true } : Machine).ram_enable
            rom_bank_number := ({ Machine.blank with ram_enable := true } : Machine).rom_bank_number
            rom_ram_bank_number
              := ({ Machine.blank with ram_enable := true } : Machine).rom_ram_bank_number
            rom_ram_mode_select
              := ({ Machine.blank with ram_enable := true } : Machine).rom_ram_mode_select } ∧
      (0 ≤ 0x1FFF → ({ Machine.blank with ram_enable := true } : Machine)
        = { Machine.blank with ram_enable := (((0x0A % 256) &&& 0xF) == 0xA) })) :=
  ⟨⟨by decide, rfl⟩, rom_write_frame Machine.blank _ 0x0000 0x0A (by decide) rfl⟩

/-! ## Bytes and words on the bus -/

theorem and_lt_256 (x m : Nat) (h : x < 256) : x &&& m < 256 :=
  lt_of_le_of_lt Nat.and_le_left h

theorem or_0xF_lt_256 (x : Nat) : (x % 256) ||| 0xF < 256 :=
  Nat.or_lt_two_pow (n := 8) (Nat.mod_lt _ (by decide)) (by decide)

theorem clear_pressed_lt (v : Nat) (k3 k2 k1 k0 : Bool) (h : v < 256) :
    clear_pressed v k3 k2 k1 k0 < 256 := by
  unfold clear_pressed
  cases k3 <;> cases k2 <;> cases k1 <;> cases k0 <;>
    simp only [Bool.false_eq_true, if_false, if_true] <;>
    repeat (first | exact h | apply and_lt_256)

/-- The joypad register as `read_io8` returns it: the stored byte with the low nibble
set, minus the bits of the pressed keys of the selected row. -/
theorem read_io8_JOYP (s : Machine) :
    read_io8 s JOYP =
      if (((s.io_ports 0 % 256) ||| 0xF) &&& 0x20 == 0) == (((s.io_ports 0 % 256) ||| 0xF) &&& 0x10 == 0)
      then .error .assert_failed
      else .ok
        (if ((s.io_ports 0 % 256) ||| 0xF) &&& 0x10 == 0 then
          clear_pressed
            (if ((s.io_ports 0 % 256) ||| 0xF) &&& 0x20 == 0 then
              clear_pressed ((s.io_ports 0 % 256) ||| 0xF) s.gameboy_input.start
                s.gameboy_input.select s.gameboy_input.b s.gameboy_input.a
             else (s.io_ports 0 % 256) ||| 0xF)
            s.gameboy_input.down s.gameboy_input.up s.gameboy_input.left s.gameboy_input.right
         else
          (if ((s.io_ports 0 % 256) ||| 0xF) &&& 0x20 == 0 then
              clear_pressed ((s.io_ports 0 % 256) ||| 0xF) s.gameboy_input.start
                s.gameboy_input.select s.gameboy_input.b s.gameboy_input.a
           else (s.io_ports 0 % 256) ||| 0xF)) := by
  rfl

theorem read_io8_mod (s : Machine) (a : Nat) : read_io8 s (a % 65536) = read_io8 s a := by
  simp only [read_io8, Nat.mod_mod]

theorem read_io8_lt (s : Machine) (a v : Nat) (h : read_io8 s a = .ok v) : v < 256 := by
  by_cases hj : a % 65536 = JOYP
  · have hor := or_0xF_lt_256 (s.io_ports 0)
    rw [← read_io8_mod, hj, read_io8_JOYP] at h
    by_cases hc : ((((s.io_ports 0 % 256) ||| 0xF) &&& 0x20 == 0)
        == (((s.io_ports 0 % 256) ||| 0xF) &&& 0x10 == 0)) = true
    · rw [if_pos hc] at h; cases h
    rw [if_neg hc] at h
    injection h with h
    rw [← h]
    by_cases hd : ((((s.io_ports 0 % 256) ||| 0xF) &&& 0x10) == 0) = true <;>
      by_cases hb : ((((s.io_ports 0 % 256) ||| 0xF) &&& 0x20) == 0) = true <;>
      simp only [hd, hb, if_true, if_false, Bool.false_eq_true] <;>
      repeat (first | exact hor | apply clear_pressed_lt)
  · unfold read_io8 at h
    simp only [] at h
    by_cases hr : ¬ (0xFF00 ≤ a % 65536 ∧ a % 65536 ≤ 0xFF7F)
    · rw [if_pos hr] at h; cases h
    rw [if_neg hr, if_neg hj] at h
    injection h with h
    rw [← h]
    exact Nat.mod_lt _ (by decide)

theorem load_lt (s : Machine) (c : Cell) (v : Nat) (h : s.load c = .ok v) : v < 256 := by
  cases c <;> simp only [Machine.load] at h <;> (try split_ifs at h) <;> injection h with h <;>
    subst h <;> exact Nat.mod_lt _ (by decide)

/-- Every byte read from the bus is below 256. -/
theorem read_memory8_lt (s : Machine) (a v : Nat) (h : read_memory8 s a = .ok v) : v < 256 := by
  unfold read_memory8 at h
  simp only [] at h
  by_cases h1 : 0xFEA0 ≤ a % 65536 ∧ a % 65536 ≤ 0xFEFF
  · rw [if_pos h1] at h
    injection h with h
    omega
  rw [if_neg h1] at h
  by_cases h2 : 0xFF00 ≤ a % 65536 ∧ a % 65536 ≤ 0xFF7F
  · rw [if_pos h2] at h
    exact read_io8_lt s _ v h
  rw [if_neg h2] at h
  cases hm : map_memory s (a % 65536) with
  | error e => rw [hm] at h; cases h
  | ok c =>
    rw [hm, bind_ok] at h
    exact load_lt s c v h

theorem or_shift_lt_65536 (lo hi : Nat) (hlo : lo < 256) (hhi : hi < 256) :
    (0x0000 ||| (lo <<< 0) ||| (hi <<< 8)) % 65536 = lo ||| (hi <<< 8) := by
  have h1 : hi <<< 8 < 2 ^ 16 := by rw [Nat.shiftLeft_eq]; omega
  have h2 : lo ||| (hi <<< 8) < 2 ^ 16 := Nat.or_lt_two_pow (by omega) h1
  simp only [Nat.zero_or, Nat.shiftLeft_zero]
  exact Nat.mod_eq_of_lt h2

/-- The word read is the low byte or-ed with the high byte shifted left by eight,
the high byte being read at `(a + 1) mod 2^16`. -/
theorem read_memory16_eq (t : Machine) (x : Nat) :
    read_memory16 t x = (read_memory8 t x).bind (fun lo =>
      (read_memory8 t ((x + 1) % 65536)).bind (fun hi => .ok (lo ||| (hi <<< 8)))) := by
  simp only [read_memory16, Nat.add_zero]
  rw [read_memory8_mod t (x + 1)]
  cases h0 : read_memory8 t x with
  | error e => rfl
  | ok lo =>
    cases h1 : read_memory8 t (x + 1) with
    | error e => rfl
    | ok hi =>
      rw [ok_bind, ok_bind, bind_ok, bind_ok,
        or_shift_lt_65536 lo hi (read_memory8_lt t x lo h0) (read_memory8_lt t (x + 1) hi h1)]

/-- C19. For a 16-bit value `w` and an address `a` such that `a` and `(a + 1) mod 2^16`
both lie in RAM (VRAM, cartridge RAM, work RAM, echo, OAM, high RAM or IE; 2-bit
secondary register), `write_memory16(a, w)` completes, a read of `a` then returns
`w & 0xFF`, a read of `(a + 1) mod 2^16` returns `w >> 8`, and `read_memory16(a)` returns
`w`. In every state and at every address, `read_memory16` is the byte read at the
address or-ed with the byte read at the next address (mod 2^16) shifted left by 8. -/
theorem memory16_little_endian (s : Machine) (a w : Nat) (hw : w < 65536)
    (hs : s.rom_ram_bank_number ≤ 3) (ha : is_ram a) (hb : is_ram ((a + 1) % 65536)) :
    (∃ s', write_memory16 s a w = .ok s' ∧
      read_memory8 s' a = .ok (w &&& 0xFF) ∧
      read_memory8 s' ((a + 1) % 65536) = .ok (w >>> 8) ∧
      read_memory16 s' a = .ok w) ∧
    (∀ (t : Machine) (x : Nat), read_memory16 t x = (read_memory8 t x).bind (fun lo =>
      (read_memory8 t ((x + 1) % 65536)).bind (fun hi => .ok (lo ||| (hi <<< 8))))) := by
  refine ⟨?_, read_memory16_eq⟩
  obtain ⟨s', h1, h2, h3, -⟩ := write_memory16_ram s a w
    (ram_at_of_is_ram s a hs ha) (ram_at_of_is_ram s _ hs hb)
  have e1 : w &&& 0xFF = w % 256 := low_byte w
  have e2 : w >>> 8 = w / 256 % 256 := by rw [Nat.shiftRight_eq_div_pow]; omega
  refine ⟨s', h1, ?_, ?_, ?_⟩
  · rw [e1]; exact h2
  · rw [e2, read_memory8_mod]; exact h3
  · rw [read_memory16_of_bytes s' a (w % 256) (w / 256 % 256) (by omega) (by omega) h2 h3]
    exact congrArg Except.ok (by omega)

theorem memory16_little_endian_witness :
    (0xBEEF < 65536 ∧ Machine.blank.rom_ram_bank_number ≤ 3 ∧ is_ram 0xCFFF ∧
      is_ram ((0xCFFF + 1) % 65536)) ∧
    ((∃ s', write_memory16 Machine.blank 0xCFFF 0xBEEF = .ok s' ∧
      read_memory8 s' 0xCFFF = .ok (0xBEEF &&& 0xFF) ∧
      read_memory8 s' ((0xCFFF + 1) % 65536) = .ok (0xBEEF >>> 8) ∧
      read_memory16 s' 0xCFFF = .ok 0xBEEF) ∧
    (∀ (t : Machine) (x : Nat), read_memory16 t x = (read_memory8 t x).bind (fun lo =>
      (read_memory8 t ((x + 1) % 65536)).bind (fun hi => .ok (lo ||| (hi <<< 8)))))) :=
  ⟨by decide, memory16_little_endian Machine.blank 0xCFFF 0xBEEF (by decide) (by decide)
    (by decide) (by decide)⟩

/-! ## C20: the joypad register -/

/-- Setting the low nibble keeps bits 5 and 4; clearing the bits of the pressed keys
keeps bits 7..4 and leaves bit `k` of the low nibble clear exactly for a pressed key. -/
theorem clear_pressed_bits :
    ∀ b < 256, ((b ||| 0xF) &&& 0x20 = b &&& 0x20 ∧ (b ||| 0xF) &&& 0x10 = b &&& 0x10) ∧
      ∀ k3 k2 k1 k0 : Bool,
        (clear_pressed (b ||| 0xF) k3 k2 k1 k0) &&& 0xF0 = b &&& 0xF0 ∧
        ((clear_pressed (b ||| 0xF) k3 k2 k1 k0) &&& 8 == 0) = k3 ∧
        ((clear_pressed (b ||| 0xF) k3 k2 k1 k0) &&& 4 == 0) = k2 ∧
        ((clear_pressed (b ||| 0xF) k3 k2 k1 k0) &&& 2 == 0) = k1 ∧
        ((clear_pressed (b ||| 0xF) k3 k2 k1 k0) &&& 1 == 0) = k0 := by
  decide!

theorem read_memory8_JOYP (s : Machine) : read_memory8 s 0xFF00 = read_io8 s JOYP := rfl

theorem beq_zero_iff (x : Nat) (k : Bool) (h : (x == 0) = k) : x = 0 ↔ k = true := by
  cases k <;> simp_all

/-- C20. Let `b` be the byte stored at 0xFF00. If bit 5 of `b` is clear and bit 4 is set
(button row), `read_memory8(0xFF00)` returns a byte whose bits 7..4 are those of `b` and
whose bits 3, 2, 1, 0 are clear exactly when Start, Select, B, A are pressed. If bit 4 is
clear and bit 5 is set (direction row), bits 7..4 are those of `b` and bits 3, 2, 1, 0 are
clear exactly when Down, Up, Left, Right are pressed. The read is a function of the state
that returns a byte only. -/
theorem joypad_read (s : Machine) :
    ((s.io_ports 0 % 256) &&& 0x20 = 0 → (s.io_ports 0 % 256) &&& 0x10 ≠ 0 →
      ∃ r, read_memory8 s 0xFF00 = .ok r ∧ r &&& 0xF0 = (s.io_ports 0 % 256) &&& 0xF0 ∧
        (r &&& 8 = 0 ↔ s.gameboy_input.start = true) ∧
        (r &&& 4 = 0 ↔ s.gameboy_input.select = true) ∧
        (r &&& 2 = 0 ↔ s.gameboy_input.b = true) ∧
        (r &&& 1 = 0 ↔ s.gameboy_input.a = true)) ∧
    ((s.io_ports 0 % 256) &&& 0x10 = 0 → (s.io_ports 0 % 256) &&& 0x20 ≠ 0 →
      ∃ r, read_memory8 s 0xFF00 = .ok r ∧ r &&& 0xF0 = (s.io_ports 0 % 256) &&& 0xF0 ∧
        (r &&& 8 = 0 ↔ s.gameboy_input.down = true) ∧
        (r &&& 4 = 0 ↔ s.gameboy_input.up = true) ∧
        (r &&& 2 = 0 ↔ s.gameboy_input.left = true) ∧
        (r &&& 1 = 0 ↔ s.gameboy_input.right = true)) := by
  obtain ⟨⟨m5, m4⟩, hk⟩ := clear_pressed_bits (s.io_ports 0 % 256) (Nat.mod_lt _ (by decide))
  constructor
  · intro h5 h4
    have hb : ((((s.io_ports 0 % 256) ||| 0xF) &&& 0x20) == 0) = true := by
      rw [m5, h5]; rfl
    have hd : ((((s.io_ports 0 % 256) ||| 0xF) &&& 0x10) == 0) = false := by
      rw [m4]; exact beq_false_of_ne h4
    obtain ⟨k7, k3, k2, k1, k0⟩ := hk s.gameboy_input.start s.gameboy_input.select
      s.gameboy_input.b s.gameboy_input.a
    refine ⟨_, ?_, k7, beq_zero_iff _ _ k3, beq_zero_iff _ _ k2, beq_zero_iff _ _ k1,
      beq_zero_iff _ _ k0⟩
    rw [read_memory8_JOYP, read_io8_JOYP]
    simp only [hb, hd, if_true, if_false, Bool.false_eq_true, beq_iff_eq, Bool.true_eq_false]
  · intro h4 h5
    have hb : ((((s.io_ports 0 % 256) ||| 0xF) &&& 0x20) == 0) = false := by
      rw [m5]; exact beq_false_of_ne h5
    have hd : ((((s.io_ports 0 % 256) ||| 0xF) &&& 0x10) == 0) = true := by
      rw [m4, h4]; rfl
    obtain ⟨k7, k3, k2, k1, k0⟩ := hk s.gameboy_input.down s.gameboy_input.up
      s.gameboy_input.left s.gameboy_input.right
    refine ⟨_, ?_, k7, beq_zero_iff _ _ k3, beq_zero_iff _ _ k2, beq_zero_iff _ _ k1,
      beq_zero_iff _ _ k0⟩
    rw [read_memory8_JOYP, read_io8_JOYP]
    simp only [hb, hd, if_true, if_false, Bool.false_eq_true, beq_iff_eq, Bool.true_eq_false]

theorem joypad_read_witness :
    ((((Machine.with_joypad 0x10 keys_start_a_up_left).io_ports 0 % 256) &&& 0x20 = 0 ∧
      ((Machine.with_joypad 0x10 keys_start_a_up_left).io_ports 0 % 256) &&& 0x10 ≠ 0) ∧
     ∃ r, read_memory8 (Machine.with_joypad 0x10 keys_start_a_up_left) 0xFF00 = .ok r ∧
        r &&& 0xF0 = ((Machine.with_joypad 0x10 keys_start_a_up_left).io_ports 0 % 256) &&& 0xF0 ∧
        (r &&& 8 = 0 ↔ keys_start_a_up_left.start = true) ∧
        (r &&& 4 = 0 ↔ keys_start_a_up_left.select = true) ∧
        (r &&& 2 = 0 ↔ keys_start_a_up_left.b = true) ∧
        (r &&& 1 = 0 ↔ keys_start_a_up_left.a = true)) ∧
    ((((Machine.with_joypad 0x20 keys_start_a_up_left).io_ports 0 % 256) &&& 0x10 = 0 ∧
      ((Machine.with_joypad 0x20 keys_start_a_up_left).io_ports 0 % 256) &&& 0x20 ≠ 0) ∧
     ∃ r, read_memory8 (Machine.with_joypad 0x20 keys_start_a_up_left) 0xFF00 = .ok r ∧
        r &&& 0xF0 = ((Machine.with_joypad 0x20 keys_start_a_up_left).io_ports 0 % 256) &&& 0xF0 ∧
        (r &&& 8 = 0 ↔ keys_start_a_up_left.down = true) ∧
        (r &&& 4 = 0 ↔ keys_start_a_up_left.up = true) ∧
        (r &&& 2 = 0 ↔ keys_start_a_up_left.left = true) ∧
        (r &&& 1 = 0 ↔ keys_start_a_up_left.right = true)) :=
  ⟨⟨⟨by decide, by decide⟩,
    (joypad_read (Machine.with_joypad 0x10 keys_start_a_up_left)).1 (by decide) (by decide)⟩,
   ⟨⟨by decide, by decide⟩,
    (joypad_read (Machine.with_joypad 0x20 keys_start_a_up_left)).2 (by decide) (by decide)⟩⟩

/-- The joypad register evaluated with each of the four row selections. -/
theorem joypad_read_values :
    read_memory8 (Machine.with_joypad 0x10 keys_start_a_up_left) 0xFF00 = .ok 0x16 ∧
    read_memory8 (Machine.with_joypad 0x20 keys_start_a_up_left) 0xFF00 = .ok 0x29 ∧
    read_memory8 (Machine.with_joypad 0x00 keys_start_a_up_left) 0xFF00 = .error .assert_failed ∧
    read_memory8 (Machine.with_joypad 0x30 keys_start_a_up_left) 0xFF00 = .error .assert_failed := by
  decide

/-! ## What a bus write and the register helpers leave alone -/

theorem ensures_ok {α : Type} (a : α) (P : α → Prop) (h : P a) : ensures (Except.ok a) P := by
  intro b hb
  injection hb with hb
  rw [← hb]; exact h

theorem ensures_error {α : Type} (e : Fault) (P : α → Prop) : ensures (Except.error e) P := by
  intro b hb
  cases hb

theorem ensures_bind {α β : Type} (x : Except Fault α) (f : α → Except Fault β) (Q : α → Prop)
    (P : β → Prop) (hx : ensures x Q) (hf : ∀ a, Q a → ensures (f a) P) : ensures (x >>= f) P := by
  cases h : x with
  | error e => exact ensures_error e P
  | ok a => rw [ok_bind]; exact hf a (hx a h)

theorem ensures_bind_any {α β : Type} (x : Except Fault α) (f : α → Except Fault β)
    (P : β → Prop) (hf : ∀ a, ensures (f a) P) : ensures (x >>= f) P :=
  ensures_bind x f (fun _ => True) P (fun _ _ => trivial) (fun a _ => hf a)

theorem ensures_ite {α : Type} (c : Prop) [Decidable c] (x y : Except Fault α) (P : α → Prop)
    (hx : c → ensures x P) (hy : ¬ c → ensures y P) : ensures (if c then x else y) P := by
  by_cases h : c
  · rw [if_pos h]; exact hx h
  · rw [if_neg h]; exact hy h

theorem store_cpu (s : Machine) (v : Nat) (c : Cell) :
    ensures (s.store v c) (fun s' => s'.cpu = s.cpu ∧ s'.ime = s.ime) := by
  intro s' h
  cases c <;> simp only [Machine.store] at h <;> (try split_ifs at h) <;> cases h <;>
    exact ⟨rfl, rfl⟩

theorem write_memory8_mapped_cpu (s : Machine) (a v : Nat) :
    ensures (write_memory8_mapped s a v) (fun s' => s'.cpu = s.cpu ∧ s'.ime = s.ime) := by
  unfold write_memory8_mapped
  simp only []
  refine ensures_ite _ _ _ _ (fun _ => ensures_ok _ _ ⟨rfl, rfl⟩) (fun _ => ?_)
  refine ensures_ite _ _ _ _ (fun _ => ensures_ite _ _ _ _ (fun _ => ensures_ok _ _ ⟨rfl, rfl⟩)
    (fun _ => ensures_error _ _)) (fun _ => ?_)
  refine ensures_ite _ _ _ _ (fun _ => ensures_ite _ _ _ _ (fun _ => ensures_ok _ _ ⟨rfl, rfl⟩)
    (fun _ => ensures_error _ _)) (fun _ => ?_)
  refine ensures_ite _ _ _ _ (fun _ => ensures_ite _ _ _ _ (fun _ => ensures_ok _ _ ⟨rfl, rfl⟩)
    (fun _ => ensures_error _ _)) (fun _ => ?_)
  refine ensures_ite _ _ _ _ (fun _ => ensures_ok _ _ ⟨rfl, rfl⟩) (fun _ => ?_)
  cases hm : map_memory s (a % 65536) with
  | error e => exact ensures_error _ _
  | ok c => rw [bind_ok]; exact store_cpu s _ c

theorem dma_copy_cpu (n : Nat) : ∀ (s : Machine) (src dst : Nat),
    ensures (dma_copy n s src dst) (fun s' => s'.cpu = s.cpu ∧ s'.ime = s.ime) := by
  induction n with
  | zero => intro s src dst; exact ensures_ok _ _ ⟨rfl, rfl⟩
  | succ n ih =>
    intro s src dst
    unfold dma_copy
    refine ensures_bind_any _ _ _ (fun byte => ?_)
    refine ensures_bind _ _ _ _ (write_memory8_mapped_cpu s dst byte) (fun s1 h1 => ?_)
    intro s2 h2
    have := ih s1 _ _ s2 h2
    exact ⟨this.1.trans h1.1, this.2.trans h1.2⟩

theorem write_io8_cpu (s : Machine) (a v : Nat) :
    ensures (write_io8 s a v) (fun s' => s'.cpu = s.cpu ∧ s'.ime = s.ime) := by
  unfold write_io8
  simp only []
  refine ensures_ite _ _ _ _ (fun _ => ensures_error _ _) (fun _ => ?_)
  refine ensures_ite _ _ _ _ (fun _ => ?_) (fun _ => ensures_ok _ _ ⟨rfl, rfl⟩)
  exact dma_copy_cpu _ _ _ _

/-- A bus write changes no CPU register and not the interrupt master enable. -/
theorem write_memory8_cpu (s : Machine) (a v : Nat) :
    ensures (write_memory8 s a v) (fun s' => s'.cpu = s.cpu ∧ s'.ime = s.ime) := by
  unfold write_memory8
  exact ensures_ite _ _ _ _ (fun _ => write_io8_cpu s a v) (fun _ => write_memory8_mapped_cpu s a v)

/-! ## The low nibble of F under the arithmetic functions -/

theorem rr_zero (f : Flags) (v : Nat) : (rr f v).2.zero = f.zero := rfl
theorem rl_zero (f : Flags) (v : Nat) : (rl f v).2.zero = f.zero := rfl
theorem rrc_zero (f : Flags) (v : Nat) : (rrc f v).2.zero = f.zero := rfl
theorem rlc_zero (f : Flags) (v : Nat) : (rlc f v).2.zero = f.zero := rfl
theorem and8_zero (f : Flags) (a b : Nat) : (and8 f a b).2.zero = f.zero := rfl
theorem or8_zero (f : Flags) (a b : Nat) : (or8 f a b).2.zero = f.zero := rfl
theorem xor8_zero (f : Flags) (a b : Nat) : (xor8 f a b).2.zero = f.zero := rfl
theorem add16_zero (f : Flags) (a b : Nat) : (add16 f a b).2.zero = f.zero := rfl

theorem add8_zero (f : Flags) (a b : Nat) (c : Bool) : (add8 f a b c).2.zero = f.zero := by
  cases c <;> rfl

theorem sub8_zero (f : Flags) (a b : Nat) (c : Bool) : (sub8 f a b c).2.zero = f.zero := by
  cases c <;> rfl

theorem ite_zero (c : Prop) [Decidable c] (x y : Nat × Flags) (z : Nat)
    (hx : x.2.zero = z) (hy : y.2.zero = z) : (if c then x else y).2.zero = z := by
  by_cases h : c
  · rw [if_pos h]; exact hx
  · rw [if_neg h]; exact hy

theorem cb_operation_zero (f : Flags) (op v : Nat) : (cb_operation f op v).2.zero = f.zero := by
  unfold cb_operation
  simp only []
  repeat (first | refine ite_zero _ _ _ _ ?_ ?_ | rfl)

theorem daa_zero (f : Flags) (a : Nat) : (daa f a).2.zero = f.zero := by
  unfold daa
  show (if f.n = true then _ else _ : Nat × Flags).2.zero = f.zero
  repeat (first | refine ite_zero _ _ _ _ ?_ ?_ | rfl)

theorem toByte_mod_16 (f : Flags) : f.toByte % 16 = f.zero % 16 := by
  unfold Flags.toByte
  omega

/-! ## PC and F under the register and stack helpers -/

theorem write_x8_keeps (s : Machine) (i v : Nat) :
    ensures (write_x8 s i v) (fun s' => s'.cpu.pc = s.cpu.pc ∧ s'.cpu.f = s.cpu.f) := by
  unfold write_x8
  refine ensures_ite _ _ _ _ (fun _ => ?_) (fun _ => ?_)
  · intro s' h
    have := write_memory8_cpu s _ _ s' h
    rw [this.1]; exact ⟨rfl, rfl⟩
  · intro s' h
    split at h <;> cases h <;> exact ⟨rfl, rfl⟩

theorem write_x16_keeps (s : Machine) (i v : Nat) :
    ensures (write_x16 s i v) (fun s' => s'.cpu.pc = s.cpu.pc ∧ s'.cpu.f = s.cpu.f) := by
  intro s' h
  unfold write_x16 at h
  split at h <;> cases h <;> exact ⟨rfl, rfl⟩

theorem write_memory16_cpu (s : Machine) (a w : Nat) :
    ensures (write_memory16 s a w) (fun s' => s'.cpu = s.cpu ∧ s'.ime = s.ime) := by
  unfold write_memory16
  refine ensures_bind _ _ _ _ (write_memory8_cpu s _ _) (fun s1 h1 => ?_)
  intro s2 h2
  have := write_memory8_cpu s1 _ _ s2 h2
  exact ⟨this.1.trans h1.1, this.2.trans h1.2⟩

theorem push16_keeps (s : Machine) (v : Nat) :
    ensures (push16 s v) (fun s' => s'.cpu.pc = s.cpu.pc ∧ s'.cpu.f = s.cpu.f) := by
  intro s' h
  unfold push16 at h
  have := write_memory16_cpu _ _ _ s' h
  rw [this.1]; exact ⟨rfl, rfl⟩

theorem pop16_keeps (s : Machine) :
    ensures (pop16 s) (fun r => r.2.cpu.pc = s.cpu.pc ∧ r.2.cpu.f = s.cpu.f) := by
  unfold pop16
  refine ensures_bind_any _ _ _ (fun v => ?_)
  exact ensures_ok _ _ ⟨rfl, rfl⟩

theorem call_keeps (s : Machine) (a : Nat) :
    ensures (call s a) (fun s' => s'.cpu.f = s.cpu.f) := by
  unfold call
  refine ensures_bind _ _ _ _ (push16_keeps s _) (fun s1 h1 => ?_)
  exact ensures_ok _ _ h1.2

/-! ## PC and the low nibble of F under the instruction emulators -/

/-- An emulator without an assignment to `cpu.pc` returns with the PC it was given. -/
theorem emulate_keeps_pc (h : Handler) (hj : h.assigns_pc = false) (code : Code) (s : Machine) :
    ensures (h.emulate code s) (fun r => r.2.cpu.pc = s.cpu.pc) := by
  cases h <;> first | (exact absurd hj (by decide)) | skip
  all_goals simp only [Handler.emulate]
  all_goals simp only [emulate_nop, emulate_halt, emulate_stop_0, emulate_ld, emulate_ld_a16, emulate_ld_x16_d16,
    emulate_ldd, emulate_ldi, emulate_dec_x16, emulate_inc_x16, emulate_dec_x8, emulate_inc_x8,
    emulate_ld_mem_02, emulate_ld_mem_12, emulate_ld_mem_0a, emulate_ld_mem_1a, emulate_ldi_2a, emulate_ldd_3a,
    emulate_jr_cc_r8, emulate_jr_r8, emulate_jp_a16, emulate_jp_hl, emulate_jp_cc, emulate_sub,
    emulate_sbc, emulate_add, emulate_adc, emulate_adc_d8, emulate_sbc_d8, emulate_rst,
    emulate_xor, emulate_and, emulate_or, emulate_e0_ldh, emulate_f0_ldh, emulate_cp_d8,
    emulate_cp_x8, emulate_and_d8, emulate_or_d8, emulate_add_d8, emulate_sub_d8, emulate_xor_d8,
    emulate_add_sp, emulate_add_hl, emulate_ld_f8, emulate_cb_prefix, emulate_call, emulate_call_cc_a16,
    emulate_push_x16, emulate_push_af, emulate_ret, emulate_ret_cc, emulate_reti, emulate_pop_x16,
    emulate_pop_af, emulate_ld_x8_d8, emulate_ld_ea, emulate_ld_e2, emulate_ld_f2, emulate_ld_fa,
    emulate_ld_f9, emulate_ei, emulate_di, emulate_undefined, emulate_rra, emulate_rrca,
    emulate_rla, emulate_rlca, emulate_cpl, emulate_scf, emulate_ccf, emulate_daa]
  all_goals
    repeat (first
      | with_reducible refine ensures_bind _ _ _ _ (write_x8_keeps _ _ _) (fun _ hq => ?_)
      | with_reducible refine ensures_bind _ _ _ _ (write_x16_keeps _ _ _) (fun _ hq => ?_)
      | with_reducible refine ensures_bind _ _ _ _ (write_memory8_cpu _ _ _) (fun _ hq => ?_)
      | with_reducible refine ensures_bind _ _ _ _ (write_memory16_cpu _ _ _) (fun _ hq => ?_)
      | with_reducible refine ensures_bind _ _ _ _ (push16_keeps _ _) (fun _ hq => ?_)
      | with_reducible refine ensures_bind _ _ _ _ (pop16_keeps _) (fun x hq => ?_)
      | with_reducible refine ensures_bind _ _ _ _ (call_keeps _ _) (fun x hq => ?_)
      | with_reducible refine ensures_bind_any _ _ _ (fun _ => ?_)
      | with_reducible refine ensures_ite _ _ _ _ (fun _ => ?_) (fun _ => ?_)
      | exact ensures_ok _ _ (by
          simp_all [Machine.set_f, Machine.set_a, Machine.set_a_f, Machine.set_sp, Machine.set_pc,
            Registers.set_hl, Registers.set_af, rr_zero, rl_zero, rrc_zero, rlc_zero, and8_zero,
            or8_zero, xor8_zero, add16_zero, add8_zero, sub8_zero, cb_operation_zero, daa_zero]))

/-- Every emulator other than that of POP AF returns with the low nibble of F it was given. -/
theorem emulate_keeps_low_nibble (h : Handler) (hne : h ≠ Handler.pop_af) (code : Code)
    (s : Machine) : ensures (h.emulate code s) (fun r => r.2.cpu.f.zero = s.cpu.f.zero) := by
  cases h <;> first | (exact absurd rfl hne) | skip
  all_goals simp only [Handler.emulate]
  all_goals simp only [emulate_nop, emulate_halt, emulate_stop_0, emulate_ld, emulate_ld_a16, emulate_ld_x16_d16,
    emulate_ldd, emulate_ldi, emulate_dec_x16, emulate_inc_x16, emulate_dec_x8, emulate_inc_x8,
    emulate_ld_mem_02, emulate_ld_mem_12, emulate_ld_mem_0a, emulate_ld_mem_1a, emulate_ldi_2a, emulate_ldd_3a,
    emulate_jr_cc_r8, emulate_jr_r8, emulate_jp_a16, emulate_jp_hl, emulate_jp_cc, emulate_sub,
    emulate_sbc, emulate_add, emulate_adc, emulate_adc_d8, emulate_sbc_d8, emulate_rst,
    emulate_xor, emulate_and, emulate_or, emulate_e0_ldh, emulate_f0_ldh, emulate_cp_d8,
    emulate_cp_x8, emulate_and_d8, emulate_or_d8, emulate_add_d8, emulate_sub_d8, emulate_xor_d8,
    emulate_add_sp, emulate_add_hl, emulate_ld_f8, emulate_cb_prefix, emulate_call, emulate_call_cc_a16,
    emulate_push_x16, emulate_push_af, emulate_ret, emulate_ret_cc, emulate_reti, emulate_pop_x16,
    emulate_pop_af, emulate_ld_x8_d8, emulate_ld_ea, emulate_ld_e2, emulate_ld_f2, emulate_ld_fa,
    emulate_ld_f9, emulate_ei, emulate_di, emulate_undefined, emulate_rra, emulate_rrca,
    emulate_rla, emulate_rlca, emulate_cpl, emulate_scf, emulate_ccf, emulate_daa]
  all_goals
    repeat (first
      | with_reducible refine ensures_bind _ _ _ _ (write_x8_keeps _ _ _) (fun _ hq => ?_)
      | with_reducible refine ensures_bind _ _ _ _ (write_x16_keeps _ _ _) (fun _ hq => ?_)
      | with_reducible refine ensures_bind _ _ _ _ (write_memory8_cpu _ _ _) (fun _ hq => ?_)
      | with_reducible refine ensures_bind _ _ _ _ (write_memory16_cpu _ _ _) (fun _ hq => ?_)
      | with_reducible refine ensures_bind _ _ _ _ (push16_keeps _ _) (fun _ hq => ?_)
      | with_reducible refine ensures_bind _ _ _ _ (pop16_keeps _) (fun x hq => ?_)
      | with_reducible refine ensures_bind _ _ _ _ (call_keeps _ _) (fun x hq => ?_)
      | with_reducible refine ensures_bind_any _ _ _ (fun _ => ?_)
      | with_reducible refine ensures_ite _ _ _ _ (fun _ => ?_) (fun _ => ?_)
      | exact ensures_ok _ _ (by
          simp_all [Machine.set_f, Machine.set_a, Machine.set_a_f, Machine.set_sp, Machine.set_pc,
            Registers.set_hl, Registers.set_af, rr_zero, rl_zero, rrc_zero, rlc_zero, and8_zero,
            or8_zero, xor8_zero, add16_zero, add8_zero, sub8_zero, cb_operation_zero, daa_zero]))

/-! ## C11: the low nibble of F -/

/-- C11. Each of `add8`, `sub8`, `and8`, `or8`, `xor8`, `add16`, `rlc`, `rrc`, `rl`, `rr`,
the operation of the CB group and the DAA adjustment returns flags whose bits 3..0 are
those of the flags it was given; the emulators of DAA, CPL, SCF and CCF return a state
whose F has the bits 3..0 it had before; and every emulator other than that of POP AF
(so every ALU instruction), when it returns, returns with bits 3..0 of F zero if they
were zero before. -/
theorem alu_keeps_low_nibble (f : Flags) (a b : Nat) (c : Bool) (code : Code) (s : Machine) :
    ((add8 f a b c).2.toByte % 16 = f.toByte % 16 ∧
     (sub8 f a b c).2.toByte % 16 = f.toByte % 16 ∧
     (and8 f a b).2.toByte % 16 = f.toByte % 16 ∧
     (or8 f a b).2.toByte % 16 = f.toByte % 16 ∧
     (xor8 f a b).2.toByte % 16 = f.toByte % 16 ∧
     (add16 f a b).2.toByte % 16 = f.toByte % 16) ∧
    ((rlc f a).2.toByte % 16 = f.toByte % 16 ∧
     (rrc f a).2.toByte % 16 = f.toByte % 16 ∧
     (rl f a).2.toByte % 16 = f.toByte % 16 ∧
     (rr f a).2.toByte % 16 = f.toByte % 16 ∧
     (cb_operation f a b).2.toByte % 16 = f.toByte % 16 ∧
     (daa f a).2.toByte % 16 = f.toByte % 16) ∧
    ((∃ r, emulate_daa code s = .ok r ∧ r.2.cpu.f.toByte % 16 = s.cpu.f.toByte % 16) ∧
     (∃ r, emulate_cpl code s = .ok r ∧ r.2.cpu.f.toByte % 16 = s.cpu.f.toByte % 16) ∧
     (∃ r, emulate_scf code s = .ok r ∧ r.2.cpu.f.toByte % 16 = s.cpu.f.toByte % 16) ∧
     (∃ r, emulate_ccf code s = .ok r ∧ r.2.cpu.f.toByte % 16 = s.cpu.f.toByte % 16)) ∧
    (∀ (h : Handler) (r : Nat × Machine), h ≠ Handler.pop_af → h.emulate code s = .ok r →
      s.cpu.f.toByte % 16 = 0 → r.2.cpu.f.toByte % 16 = 0) := by
  simp only [toByte_mod_16]
  refine ⟨⟨?_, ?_, ?_, ?_, ?_, ?_⟩, ⟨?_, ?_, ?_, ?_, ?_, ?_⟩, ⟨⟨_, rfl, ?_⟩, ⟨_, rfl, ?_⟩,
    ⟨_, rfl, ?_⟩, ⟨_, rfl, ?_⟩⟩, ?_⟩
  · rw [add8_zero]
  · rw [sub8_zero]
  · rw [and8_zero]
  · rw [or8_zero]
  · rw [xor8_zero]
  · rw [add16_zero]
  · rw [rlc_zero]
  · rw [rrc_zero]
  · rw [rl_zero]
  · rw [rr_zero]
  · rw [cb_operation_zero]
  · rw [daa_zero]
  · exact congrArg (· % 16) (daa_zero s.cpu.f s.cpu.a)
  · rfl
  · rfl
  · rfl
  · intro h r hne hr h0
    rw [emulate_keeps_low_nibble h hne code s r hr]
    exact h0

theorem alu_keeps_low_nibble_witness :
    Handler.add ≠ Handler.pop_af ∧
    Handler.add.emulate (upd (fun _ => 0) 0 0x87) Machine.blank = .ok (4, Machine.blank.set_a_f
      (add8 Machine.blank.cpu.f (Machine.blank.cpu.a % 256) (Machine.blank.cpu.a % 256) true)) ∧
    Machine.blank.cpu.f.toByte % 16 = 0 ∧
    (Machine.blank.set_a_f (add8 Machine.blank.cpu.f (Machine.blank.cpu.a % 256)
      (Machine.blank.cpu.a % 256) true)).cpu.f.toByte % 16 = 0 :=
  ⟨by decide, rfl, by decide,
   (alu_keeps_low_nibble flags0 0 0 false (upd (fun _ => 0) 0 0x87) Machine.blank).2.2.2
      Handler.add (4, _) (by decide) rfl (by decide)⟩

/-- ADD A,A on a machine whose F holds 5 in its low nibble: the nibble is still 5 and the
other flags are those of 0x3C + 0x3C = 0x78 (half carry). -/
theorem low_nibble_5_after_add :
    (Handler.add.emulate (upd (fun _ => 0) 0 0x87) Machine.low_nibble_5).map
      (fun r => (r.1, r.2.cpu.a, r.2.cpu.f.toByte)) = .ok (4, 0x78, 0x25) := by
  decide

/-! ## C12: PC after an instruction that does not assign it -/

theorem read_code_congr (s t : Machine) (hpc : t.cpu.pc = s.cpu.pc)
    (h : ∀ a, read_memory8 t a = read_memory8 s a) (n : Nat) :
    ∀ (i : Nat) (code : Code), read_code t n i code = read_code s n i code := by
  induction n with
  | zero => intro i code; rfl
  | succ n ih =>
    intro i code
    simp only [read_code, hpc, h, ih]

/-- C12. Let no interrupt be pending (IME clear, or no bit of IE & IF & 0x1F set), let
the byte at PC decode to a handler whose emulator holds no assignment to `cpu.pc`
(every handler other than those of JP, JR, CALL, RET, RETI, RST and the undefined
opcodes). Then one iteration of the loop of `cpu_step`, when it completes, leaves
PC = (old PC + handler length) mod 2^16. -/
theorem pc_advances_by_length (s : Machine) (opcode : Nat) (h : Handler)
    (hint : s.ime = true → ((s.ie % 256) &&& (s.io_ports 0x0F % 256)) &&& 0x1F = 0)
    (hop : read_memory8 s s.cpu.pc = .ok opcode) (hdec : cpu_decode opcode = .ok h)
    (hj : h.assigns_pc = false) :
    ∀ r, cpu_step_once s = .ok r → r.2.cpu.pc = (s.cpu.pc + h.length) % 65536 := by
  obtain ⟨s0, hstep, hcpu, -, hram, hio, hin, hrom, hsz⟩ := cpu_step_once_no_interrupt s hint
  have hrd : ∀ a, read_memory8 s0 a = read_memory8 s a :=
    read_memory8_congr s s0 hram hio hin hrom hsz
  have hpc : s0.cpu.pc = s.cpu.pc := by rw [hcpu]
  intro r hr
  rw [hstep] at hr
  unfold cpu_fetch_execute at hr
  rw [hpc, hrd, hop, ok_bind, hdec, ok_bind] at hr
  cases hc : read_code s0 (h.length - 1) 1 (upd (fun _ => 0) 0 opcode) with
  | error e => rw [hc] at hr; cases hr
  | ok code =>
    rw [hc, ok_bind] at hr
    exact emulate_keeps_pc h hj code _ r hr

theorem pc_advances_by_length_witness :
    ((Machine.ld_at_0xFFFE.ime = true →
        ((Machine.ld_at_0xFFFE.ie % 256) &&& (Machine.ld_at_0xFFFE.io_ports 0x0F % 256)) &&& 0x1F = 0) ∧
      read_memory8 Machine.ld_at_0xFFFE Machine.ld_at_0xFFFE.cpu.pc = .ok 0x01 ∧
      cpu_decode 0x01 = .ok Handler.ld_x16_d16 ∧ Handler.ld_x16_d16.assigns_pc = false) ∧
    (∀ r, cpu_step_once Machine.ld_at_0xFFFE = .ok r →
      r.2.cpu.pc = (Machine.ld_at_0xFFFE.cpu.pc + Handler.ld_x16_d16.length) % 65536) :=
  ⟨⟨by decide, by decide, by decide, rfl⟩,
   pc_advances_by_length Machine.ld_at_0xFFFE 0x01 Handler.ld_x16_d16 (by decide) (by decide)
     (by decide) rfl⟩

/-- The step of `Machine.ld_at_0xFFFE` completes: 12 cycles, PC wrapped to 0x0001 and
BC loaded with the operand bytes read at 0xFFFF and 0x0000. -/
theorem ld_at_0xFFFE_step :
    (cpu_step_once Machine.ld_at_0xFFFE).map (fun r => (r.1, r.2.cpu.pc, r.2.cpu.bc))
      = .ok (12, 0x0001, 0x1234) := by
  decide!

/-! ## C13: the undefined opcodes -/

/-- The opcodes that `cpu_decode` sends to `handle_undefined`. -/
theorem cpu_decode_undefined :
    ∀ opcode < 256, cpu_decode opcode = .ok Handler.undefined ↔
      opcode ∈ [0xD3, 0xDB, 0xDD, 0xE3, 0xE4, 0xEB, 0xEC, 0xED, 0xF4, 0xFC, 0xFD] := by
  decide!

theorem upd_self (f : Nat → Nat) (i : Nat) : upd f i (f i) = f := by
  funext j
  unfold upd
  by_cases h : j = i
  · rw [if_pos h, h]
  · rw [if_neg h]

/-- Fetching an undefined opcode: zero cycles, and the state with PC on the opcode byte. -/
theorem cpu_fetch_execute_undefined (s : Machine) (opcode : Nat)
    (hop : read_memory8 s s.cpu.pc = .ok opcode) (hdec : cpu_decode opcode = .ok Handler.undefined)
    (hpc : s.cpu.pc < 65536) : cpu_fetch_execute s = .ok (0, s) := by
  unfold cpu_fetch_execute
  rw [hop, ok_bind, hdec, ok_bind]
  simp only [Handler.length, Nat.sub_self, read_code, ok_bind, Handler.emulate, emulate_undefined,
    Machine.set_pc]
  have e : ((s.cpu.pc + 1) % 65536 % 65536 + 65536 - 1) % 65536 = s.cpu.pc := by omega
  rw [e]

/-- C13 (amended). Let the byte at PC be one of 0xD3, 0xDB, 0xDD, 0xE3, 0xE4, 0xEB, 0xEC,
0xED, 0xF4, 0xFC, 0xFD and let no interrupt be pending (IME clear, or no bit of
IE & IF & 0x1F set). Then one iteration of the loop of `cpu_step` returns 0 cycles and the
state it started from with only the low nibble of F cleared: PC is still the address of
the opcode byte and every other register, flag and memory byte is unchanged. No other
byte is decoded to the undefined handler. -/
theorem undefined_opcode_step (s : Machine) (opcode : Nat)
    (hmem : opcode ∈ [0xD3, 0xDB, 0xDD, 0xE3, 0xE4, 0xEB, 0xEC, 0xED, 0xF4, 0xFC, 0xFD])
    (hop : read_memory8 s s.cpu.pc = .ok opcode)
    (hint : s.ime = true → ((s.ie % 256) &&& (s.io_ports 0x0F % 256)) &&& 0x1F = 0)
    (hpc : s.cpu.pc < 65536) (hio : s.io_ports 0x0F < 256) :
    cpu_step_once s = .ok (0, { s with cpu := { s.cpu with f := { s.cpu.f with zero := 0 } } }) ∧
    (∀ op < 256, cpu_decode op = .ok Handler.undefined ↔
      op ∈ [0xD3, 0xDB, 0xDD, 0xE3, 0xE4, 0xEB, 0xEC, 0xED, 0xF4, 0xFC, 0xFD]) := by
  refine ⟨?_, cpu_decode_undefined⟩
  have hlt : opcode < 256 := read_memory8_lt s _ _ hop
  have hdec : cpu_decode opcode = .ok Handler.undefined := (cpu_decode_undefined opcode hlt).2 hmem
  have hfe : cpu_fetch_execute (s.set_f { s.cpu.f with zero := 0 })
      = .ok (0, s.set_f { s.cpu.f with zero := 0 }) :=
    cpu_fetch_execute_undefined _ opcode ((read_memory8_cpu s _ _).trans hop) hdec hpc
  by_cases hime : s.ime = true
  · have hsame : ({ s.set_f { s.cpu.f with zero := 0 } with
          io_ports := upd (s.set_f { s.cpu.f with zero := 0 }).io_ports 0x0F
            ((s.set_f { s.cpu.f with zero := 0 }).io_ports 0x0F % 256) } : Machine)
        = s.set_f { s.cpu.f with zero := 0 } := by
      have e : (s.set_f { s.cpu.f with zero := 0 }).io_ports 0x0F % 256
          = (s.set_f { s.cpu.f with zero := 0 }).io_ports 0x0F := Nat.mod_eq_of_lt hio
      rw [e, upd_self]
    simp only [cpu_step_once]
    rw [if_pos (show (s.set_f { s.cpu.f with zero := 0 }).ime = true from hime),
      cpu_interrupts_none (s.set_f { s.cpu.f with zero := 0 }) (hint hime), ok_bind, hsame, hfe]
    rfl
  · simp only [cpu_step_once]
    rw [if_neg (show ¬ (s.set_f { s.cpu.f with zero := 0 }).ime = true from hime), pure_bind, hfe]
    rfl

theorem undefined_opcode_step_witness :
    (0xD3 ∈ [0xD3, 0xDB, 0xDD, 0xE3, 0xE4, 0xEB, 0xEC, 0xED, 0xF4, 0xFC, 0xFD] ∧
      read_memory8 Machine.undefined_at_pc Machine.undefined_at_pc.cpu.pc = .ok 0xD3 ∧
      (Machine.undefined_at_pc.ime = true →
        ((Machine.undefined_at_pc.ie % 256) &&& (Machine.undefined_at_pc.io_ports 0x0F % 256))
          &&& 0x1F = 0) ∧
      Machine.undefined_at_pc.cpu.pc < 65536 ∧ Machine.undefined_at_pc.io_ports 0x0F < 256) ∧
    (cpu_step_once Machine.undefined_at_pc = .ok (0, { Machine.undefined_at_pc with
        cpu := { Machine.undefined_at_pc.cpu with
          f := { Machine.undefined_at_pc.cpu.f with zero := 0 } } }) ∧
     (∀ op < 256, cpu_decode op = .ok Handler.undefined ↔
        op ∈ [0xD3, 0xDB, 0xDD, 0xE3, 0xE4, 0xEB, 0xEC, 0xED, 0xF4, 0xFC, 0xFD])) :=
  ⟨⟨by decide, by decide, fun _ => by decide, by decide, by decide⟩,
   undefined_opcode_step Machine.undefined_at_pc 0xD3 (by decide) (by decide) (fun _ => by decide)
     (by decide) (by decide)⟩

/-- C13 (counterexample). On a machine with IME set, VBlank pending, SP = 0xFFFE and
the undefined opcode 0xD3 at the vector 0x0040, one iteration of the loop of `cpu_step`
dispatches the interrupt and then executes 0xD3: it returns 0 cycles with PC = 0x0040,
the address of the opcode byte, but SP is 0xFFFC, IME is clear, IF is 0 and the bytes at
0xFFFC and 0xFFFD hold the old PC 0x0100. -/
theorem undefined_opcode_after_dispatch :
    read_memory8 Machine.undefined_at_vector 0x0040 = .ok 0xD3 ∧
    Machine.undefined_at_vector.cpu.sp = 0xFFFE ∧
    Machine.undefined_at_vector.ime = true ∧
    read_memory8 Machine.undefined_at_vector 0xFFFD = .ok 0x00 ∧
    read_memory8 Machine.undefined_at_vector 0xFF0F = .ok 0x01 ∧
    (cpu_step_once Machine.undefined_at_vector).map
      (fun r => (r.1, r.2.cpu.pc, r.2.cpu.sp, r.2.ime)) = .ok (0, 0x0040, 0xFFFC, false) ∧
    (cpu_step_once Machine.undefined_at_vector).bind (fun r => read_memory8 r.2 0xFFFD)
      = .ok 0x01 ∧
    (cpu_step_once Machine.undefined_at_vector).bind (fun r => read_memory8 r.2 0xFF0F)
      = .ok 0x00 := by
  decide!

/-! ## C14: the DMA transfer -/

/-- The only addresses that `map_memory` sends to OAM are 0xFE00-0xFE9F. -/
theorem map_memory_oam (s : Machine) (a : Nat) :
    ensures (map_memory s a) (fun c => ∀ i, c = .oam i →
      (0xFE00 ≤ a % 65536 ∧ a % 65536 ≤ 0xFE9F) ∧ i = a % 65536 - 0xFE00) := by
  unfold map_memory
  simp only []
  refine ensures_ite _ _ _ _ (fun _ => ensures_ok _ _ (fun i hi => by cases hi)) (fun _ => ?_)
  refine ensures_ite _ _ _ _ (fun _ => ensures_ok _ _ (fun i hi => by cases hi)) (fun _ => ?_)
  refine ensures_ite _ _ _ _ (fun _ => ensures_ok _ _ (fun i hi => by cases hi)) (fun _ => ?_)
  refine ensures_ite _ _ _ _ (fun _ => ensures_ok _ _ (fun i hi => by cases hi)) (fun _ => ?_)
  refine ensures_ite _ _ _ _ (fun _ => ensures_ok _ _ (fun i hi => by cases hi)) (fun _ => ?_)
  refine ensures_ite _ _ _ _ (fun _ => ensures_ok _ _ (fun i hi => by cases hi)) (fun _ => ?_)
  refine ensures_ite _ _ _ _ (fun _ => ensures_ok _ _ (fun i hi => by cases hi)) (fun _ => ?_)
  refine ensures_ite _ _ _ _
    (fun hc => ensures_ok _ _ (fun i hi => ⟨hc, (Cell.oam.inj hi).symm⟩))
    (fun _ => ?_)
  refine ensures_ite _ _ _ _ (fun _ => ensures_error _ _) (fun _ => ?_)
  refine ensures_ite _ _ _ _ (fun _ => ensures_error _ _) (fun _ => ?_)
  refine ensures_ite _ _ _ _ (fun _ => ensures_ok _ _ (fun i hi => by cases hi)) (fun _ => ?_)
  refine ensures_ite _ _ _ _ (fun _ => ensures_ok _ _ (fun i hi => by cases hi)) (fun _ => ?_)
  exact ensures_error _ _

/-- A read below 0xFEA0 does not see the I/O ports, and sees of OAM only the byte read. -/
theorem read_memory8_with_oam (s : Machine) (p o : Nat → Nat) (a : Nat) (ha : a < 0xFEA0)
    (ho : 0xFE00 ≤ a → o (a - 0xFE00) = s.oam_memory (a - 0xFE00)) :
    read_memory8 { s with io_ports := p, oam_memory := o } a = read_memory8 s a := by
  have ha' : a % 65536 = a := Nat.mod_eq_of_lt (by omega)
  have n1 : ¬ (0xFEA0 ≤ a ∧ a ≤ 0xFEFF) := by omega
  have n2 : ¬ (0xFF00 ≤ a ∧ a ≤ 0xFF7F) := by omega
  have hm : map_memory { s with io_ports := p, oam_memory := o } a = map_memory s a :=
    map_memory_congr s _ a rfl rfl rfl
  simp only [read_memory8, ha']
  rw [if_neg n1, if_neg n2, if_neg n1, if_neg n2, hm]
  cases hc : map_memory s a with
  | error e => rfl
  | ok c =>
    rw [bind_ok, bind_ok]
    cases c with
    | oam i =>
      obtain ⟨hr, hi⟩ := map_memory_oam s a _ hc i rfl
      rw [ha'] at hr hi
      simp only [Machine.load]
      rw [hi, ho hr.1]
    | _ => rfl

theorem map_memory_oam_at (t : Machine) (k : Nat) (hk : k < 0xA0) :
    map_memory t (0xFE00 + k) = .ok (.oam k) := by
  have ha' : (0xFE00 + k) % 65536 = 0xFE00 + k := Nat.mod_eq_of_lt (by omega)
  have m1 : ¬ 0xFE00 + k ≤ 0x3FFF := by omega
  have m2 : ¬ (0x4000 ≤ 0xFE00 + k ∧ 0xFE00 + k ≤ 0x7FFF) := by omega
  have m3 : ¬ (0x8000 ≤ 0xFE00 + k ∧ 0xFE00 + k ≤ 0x9FFF) := by omega
  have m4 : ¬ (0xA000 ≤ 0xFE00 + k ∧ 0xFE00 + k ≤ 0xBFFF) := by omega
  have m5 : ¬ (0xC000 ≤ 0xFE00 + k ∧ 0xFE00 + k ≤ 0xCFFF) := by omega
  have m6 : ¬ (0xD000 ≤ 0xFE00 + k ∧ 0xFE00 + k ≤ 0xDFFF) := by omega
  have m7 : ¬ (0xE000 ≤ 0xFE00 + k ∧ 0xFE00 + k ≤ 0xFDFF) := by omega
  have m8 : 0xFE00 ≤ 0xFE00 + k ∧ 0xFE00 + k ≤ 0xFE9F := by omega
  simp only [map_memory, ha']
  rw [if_neg m1, if_neg m2, if_neg m3, if_neg m4, if_neg m5, if_neg m6, if_neg m7, if_pos m8,
    Nat.add_sub_cancel_left]

/-- A read of an OAM address returns the OAM byte. -/
theorem read_memory8_oam (t : Machine) (k : Nat) (hk : k < 0xA0) :
    read_memory8 t (0xFE00 + k) = .ok (t.oam_memory k % 256) := by
  rw [read_memory8_ram t _ (by unfold is_ram; omega), map_memory_oam_at t k hk, bind_ok]
  simp only [Machine.load]
  rw [if_pos hk]

/-- One iteration of the DMA loop writes OAM byte `k`. -/
theorem dma_write_step (s : Machine) (v : Nat) (b : Nat → Nat) (k : Nat) (hk : k < 0xA0)
    (hb : b k < 256) :
    write_memory8_mapped (s.dma_after v b k) (0xFE00 + k) (b k) = .ok (s.dma_after v b (k + 1)) := by
  have ha' : (0xFE00 + k) % 65536 = 0xFE00 + k := Nat.mod_eq_of_lt (by omega)
  have hb' : b k % 256 = b k := Nat.mod_eq_of_lt hb
  have n1 : ¬ 0xFE00 + k ≤ 0x1FFF := by omega
  have n2 : ¬ (0x2000 ≤ 0xFE00 + k ∧ 0xFE00 + k ≤ 0x3FFF) := by omega
  have n3 : ¬ (0x4000 ≤ 0xFE00 + k ∧ 0xFE00 + k ≤ 0x5FFF) := by omega
  have n4 : ¬ (0x6000 ≤ 0xFE00 + k ∧ 0xFE00 + k ≤ 0x7FFF) := by omega
  have n5 : ¬ (0xFEA0 ≤ 0xFE00 + k ∧ 0xFE00 + k ≤ 0xFEFF) := by omega
  have hmap := map_memory_oam_at (s.dma_after v b k) k hk
  have hfun : upd (fun j => if j < k then b j else s.oam_memory j) k (b k)
      = fun j => if j < k + 1 then b j else s.oam_memory j := by
    funext j
    unfold upd
    by_cases hj : j = k
    · rw [if_pos hj, if_pos (by omega), hj]
    · rw [if_neg hj]
      show (if j < k then b j else s.oam_memory j) = _
      by_cases hlt : j < k
      · rw [if_pos hlt, if_pos (by omega)]
      · rw [if_neg hlt, if_neg (by omega)]
  simp only [write_memory8_mapped, ha', hb']
  rw [if_neg n1, if_neg n2, if_neg n3, if_neg n4, if_neg n5, hmap, bind_ok]
  simp only [Machine.store]
  rw [if_pos hk]
  simp only [Machine.dma_after, hfun]

/-- The DMA loop from iteration `k` on, when every source byte is read in the state
before the transfer as `b i`. -/
theorem dma_copy_run (s : Machine) (v : Nat) (b : Nat → Nat) (hv : v ≤ 0xFE)
    (hrd : ∀ i < 0xA0, read_memory8 s (v * 0x100 + i) = .ok (b i)) (n : Nat) :
    ∀ k, n + k = 0xA0 →
      dma_copy n (s.dma_after v b k) (v * 0x100 + k) (0xFE00 + k) = .ok (s.dma_after v b 0xA0) := by
  induction n with
  | zero =>
    intro k hk
    rw [show k = 0xA0 by omega]
    rfl
  | succ n ih =>
    intro k hk
    have hk' : k < 0xA0 := by omega
    have hread : read_memory8 (s.dma_after v b k) (v * 0x100 + k) = .ok (b k) := by
      rw [← hrd k hk']
      refine read_memory8_with_oam s _ _ _ (by omega) (fun h => ?_)
      have e : v * 0x100 + k - 0xFE00 = k := by omega
      rw [e, if_neg (by omega)]
    have e1 : (v * 0x100 + k + 1) % 65536 = v * 0x100 + (k + 1) := by omega
    have e2 : (0xFE00 + k + 1) % 65536 = 0xFE00 + (k + 1) := by omega
    unfold dma_copy
    rw [hread, ok_bind, dma_write_step s v b k hk' (read_memory8_lt _ _ _ (hrd k hk')), ok_bind,
      e1, e2]
    exact ih (k + 1) (by omega)

theorem dma_after_zero (s : Machine) (v : Nat) (b : Nat → Nat) :
    s.dma_after v b 0 = { s with io_ports := upd s.io_ports 0x46 v } := by
  have e : (fun j => if j < 0 then b j else s.oam_memory j) = s.oam_memory := by
    funext j
    rw [if_neg (by omega)]
  simp only [Machine.dma_after, e]

/-- C14 (amended). Let `v` be a byte other than 0xFF and let every read of
`v * 0x100 + i`, `i` in 0..0x9F, return a byte `b i` in the state before the write. Then
`write_memory8(0xFF46, v)` completes; the DMA register then reads `v`, OAM byte
0xFE00 + i reads `b i` for every `i` in 0..0x9F, and nothing else changes: the new state
is the old one with a new `io_ports[0x46]` and a new OAM, and the OAM array is
unchanged from index 0xA0 on. -/
theorem dma_transfer (s : Machine) (v : Nat) (b : Nat → Nat) (hv : v ≤ 0xFE)
    (hrd : ∀ i < 0xA0, read_memory8 s (v * 0x100 + i) = .ok (b i)) :
    ∃ s', write_memory8 s 0xFF46 v = .ok s' ∧
      s' = { s with io_ports := upd s.io_ports 0x46 v, oam_memory := s'.oam_memory } ∧
      read_memory8 s' 0xFF46 = .ok v ∧
      (∀ i < 0xA0, read_memory8 s' (0xFE00 + i) = .ok (b i)) ∧
      (∀ i, 0xA0 ≤ i → s'.oam_memory i = s.oam_memory i) := by
  have hv' : v % 256 = v := Nat.mod_eq_of_lt (by omega)
  have hsrc : (v * 0x100) % 65536 = v * 0x100 := Nat.mod_eq_of_lt (by omega)
  have hrun := dma_copy_run s v b hv hrd 0xA0 0 rfl
  rw [dma_after_zero, Nat.add_zero, Nat.add_zero] at hrun
  refine ⟨s.dma_after v b 0xA0, ?_, rfl, ?_, ?_, ?_⟩
  · simp only [write_memory8, write_io8, DMA, hv', hsrc]
    exact hrun
  · simp only [read_memory8, read_io8, JOYP, Machine.dma_after, upd]
    exact congrArg Except.ok hv'
  · intro i hi
    rw [read_memory8_oam _ i hi]
    show Except.ok ((if i < 0xA0 then b i else s.oam_memory i) % 256) = _
    rw [if_pos hi, Nat.mod_eq_of_lt (read_memory8_lt _ _ _ (hrd i hi))]
  · intro i hi
    show (if i < 0xA0 then b i else s.oam_memory i) = _
    rw [if_neg (by omega)]

theorem dma_transfer_witness :
    (0xC0 ≤ 0xFE ∧
      ∀ i < 0xA0, read_memory8 Machine.dma_source (0xC0 * 0x100 + i) = .ok ((7 * i + 3) % 256)) ∧
    ∃ s', write_memory8 Machine.dma_source 0xFF46 0xC0 = .ok s' ∧
      s' = { Machine.dma_source with
        io_ports := upd Machine.dma_source.io_ports 0x46 0xC0, oam_memory := s'.oam_memory } ∧
      read_memory8 s' 0xFF46 = .ok 0xC0 ∧
      (∀ i < 0xA0, read_memory8 s' (0xFE00 + i) = .ok ((7 * i + 3) % 256)) ∧
      (∀ i, 0xA0 ≤ i → s'.oam_memory i = Machine.dma_source.oam_memory i) :=
  ⟨⟨by decide, by decide!⟩,
   dma_transfer Machine.dma_source 0xC0 (fun i => (7 * i + 3) % 256) (by decide) (by decide!)⟩

/-- C14 (counterexample). For v = 0xFF the source range 0xFF00-0xFF9F holds the DMA
register itself and the joypad register. With the button row selected in the joypad
register, the read of 0xFF46 returns 0x00 before the write and OAM byte 0xFE46 holds
0xFF after it, the value the write has just stored; with no row selected (the blank
machine) the write stops at `assert(button_mode != direction_mode)` in the first read. -/
theorem dma_from_0xFF00 :
    read_memory8 (Machine.with_joypad 0x10 keys_start_a_up_left) (0xFF * 0x100 + 0x46) = .ok 0x00 ∧
    (write_memory8 (Machine.with_joypad 0x10 keys_start_a_up_left) 0xFF46 0xFF).bind
      (fun s' => read_memory8 s' (0xFE00 + 0x46)) = .ok 0xFF ∧
    (write_memory8 Machine.blank 0xFF46 0xFF).map (fun _ => ()) = .error .assert_failed := by
  decide!

/-! ## C21: the joypad register with no row selected -/

/-- C21 (amended). When the byte stored at 0xFF00 has bits 5 and 4 both set (neither row
selected), `read_memory8(0xFF00)` returns no byte: it stops at
`assert(button_mode != direction_mode)`, whatever buttons are pressed. -/
theorem joypad_no_row_asserts (s : Machine)
    (h5 : (s.io_ports 0 % 256) &&& 0x20 ≠ 0) (h4 : (s.io_ports 0 % 256) &&& 0x10 ≠ 0) :
    read_memory8 s 0xFF00 = .error .assert_failed := by
  obtain ⟨⟨m5, m4⟩, -⟩ := clear_pressed_bits (s.io_ports 0 % 256) (Nat.mod_lt _ (by decide))
  have hb : ((((s.io_ports 0 % 256) ||| 0xF) &&& 0x20) == 0) = false := by
    rw [m5]; exact beq_false_of_ne h5
  have hd : ((((s.io_ports 0 % 256) ||| 0xF) &&& 0x10) == 0) = false := by
    rw [m4]; exact beq_false_of_ne h4
  rw [read_memory8_JOYP, read_io8_JOYP, hb, hd]
  rfl

theorem joypad_no_row_asserts_witness :
    (((Machine.with_joypad 0xF0 keys_start_a_up_left).io_ports 0 % 256) &&& 0x20 ≠ 0 ∧
      ((Machine.with_joypad 0xF0 keys_start_a_up_left).io_ports 0 % 256) &&& 0x10 ≠ 0) ∧
    read_memory8 (Machine.with_joypad 0xF0 keys_start_a_up_left) 0xFF00 = .error .assert_failed :=
  ⟨⟨by decide, by decide⟩,
   joypad_no_row_asserts (Machine.with_joypad 0xF0 keys_start_a_up_left) (by decide) (by decide)⟩

/-- C21 (counterexample). With 0x30 stored at 0xFF00 (bits 5 and 4 set) and no key
pressed, `read_memory8(0xFF00)` does not return a byte with the four low bits set: it
returns no byte at all. -/
theorem joypad_no_row_does_not_return :
    (Machine.with_joypad 0x30 Machine.blank.gameboy_input).io_ports 0 &&& 0x30 = 0x30 ∧
    read_memory8 (Machine.with_joypad 0x30 Machine.blank.gameboy_input) 0xFF00
      = .error .assert_failed ∧
    ¬ ∃ r, read_memory8 (Machine.with_joypad 0x30 Machine.blank.gameboy_input) 0xFF00 = .ok r ∧
        r &&& 0x0F = 0x0F := by
  refine ⟨by decide, by decide, ?_⟩
  rintro ⟨r, hr, -⟩
  rw [show read_memory8 (Machine.with_joypad 0x30 Machine.blank.gameboy_input) 0xFF00
    = .error .assert_failed from by decide] at hr
  cases hr

/-! ## C22: the flags of `add16` -/

/-- C22 (the code at the inputs of the claim). `add16` returns `(a + b) mod 2^16`, leaves
Z, clears N and sets C iff `a + b > 0xFFFF`, but it clears H whatever the operands are:
`half_carry_result` is computed and not used. For a = 0x0FFF and b = 0x0001 there is a
carry out of bit 11 and H is clear, in `add16` and after ADD HL,BC. -/
theorem add16_clears_half_carry (f : Flags) (a b : Nat) :
    ((add16 f a b).1 = (a + b) % 65536 ∧ (add16 f a b).2.zf = f.zf ∧ (add16 f a b).2.n = false ∧
      ((add16 f a b).2.cy = true ↔ a + b > 0xFFFF) ∧ (add16 f a b).2.h = false) ∧
    ((0x0FFF &&& 0x0FFF) + (0x0001 &&& 0x0FFF) > 0x0FFF ∧
      (add16 flags0 0x0FFF 0x0001).2.h = false ∧
      (emulate_add_hl (upd (fun _ => 0) 0 0x09) Machine.add_hl_0x0FFF).map
        (fun r => (r.1, r.2.cpu.hl, r.2.cpu.f.h)) = .ok (8, 0x1000, false)) := by
  refine ⟨⟨rfl, rfl, rfl, ?_, rfl⟩, by decide, by decide, by decide⟩
  simp [add16]

/-! ## C23: ADC and SBC -/

/-- C23 (the code at the inputs of the claim). ADC and SBC pass `operand + carry` to
`add8` and `sub8` as one operand. The result and C are those of the three-input sum, and
H is computed from `(operand + carry) & 0xF`. With carry set, ADC A,0x0F on A = 0x00
gives A = 0x10 with H clear, although (0x0 + 0xF + 1) > 0xF; SBC A,0x0F on A = 0x10
gives A = 0x00 with H clear, although (0x10 & 0xF) < (0x0F & 0xF) + 1. -/
theorem adc_sbc_half_carry_precombined (f : Flags) (a r c : Nat) :
    ((add8 f a (r + c) true).1 = (a + r + c) % 256 ∧
      ((add8 f a (r + c) true).2.cy = true ↔ a + r + c > 0xFF) ∧
      ((add8 f a (r + c) true).2.h = true ↔ (a &&& 0xF) + ((r + c) &&& 0xF) > 0xF)) ∧
    ((emulate_adc_d8 (upd (upd (fun _ => 0) 0 0xCE) 1 0x0F) (Machine.with_a_carry 0x00 true)).map
        (fun r => (r.2.cpu.a, r.2.cpu.f.h, r.2.cpu.f.cy)) = .ok (0x10, false, false) ∧
      (0x00 &&& 0xF) + (0x0F &&& 0xF) + 1 > 0xF) ∧
    ((emulate_sbc_d8 (upd (upd (fun _ => 0) 0 0xDE) 1 0x0F) (Machine.with_a_carry 0x10 true)).map
        (fun r => (r.2.cpu.a, r.2.cpu.f.h, r.2.cpu.f.cy)) = .ok (0x00, false, false) ∧
      (0x10 &&& 0xF) < (0x0F &&& 0xF) + 1) ∧
    ((emulate_adc (upd (fun _ => 0) 0 0x88)
        { Machine.with_a_carry 0x00 true with cpu := { (Machine.with_a_carry 0x00 true).cpu with b := 0x0F } }).map
        (fun r => (r.2.cpu.a, r.2.cpu.f.h)) = .ok (0x10, false) ∧
     (emulate_sbc (upd (fun _ => 0) 0 0x98)
        { Machine.with_a_carry 0x10 true with cpu := { (Machine.with_a_carry 0x10 true).cpu with b := 0x0F } }).map
        (fun r => (r.2.cpu.a, r.2.cpu.f.h)) = .ok (0x00, false)) := by
  refine ⟨⟨?_, ?_, ?_⟩, by decide, by decide, by decide⟩
  · simp [add8, Nat.add_assoc]
  · simp [add8, Nat.add_assoc]
  · simp [add8]

/-! ## C24: the rotates -/

/-- The four rotate functions on every byte and carry, against the rotation of the byte. -/
theorem rotate_table :
    ∀ v < 256, ∀ c : Bool,
      (rlc { flags0 with cy := c } v).1 = rotate_left_circular v ∧
      (rrc { flags0 with cy := c } v).1 = rotate_right_circular v ∧
      (rl { flags0 with cy := c } v).1 = rotate_left_through_carry v c ∧
      (rr { flags0 with cy := c } v).1 = rotate_right_through_carry v c ∧
      (rlc { flags0 with cy := c } v).2.cy = bit_of v 7 ∧
      (rrc { flags0 with cy := c } v).2.cy = bit_of v 0 ∧
      (rl { flags0 with cy := c } v).2.cy = bit_of v 7 ∧
      (rr { flags0 with cy := c } v).2.cy = bit_of v 0 := by
  decide!

theorem rotate_value_congr (f : Flags) (v : Nat) :
    ((rlc f v).1 = (rlc { flags0 with cy := f.cy } v).1 ∧
      (rrc f v).1 = (rrc { flags0 with cy := f.cy } v).1 ∧
      (rl f v).1 = (rl { flags0 with cy := f.cy } v).1 ∧
      (rr f v).1 = (rr { flags0 with cy := f.cy } v).1) ∧
    ((rlc f v).2.cy = (rlc { flags0 with cy := f.cy } v).2.cy ∧
      (rrc f v).2.cy = (rrc { flags0 with cy := f.cy } v).2.cy ∧
      (rl f v).2.cy = (rl { flags0 with cy := f.cy } v).2.cy ∧
      (rr f v).2.cy = (rr { flags0 with cy := f.cy } v).2.cy) :=
  ⟨⟨rfl, rfl, rfl, rfl⟩, rfl, rfl, rfl, rfl⟩

/-- The flags a rotate leaves, in terms of the value it returns. -/
theorem rotate_flags (f : Flags) (v : Nat) :
    (rlc f v).2 = { f with zf := ((rlc f v).1 == 0), n := false, h := false, cy := (rlc f v).2.cy } ∧
    (rrc f v).2 = { f with zf := ((rrc f v).1 == 0), n := false, h := false, cy := (rrc f v).2.cy } ∧
    (rl f v).2 = { f with zf := ((rl f v).1 == 0), n := false, h := false, cy := (rl f v).2.cy } ∧
    (rr f v).2 = { f with zf := ((rr f v).1 == 0), n := false, h := false, cy := (rr f v).2.cy } :=
  ⟨rfl, rfl, rfl, rfl⟩

/-- The four rotate functions: the rotated byte, Z from the result, N = 0, H = 0 and C
the bit shifted out. -/
theorem rotate_functions (f : Flags) (v : Nat) (hv : v < 256) :
    rlc f v = (rotate_left_circular v,
      { f with zf := (rotate_left_circular v == 0), n := false, h := false, cy := bit_of v 7 }) ∧
    rrc f v = (rotate_right_circular v,
      { f with zf := (rotate_right_circular v == 0), n := false, h := false, cy := bit_of v 0 }) ∧
    rl f v = (rotate_left_through_carry v f.cy,
      { f with zf := (rotate_left_through_carry v f.cy == 0), n := false, h := false,
               cy := bit_of v 7 }) ∧
    rr f v = (rotate_right_through_carry v f.cy,
      { f with zf := (rotate_right_through_carry v f.cy == 0), n := false, h := false,
               cy := bit_of v 0 }) := by
  obtain ⟨t1, t2, t3, t4, c1, c2, c3, c4⟩ := rotate_table v hv f.cy
  obtain ⟨⟨v1, v2, v3, v4⟩, k1, k2, k3, k4⟩ := rotate_value_congr f v
  obtain ⟨f1, f2, f3, f4⟩ := rotate_flags f v
  refine ⟨Prod.ext (v1.trans t1) ?_, Prod.ext (v2.trans t2) ?_, Prod.ext (v3.trans t3) ?_,
    Prod.ext (v4.trans t4) ?_⟩
  · rw [f1, k1, c1, v1, t1]
  · rw [f2, k2, c2, v2, t2]
  · rw [f3, k3, c3, v3, t3]
  · rw [f4, k4, c4, v4, t4]

/-- C24. For every byte `v` and carry flag, `rlc`, `rrc`, `rl` and `rr` (the CB
operations 0x00-0x07, 0x08-0x0F, 0x10-0x17 and 0x18-0x1F) return the 8-bit rotation of
`v` (circular, or through the carry flag), with Z set iff the result is 0, N = 0, H = 0
and C the bit shifted out (bit 7 for left, bit 0 for right). RLCA, RLA, RRCA and RRA
take 4 cycles and leave the same rotation of A with the same C, N = 0, H = 0 and Z = 0. -/
theorem rotates_spec (f : Flags) (v : Nat) (hv : v < 256) (op : Nat) (code : Code) (s : Machine) :
    (rlc f v = (rotate_left_circular v,
        { f with zf := (rotate_left_circular v == 0), n := false, h := false, cy := bit_of v 7 }) ∧
      rrc f v = (rotate_right_circular v,
        { f with zf := (rotate_right_circular v == 0), n := false, h := false, cy := bit_of v 0 }) ∧
      rl f v = (rotate_left_through_carry v f.cy,
        { f with zf := (rotate_left_through_carry v f.cy == 0), n := false, h := false,
                 cy := bit_of v 7 }) ∧
      rr f v = (rotate_right_through_carry v f.cy,
        { f with zf := (rotate_right_through_carry v f.cy == 0), n := false, h := false,
                 cy := bit_of v 0 })) ∧
    ((op ≤ 0x07 → cb_operation f op v = rlc f v) ∧
      (0x08 ≤ op ∧ op ≤ 0x0F → cb_operation f op v = rrc f v) ∧
      (0x10 ≤ op ∧ op ≤ 0x17 → cb_operation f op v = rl f v) ∧
      (0x18 ≤ op ∧ op ≤ 0x1F → cb_operation f op v = rr f v)) ∧
    (emulate_rlca code s = .ok (4, s.set_a_f (rotate_left_circular (s.cpu.a % 256),
        { s.cpu.f with zf := false, n := false, h := false, cy := bit_of (s.cpu.a % 256) 7 })) ∧
      emulate_rrca code s = .ok (4, s.set_a_f (rotate_right_circular (s.cpu.a % 256),
        { s.cpu.f with zf := false, n := false, h := false, cy := bit_of (s.cpu.a % 256) 0 })) ∧
      emulate_rla code s = .ok (4, s.set_a_f (rotate_left_through_carry (s.cpu.a % 256) s.cpu.f.cy,
        { s.cpu.f with zf := false, n := false, h := false, cy := bit_of (s.cpu.a % 256) 7 })) ∧
      emulate_rra code s = .ok (4, s.set_a_f (rotate_right_through_carry (s.cpu.a % 256) s.cpu.f.cy,
        { s.cpu.f with zf := false, n := false, h := false, cy := bit_of (s.cpu.a % 256) 0 }))) := by
  have ha : s.cpu.a % 256 < 256 := Nat.mod_lt _ (by decide)
  obtain ⟨a1, a2, a3, a4⟩ := rotate_functions s.cpu.f (s.cpu.a % 256) ha
  refine ⟨rotate_functions f v hv, ⟨?_, ?_, ?_, ?_⟩, ?_, ?_, ?_, ?_⟩
  · intro h
    unfold cb_operation
    simp only []
    rw [if_pos h]
  · intro h
    unfold cb_operation
    simp only []
    rw [if_neg (by omega), if_pos h]
  · intro h
    unfold cb_operation
    simp only []
    rw [if_neg (by omega), if_neg (by omega), if_pos h]
  · intro h
    unfold cb_operation
    simp only []
    rw [if_neg (by omega), if_neg (by omega), if_neg (by omega), if_pos h]
  · simp only [emulate_rlca, a1]
  · simp only [emulate_rrca, a2]
  · simp only [emulate_rla, a3]
  · simp only [emulate_rra, a4]

theorem rotates_spec_witness :
    0x80 < 256 ∧
    rlc { flags0 with cy := true } 0x80 = (rotate_left_circular 0x80,
      { flags0 with cy := bit_of 0x80 7, zf := (rotate_left_circular 0x80 == 0) }) ∧
    rl flags0 0x80 = (rotate_left_through_carry 0x80 false,
      { flags0 with cy := bit_of 0x80 7, zf := (rotate_left_through_carry 0x80 false == 0) }) ∧
    emulate_rla (upd (fun _ => 0) 0 0x17) (Machine.with_a_carry 0x80 false)
      = .ok (4, (Machine.with_a_carry 0x80 false).set_a_f (rotate_left_through_carry (0x80 % 256) false,
          { flags0 with zf := false, cy := bit_of (0x80 % 256) 7 })) :=
  ⟨by decide,
   (rotates_spec { flags0 with cy := true } 0x80 (by decide) 0 (fun _ => 0) Machine.blank).1.1,
   (rotates_spec flags0 0x80 (by decide) 0 (fun _ => 0) Machine.blank).1.2.2.1,
   (rotates_spec flags0 0x80 (by decide) 0 (upd (fun _ => 0) 0 0x17)
      (Machine.with_a_carry 0x80 false)).2.2.2.2.1⟩

/-- RL and RLA of 0x80 with the carry clear: both give 0x00 with C set; RL sets Z, RLA
does not. -/
theorem rl_and_rla_of_0x80 :
    (rl flags0 0x80).1 = 0x00 ∧ (rl flags0 0x80).2.zf = true ∧ (rl flags0 0x80).2.cy = true ∧
    (emulate_rla (upd (fun _ => 0) 0 0x17) (Machine.with_a_carry 0x80 false)).map
      (fun r => (r.1, r.2.cpu.a, r.2.cpu.f.zf, r.2.cpu.f.cy, r.2.cpu.f.n, r.2.cpu.f.h))
      = .ok (4, 0x00, false, true, false, false) := by
  decide

/-! ## C25: BIT, RES and SET -/

/-- C25 (the code at the inputs of the claim). For every second byte 0x40-0x7F (written
`0x40 + k mod 0x40`), the CB operation sets Z to the tested bit itself (`cpu.f.zf = bit`), N = 0, H = 1 and leaves C
and the value: Z is 1 exactly when bit b of the operand is 1. BIT 0,A (0xCB 0x47) with
A = 0x01 returns with Z set, and with A = 0x00 with Z clear. -/
theorem bit_sets_z_to_the_bit (f : Flags) (k v : Nat) :
    cb_operation f (0x40 + k % 0x40) v
      = (v, { f with zf := (((v >>> (((0x40 + k % 0x40) >>> 3) &&& 7)) &&& 1) != 0),
                     n := false, h := true }) ∧
    ( emulate_cb_prefix (upd (upd (fun _ => 0) 0 0xCB) 1 0x47) (Machine.with_a_carry 0x01 false)).map
      (fun r => (r.1, r.2.cpu.a, r.2.cpu.f.zf, r.2.cpu.f.n, r.2.cpu.f.h, r.2.cpu.f.cy))
      = .ok (8, 0x01, true, false, true, false) ∧
    ( emulate_cb_prefix (upd (upd (fun _ => 0) 0 0xCB) 1 0x47) (Machine.with_a_carry 0x00 true)).map
      (fun r => (r.1, r.2.cpu.a, r.2.cpu.f.zf, r.2.cpu.f.n, r.2.cpu.f.h, r.2.cpu.f.cy))
      = .ok (8, 0x00, false, false, true, true) := by
  refine ⟨?_, by decide, by decide⟩
  have h : 0x40 ≤ 0x40 + k % 0x40 ∧ 0x40 + k % 0x40 ≤ 0x7F := by omega
  have n0 : ¬ 0x40 + k % 0x40 ≤ 0x07 := by omega
  have n1 : ¬ (0x08 ≤ 0x40 + k % 0x40 ∧ 0x40 + k % 0x40 ≤ 0x0F) := by omega
  have n2 : ¬ (0x10 ≤ 0x40 + k % 0x40 ∧ 0x40 + k % 0x40 ≤ 0x17) := by omega
  have n3 : ¬ (0x18 ≤ 0x40 + k % 0x40 ∧ 0x40 + k % 0x40 ≤ 0x1F) := by omega
  have n4 : ¬ (0x20 ≤ 0x40 + k % 0x40 ∧ 0x40 + k % 0x40 ≤ 0x27) := by omega
  have n5 : ¬ (0x28 ≤ 0x40 + k % 0x40 ∧ 0x40 + k % 0x40 ≤ 0x2F) := by omega
  have n6 : ¬ (0x30 ≤ 0x40 + k % 0x40 ∧ 0x40 + k % 0x40 ≤ 0x37) := by omega
  have n7 : ¬ (0x37 ≤ 0x40 + k % 0x40 ∧ 0x40 + k % 0x40 ≤ 0x3F) := by omega
  unfold cb_operation
  simp only []
  rw [if_neg n0, if_neg n1, if_neg n2, if_neg n3, if_neg n4, if_neg n5, if_neg n6, if_neg n7, if_pos h]

/-! ## C26: LD r,r' -/

/-- C26 (the code at the inputs of the claim). `emulate_ld` reports 4 cycles whenever it
returns, also when an operand is (HL): LD B,(HL) (opcode 0x46) with HL = 0xC000 copies
the byte 0x5A to B, leaves F as it was and reports 4 cycles, and so does LD (HL),B
(opcode 0x70). -/
theorem ld_reports_4_cycles (code : Code) (s : Machine) :
    ensures (emulate_ld code s) (fun r => r.1 = 4) ∧
    (emulate_ld (upd (fun _ => 0) 0 0x46) Machine.ld_b_hl).map
      (fun r => (r.1, r.2.cpu.b, r.2.cpu.f.toByte)) = .ok (4, 0x5A, Machine.ld_b_hl.cpu.f.toByte) ∧
    (emulate_ld (upd (fun _ => 0) 0 0x70) Machine.ld_b_hl).map (fun r => r.1) = .ok 4 := by
  refine ⟨?_, by decide, by decide⟩
  unfold emulate_ld
  refine ensures_bind_any _ _ _ (fun _ => ?_)
  refine ensures_bind_any _ _ _ (fun _ => ?_)
  exact ensures_ok _ _ rfl

/-! ## The display pipeline: what the line loop does to LY, STAT and IF -/

/-- A write to an I/O port other than DMA stores the byte. -/
theorem write_io8_port (s : Machine) (a v : Nat) (ha : 0xFF00 ≤ a ∧ a ≤ 0xFF7F) (hd : a ≠ 0xFF46) :
    write_io8 s a v = .ok { s with io_ports := upd s.io_ports (a - 0xFF00) (v % 256) } := by
  have ha' : a % 65536 = a := Nat.mod_eq_of_lt (by omega)
  simp only [write_io8, DMA, ha']
  rw [if_neg (by omega), if_neg hd]

/-- A read of an I/O port other than JOYP returns the stored byte. -/
theorem read_io8_port (s : Machine) (a : Nat) (ha : 0xFF00 < a ∧ a ≤ 0xFF7F) :
    read_io8 s a = .ok (s.io_ports (a - 0xFF00) % 256) := by
  have ha' : a % 65536 = a := Nat.mod_eq_of_lt (by omega)
  simp only [read_io8, JOYP, ha']
  rw [if_neg (by omega), if_neg (by omega)]

theorem write_io8_LY (s : Machine) (v : Nat) :
    write_io8 s LY v = .ok { s with io_ports := upd s.io_ports 0x44 (v % 256) } :=
  write_io8_port s LY v (by decide) (by decide)

theorem write_io8_STAT (s : Machine) (v : Nat) :
    write_io8 s STAT v = .ok { s with io_ports := upd s.io_ports 0x41 (v % 256) } :=
  write_io8_port s STAT v (by decide) (by decide)

theorem read_io8_LYC (s : Machine) : read_io8 s LYC = .ok (s.io_ports 0x45 % 256) :=
  read_io8_port s LYC (by decide)

theorem read_io8_STAT (s : Machine) : read_io8 s STAT = .ok (s.io_ports 0x41 % 256) :=
  read_io8_port s STAT (by decide)

/-- Bits 3 to 6 of STAT survive the update of the coincidence bit and the clearing of the
mode bits; or-ing an interrupt bit or a mode into a byte gives a byte. -/
theorem stat_bits :
    ∀ b < 256,
      ((b ||| (1 <<< 2)) &&& (1 <<< 6) = b &&& 0x40) ∧
      (∀ lyc ly : Bool,
        (line_stat b (b2n lyc) (b2n ly)) &&& (1 <<< 5) = b &&& 0x20 ∧
        (line_stat b (b2n lyc) (b2n ly)) &&& (1 <<< 4) = b &&& 0x10 ∧
        (line_stat b (b2n lyc) (b2n ly)) &&& 0x08 = b &&& 0x08 ∧
        (line_stat b (b2n lyc) (b2n ly)) &&& 0x03 = 0 ∧
        (line_stat b (b2n lyc) (b2n ly)) < 256 ∧
        ((line_stat b (b2n lyc) (b2n ly)) &&& 0x04 != 0) = (lyc == ly)) ∧
      (b ||| 1) % 256 = b ||| 1 ∧ (b ||| 2) % 256 = b ||| 2 ∧ (b ||| 3) % 256 = b ||| 3 ∧
      (b ||| 0) % 256 = b ∧
      (b ||| 1) &&& 0x04 = b &&& 0x04 ∧ (b ||| 2) &&& 0x04 = b &&& 0x04 ∧
      (b ||| 3) &&& 0x04 = b &&& 0x04 ∧
      (b ||| 1) &&& 1 = 1 ∧ (b ||| 2) &&& 2 = 2 ∧ (b ||| 2) &&& 1 = b &&& 1 ∧
      (b ||| 1) &&& 2 = b &&& 2 := by
  decide!

/-- The local `stat` depends on LYC and `ly` only through whether they are equal. -/
theorem line_stat_congr (b lyc ly : Nat) :
    line_stat b lyc ly = line_stat b (b2n true) (b2n (decide (lyc = ly))) := by
  unfold line_stat
  by_cases h : lyc = ly
  · rw [if_neg (not_not.mpr h)]
    simp [h, b2n]
  · rw [if_pos h]
    simp [h, b2n]

/-- The line loop up to `stat &= ~0x3`: LY is written; IF receives `_if | 2` when LYC
equals `ly` and bit 6 of STAT is set; the locals are the IF byte and `line_stat`. -/
theorem lcd_line_begin_eq (s : Machine) (ly : Nat) :
    lcd_line_begin s ly = .ok
      ({ s with
          io_ports :=
            if s.io_ports 0x45 % 256 = ly ∧ (s.io_ports 0x41 % 256) &&& 0x40 ≠ 0 then
              upd (upd s.io_ports 0x44 (ly % 256)) 0x0F ((s.io_ports 0x0F % 256) ||| 2)
            else upd s.io_ports 0x44 (ly % 256) },
       s.io_ports 0x0F % 256,
       line_stat (s.io_ports 0x41 % 256) (s.io_ports 0x45 % 256) ly) := by
  have hb : s.io_ports 0x41 % 256 < 256 := Nat.mod_lt _ (by decide)
  have hi : s.io_ports 0x0F % 256 < 256 := Nat.mod_lt _ (by decide)
  have e6 := (stat_bits _ hb).1
  have e2 := (stat_bits _ hi).2.2.2.1
  have r1 : (upd s.io_ports 0x44 (ly % 256)) 0x0F = s.io_ports 0x0F := rfl
  have r2 : (upd s.io_ports 0x44 (ly % 256)) 0x45 = s.io_ports 0x45 := rfl
  have r3 : (upd s.io_ports 0x44 (ly % 256)) 0x41 = s.io_ports 0x41 := rfl
  unfold lcd_line_begin
  rw [write_io8_LY, ok_bind, read_io8_IF, ok_bind, read_io8_LYC, ok_bind, read_io8_STAT, ok_bind]
  simp only [r1, r2, r3, INTERRUPTS_LCDSTAT]
  by_cases hc : s.io_ports 0x45 % 256 = ly
  · rw [if_neg (not_not.mpr hc), e6]
    by_cases h6 : (s.io_ports 0x41 % 256) &&& 0x40 ≠ 0
    · rw [if_pos h6, if_pos ⟨hc, h6⟩, write_io8_IF]
      simp only [ok_bind, pure_bind, line_stat, hc, ne_eq, not_true_eq_false, if_false, e2,
        show (1 : Nat) <<< 1 = 2 from rfl]
      rfl
    · rw [if_neg h6, if_neg (fun h => h6 h.2)]
      simp only [ok_bind, pure_bind, line_stat, hc, ne_eq, not_true_eq_false, if_false]
      rfl
  · rw [if_pos hc, if_neg (fun h => hc h.1)]
    simp only [ok_bind, pure_bind, line_stat, hc, ne_eq, not_false_eq_true, if_true]
    rfl

/-- The statements before the V-Blank batch: STAT receives `stat | 1`; on line 144 IF
receives `_if | 1` and then, when bit 4 of `stat` is set, `_if | 2`. -/
theorem lcd_mode_1_eq (t : Machine) (ly _if stat : Nat) :
    lcd_mode_1 t ly _if stat = .ok
      { t with
        io_ports :=
          if ly = 144 then
            if stat &&& 0x10 ≠ 0 then
              upd (upd (upd t.io_ports 0x41 ((stat ||| 1) % 256)) 0x0F ((_if ||| 1) % 256))
                0x0F ((_if ||| 2) % 256)
            else upd (upd t.io_ports 0x41 ((stat ||| 1) % 256)) 0x0F ((_if ||| 1) % 256)
          else upd t.io_ports 0x41 ((stat ||| 1) % 256) } := by
  unfold lcd_mode_1
  simp only [show (1 : Nat) <<< 4 = 0x10 from rfl, show (1 : Nat) <<< 5 = 0x20 from rfl]
  rw [write_io8_STAT, ok_bind]
  by_cases h : ly = 144
  · rw [if_pos h, if_pos h, write_io8_IF, ok_bind]
    by_cases h4 : stat &&& 0x10 ≠ 0
    · rw [if_pos h4, if_pos h4, write_io8_IF]
      rfl
    · rw [if_neg h4, if_neg h4]
      rfl
  · rw [if_neg h, if_neg h]
    rfl

/-- The statements before the OAM-scan batch: STAT receives `stat | 2`, and IF receives
`_if | 2` when bit 5 of `stat` is set. -/
theorem lcd_mode_2_eq (t : Machine) (_if stat : Nat) :
    lcd_mode_2 t _if stat = .ok
      { t with
        io_ports :=
          if stat &&& 0x20 ≠ 0 then
            upd (upd t.io_ports 0x41 ((stat ||| 2) % 256)) 0x0F ((_if ||| 2) % 256)
          else upd t.io_ports 0x41 ((stat ||| 2) % 256) } := by
  unfold lcd_mode_2
  simp only [show (1 : Nat) <<< 4 = 0x10 from rfl, show (1 : Nat) <<< 5 = 0x20 from rfl]
  rw [write_io8_STAT, ok_bind]
  by_cases h5 : stat &&& 0x20 ≠ 0
  · rw [if_pos h5, if_pos h5, write_io8_IF]
    rfl
  · rw [if_neg h5, if_neg h5]
    rfl

/-- The statements before the H-Blank batch: STAT receives `stat | 0`, and IF receives
`_if | 2` when bit 5 of `stat` is set; bit 3 of `stat` is not read. -/
theorem lcd_mode_0_eq (t : Machine) (_if stat : Nat) :
    lcd_mode_0 t _if stat = .ok
      { t with
        io_ports :=
          if stat &&& 0x20 ≠ 0 then
            upd (upd t.io_ports 0x41 ((stat ||| 0) % 256)) 0x0F ((_if ||| 2) % 256)
          else upd t.io_ports 0x41 ((stat ||| 0) % 256) } := by
  unfold lcd_mode_0
  simp only [show (1 : Nat) <<< 4 = 0x10 from rfl, show (1 : Nat) <<< 5 = 0x20 from rfl]
  rw [write_io8_STAT, ok_bind]
  by_cases h5 : stat &&& 0x20 ≠ 0
  · rw [if_pos h5, if_pos h5, write_io8_IF]
    rfl
  · rw [if_neg h5, if_neg h5]
    rfl

theorem lcd_mode_3_eq (t : Machine) (stat : Nat) :
    lcd_mode_3 t stat = .ok { t with io_ports := upd t.io_ports 0x41 ((stat ||| 3) % 256) } :=
  write_io8_STAT t _

/-- A line of the V-Blank period is the statements before the batch, then the batch. -/
theorem gameboy_line_vblank (fuel ly : Nat) (w : Int) (s : Machine) (h : ¬ ly < 144) :
    gameboy_line fuel ly w s
      = (lcd_before_mode_1_batch s ly).bind (fun s1 => cpu_step fuel (456 + w) s1) := by
  unfold gameboy_line lcd_before_mode_1_batch
  rw [lcd_line_begin_eq, ok_bind, ok_bind]
  simp only [if_neg h]
  rfl

/-- A visible line: the statements before each of the three batches, the batches, and the
rendering, with the locals `_if` and `stat` of the beginning of the line. -/
theorem gameboy_line_visible (fuel ly : Nat) (w : Int) (s : Machine) (h : ly < 144) :
    gameboy_line fuel ly w s
      = (lcd_before_mode_2_batch s ly).bind (fun s1 =>
        (cpu_step fuel (80 + w) s1).bind (fun r1 =>
        (lcd_mode_3 r1.2 (line_stat (s.io_ports 0x41 % 256) (s.io_ports 0x45 % 256) ly)).bind (fun s2 =>
        (cpu_step fuel (172 + r1.1) s2).bind (fun r2 =>
        (lcd_mode_0 r2.2 (s.io_ports 0x0F % 256)
          (line_stat (s.io_ports 0x41 % 256) (s.io_ports 0x45 % 256) ly)).bind (fun s3 =>
        (cpu_step fuel (204 + r2.1) s3).bind (fun r3 =>
        (render_line r3.2 ly).bind (fun s4 => .ok (r3.1, s4)))))))) := by
  unfold gameboy_line lcd_before_mode_2_batch
  rw [lcd_line_begin_eq, ok_bind, ok_bind]
  simp only [if_pos h]
  rfl


/-- Bits 5, 4 and 3 of the local `stat` are those of the STAT byte read, bits 1 and 0 are
clear, bit 2 tells whether LYC equals `ly`, and `stat` is a byte. -/
theorem line_stat_bits (b lyc ly : Nat) (hb : b < 256) :
    (line_stat b lyc ly) &&& 0x20 = b &&& 0x20 ∧ (line_stat b lyc ly) &&& 0x10 = b &&& 0x10 ∧
    (line_stat b lyc ly) &&& 0x08 = b &&& 0x08 ∧ (line_stat b lyc ly) &&& 0x03 = 0 ∧
    line_stat b lyc ly < 256 ∧ ((line_stat b lyc ly) &&& 0x04 ≠ 0 ↔ lyc = ly) := by
  obtain ⟨h5, h4, h3, h0, hlt, h2⟩ := (stat_bits b hb).2.1 true (decide (lyc = ly))
  rw [line_stat_congr b lyc ly]
  refine ⟨h5, h4, h3, h0, hlt, ?_⟩
  by_cases h : lyc = ly
  · simp only [h, decide_True, beq_self_eq_true, bne_iff_ne, ne_eq] at h2 ⊢
    simpa using h2
  · simp only [h, decide_False, bne_eq_false_iff_eq, iff_false, not_not] at h2 ⊢
    simpa using h2

/-- The state in which the CPU begins the batch of line 144: LY = 144, STAT holds the
local `stat` with mode 1, and IF holds `_if | 2` if bit 4 of STAT is set and `_if | 1` if
not, where `_if` is the IF byte read at the beginning of the line. -/
theorem lcd_before_mode_1_batch_144 (s : Machine) :
    ∃ s1, lcd_before_mode_1_batch s 144 = .ok s1 ∧ s1.io_ports 0x44 = 144 ∧
      s1.io_ports 0x41 = (line_stat (s.io_ports 0x41 % 256) (s.io_ports 0x45 % 256) 144) ||| 1 ∧
      s1.io_ports 0x0F = (if (s.io_ports 0x41 % 256) &&& 0x10 ≠ 0 then (s.io_ports 0x0F % 256) ||| 2
        else (s.io_ports 0x0F % 256) ||| 1) := by
  have hb : s.io_ports 0x41 % 256 < 256 := Nat.mod_lt _ (by decide)
  have hi : s.io_ports 0x0F % 256 < 256 := Nat.mod_lt _ (by decide)
  obtain ⟨-, h4, -, -, hlt, -⟩ := line_stat_bits (s.io_ports 0x41 % 256) (s.io_ports 0x45 % 256) 144 hb
  have m1 := (stat_bits _ hlt).2.2.1
  have i1 := (stat_bits _ hi).2.2.1
  have i2 := (stat_bits _ hi).2.2.2.1
  unfold lcd_before_mode_1_batch
  rw [lcd_line_begin_eq, ok_bind]
  simp only []
  rw [lcd_mode_1_eq, if_pos rfl, h4, m1, i1, i2]
  refine ⟨_, rfl, ?_, ?_, ?_⟩
  · by_cases c4 : (s.io_ports 0x41 % 256) &&& 0x10 ≠ 0
    · simp only [if_pos c4]
      by_cases c6 : s.io_ports 0x45 % 256 = 144 ∧ (s.io_ports 0x41 % 256) &&& 0x40 ≠ 0
      · simp only [if_pos c6]; rfl
      · simp only [if_neg c6]; rfl
    · simp only [if_neg c4]
      by_cases c6 : s.io_ports 0x45 % 256 = 144 ∧ (s.io_ports 0x41 % 256) &&& 0x40 ≠ 0
      · simp only [if_pos c6]; rfl
      · simp only [if_neg c6]; rfl
  · by_cases c4 : (s.io_ports 0x41 % 256) &&& 0x10 ≠ 0
    · simp only [if_pos c4]; rfl
    · simp only [if_neg c4]; rfl
  · by_cases c4 : (s.io_ports 0x41 % 256) &&& 0x10 ≠ 0
    · simp only [if_pos c4]; rfl
    · simp only [if_neg c4]; rfl

/-- The state in which the CPU begins the first batch of a visible line: LY = `ly`, STAT
holds the local `stat` with mode 2, and IF holds `_if | 2` if LYC = `ly` with bit 6 of
STAT set, or if bit 5 of STAT is set, and is not written otherwise. -/
theorem lcd_before_mode_2_batch_eq (s : Machine) (ly : Nat) :
    ∃ s1, lcd_before_mode_2_batch s ly = .ok s1 ∧ s1.io_ports 0x44 = ly % 256 ∧
      s1.io_ports 0x41 = (line_stat (s.io_ports 0x41 % 256) (s.io_ports 0x45 % 256) ly) ||| 2 ∧
      s1.io_ports 0x0F =
        (if (s.io_ports 0x45 % 256 = ly ∧ (s.io_ports 0x41 % 256) &&& 0x40 ≠ 0) ∨
            (s.io_ports 0x41 % 256) &&& 0x20 ≠ 0
         then (s.io_ports 0x0F % 256) ||| 2 else s.io_ports 0x0F) := by
  have hb : s.io_ports 0x41 % 256 < 256 := Nat.mod_lt _ (by decide)
  have hi : s.io_ports 0x0F % 256 < 256 := Nat.mod_lt _ (by decide)
  obtain ⟨h5, -, -, -, hlt, -⟩ := line_stat_bits (s.io_ports 0x41 % 256) (s.io_ports 0x45 % 256) ly hb
  have m2 := (stat_bits _ hlt).2.2.2.1
  have i2 := (stat_bits _ hi).2.2.2.1
  unfold lcd_before_mode_2_batch
  rw [lcd_line_begin_eq, ok_bind]
  simp only []
  rw [lcd_mode_2_eq, h5, m2, i2]
  refine ⟨_, rfl, ?_, ?_, ?_⟩
  · by_cases c5 : (s.io_ports 0x41 % 256) &&& 0x20 ≠ 0
    · simp only [if_pos c5]
      by_cases c6 : s.io_ports 0x45 % 256 = ly ∧ (s.io_ports 0x41 % 256) &&& 0x40 ≠ 0
      · simp only [if_pos c6]; rfl
      · simp only [if_neg c6]; rfl
    · simp only [if_neg c5]
      by_cases c6 : s.io_ports 0x45 % 256 = ly ∧ (s.io_ports 0x41 % 256) &&& 0x40 ≠ 0
      · simp only [if_pos c6]; rfl
      · simp only [if_neg c6]; rfl
  · by_cases c5 : (s.io_ports 0x41 % 256) &&& 0x20 ≠ 0
    · simp only [if_pos c5]
      by_cases c6 : s.io_ports 0x45 % 256 = ly ∧ (s.io_ports 0x41 % 256) &&& 0x40 ≠ 0
      · simp only [if_pos c6]; rfl
      · simp only [if_neg c6]; rfl
    · simp only [if_neg c5]
      by_cases c6 : s.io_ports 0x45 % 256 = ly ∧ (s.io_ports 0x41 % 256) &&& 0x40 ≠ 0
      · simp only [if_pos c6]; rfl
      · simp only [if_neg c6]; rfl
  · by_cases c5 : (s.io_ports 0x41 % 256) &&& 0x20 ≠ 0
    · rw [if_pos c5, if_pos (Or.inr c5)]; rfl
    · rw [if_neg c5]
      by_cases c6 : s.io_ports 0x45 % 256 = ly ∧ (s.io_ports 0x41 % 256) &&& 0x40 ≠ 0
      · rw [if_pos c6, if_pos (Or.inl c6)]; rfl
      · rw [if_neg c6, if_neg (fun h => h.elim c6 c5)]; rfl

/-! ## C27, C28, C29: the interrupt requests of the line loop -/

/-- C27 (the code at the inputs of the claim). Line 144 is the statements before the
batch followed by `cpu_step(456 + wasted_cycles)`. When the CPU begins that batch LY is
144, and bit 0 (VBlank) of IF is set if bit 4 of STAT is clear; if bit 4 of STAT is set,
IF has been overwritten with `_if | INTERRUPTS_LCDSTAT` and bit 0 is what it was at the
beginning of the line. With STAT = 0x10 and IF = 0x00 the CPU begins line 144 with
IF = 0x02. -/
theorem vblank_request_overwritten (s : Machine) (fuel : Nat) (w : Int) :
    gameboy_line fuel 144 w s
      = (lcd_before_mode_1_batch s 144).bind (fun s1 => cpu_step fuel (456 + w) s1) ∧
    (∃ s1, lcd_before_mode_1_batch s 144 = .ok s1 ∧ s1.io_ports 0x44 = 144 ∧
      s1.io_ports 0x0F &&& 1
        = (if (s.io_ports 0x41 % 256) &&& 0x10 ≠ 0 then (s.io_ports 0x0F % 256) &&& 1 else 1)) ∧
    (lcd_before_mode_1_batch (Machine.with_lcd 0x10 0x00 0x00) 144).map
      (fun s1 => (s1.io_ports 0x44, s1.io_ports 0x41, s1.io_ports 0x0F)) = .ok (144, 0x11, 0x02) := by
  have hi : s.io_ports 0x0F % 256 < 256 := Nat.mod_lt _ (by decide)
  obtain ⟨-, -, -, -, -, -, -, -, -, b11, -, b21, -⟩ := stat_bits _ hi
  obtain ⟨s1, h1, hly, -, hif⟩ := lcd_before_mode_1_batch_144 s
  refine ⟨gameboy_line_vblank fuel 144 w s (by decide), ⟨s1, h1, hly, ?_⟩, by decide⟩
  rw [hif]
  by_cases c4 : (s.io_ports 0x41 % 256) &&& 0x10 ≠ 0
  · rw [if_pos c4, if_pos c4]
    exact b21
  · rw [if_neg c4, if_neg c4]
    exact b11

/-- C28 (the code at the inputs of the claim). When the CPU begins the first batch of a
line, bit 2 of STAT tells whether LYC equals `ly`, on visible lines and on line 144. On a
visible line IF holds `_if | 2` if LYC = `ly` with bit 6 of STAT set. On line 144 bit 1
(LCD-STAT) of IF is set if bit 4 of STAT is set and is otherwise what it was at the
beginning of the line, whatever LYC and bit 6 of STAT are: the coincidence request is
overwritten with `_if | INTERRUPTS_VBLANK`. With STAT = 0x40, LYC = 144 and IF = 0x00 the
CPU begins line 144 with IF = 0x01. -/
theorem coincidence_request_overwritten (s : Machine) (ly : Nat) :
    (∃ s1, lcd_before_mode_2_batch s ly = .ok s1 ∧
      ((s1.io_ports 0x41) &&& 0x04 ≠ 0 ↔ s.io_ports 0x45 % 256 = ly) ∧
      s1.io_ports 0x0F =
        (if (s.io_ports 0x45 % 256 = ly ∧ (s.io_ports 0x41 % 256) &&& 0x40 ≠ 0) ∨
            (s.io_ports 0x41 % 256) &&& 0x20 ≠ 0
         then (s.io_ports 0x0F % 256) ||| 2 else s.io_ports 0x0F)) ∧
    (∃ s1, lcd_before_mode_1_batch s 144 = .ok s1 ∧
      ((s1.io_ports 0x41) &&& 0x04 ≠ 0 ↔ s.io_ports 0x45 % 256 = 144) ∧
      s1.io_ports 0x0F &&& 2
        = (if (s.io_ports 0x41 % 256) &&& 0x10 ≠ 0 then 2 else (s.io_ports 0x0F % 256) &&& 2)) ∧
    (lcd_before_mode_1_batch (Machine.with_lcd 0x40 144 0x00) 144).map
      (fun s1 => (s1.io_ports 0x44, s1.io_ports 0x41, s1.io_ports 0x0F)) = .ok (144, 0x45, 0x01) := by
  have hb : s.io_ports 0x41 % 256 < 256 := Nat.mod_lt _ (by decide)
  have hi : s.io_ports 0x0F % 256 < 256 := Nat.mod_lt _ (by decide)
  obtain ⟨-, -, -, -, -, -, -, -, -, -, b22, -, b12⟩ := stat_bits _ hi
  obtain ⟨s1, h1, -, hst, hif⟩ := lcd_before_mode_1_batch_144 s
  obtain ⟨s2, h2, -, hst2, hif2⟩ := lcd_before_mode_2_batch_eq s ly
  obtain ⟨-, -, -, -, hlt, hc⟩ := line_stat_bits (s.io_ports 0x41 % 256) (s.io_ports 0x45 % 256) 144 hb
  obtain ⟨-, -, -, -, hlt2, hc2⟩ := line_stat_bits (s.io_ports 0x41 % 256) (s.io_ports 0x45 % 256) ly hb
  refine ⟨⟨s2, h2, ?_, hif2⟩, ⟨s1, h1, ?_, ?_⟩, by decide⟩
  · obtain ⟨-, -, -, -, -, -, -, a2, -⟩ := stat_bits _ hlt2
    rw [hst2, a2]
    exact hc2
  · obtain ⟨-, -, -, -, -, -, a1, -⟩ := stat_bits _ hlt
    rw [hst, a1]
    exact hc
  · rw [hif]
    by_cases c4 : (s.io_ports 0x41 % 256) &&& 0x10 ≠ 0
    · rw [if_pos c4, if_pos c4]
      exact b22
    · rw [if_neg c4, if_neg c4]
      exact b12

/-- C29 (the code at the inputs of the claim). The statements before the H-Blank batch
write `stat | 0` to STAT and test bit 5 of `stat`, the bit of the mode-2 interrupt: IF
receives `_if | 2` if bit 5 is set and is not written if bit 5 is clear, whatever bit 3
is. With STAT = 0x08 (bit 3 set) and IF = 0x00 the CPU begins the H-Blank batch of line 0
with IF = 0x00, when the two batches before it change no I/O port; with bit 5 set and
bit 3 clear in `stat`, the transition to mode 0 writes 0x02 to an IF that held 0x00. -/
theorem hblank_request_tests_bit_5 (t : Machine) (_if stat : Nat) :
    lcd_mode_0 t _if stat = .ok
      { t with
        io_ports :=
          if stat &&& 0x20 ≠ 0 then
            upd (upd t.io_ports 0x41 ((stat ||| 0) % 256)) 0x0F ((_if ||| 2) % 256)
          else upd t.io_ports 0x41 ((stat ||| 0) % 256) } ∧
    ((lcd_line_begin (Machine.with_lcd 0x08 0x01 0x00) 0).bind (fun r =>
        (lcd_mode_2 r.1 r.2.1 r.2.2).bind (fun s1 =>
        (lcd_mode_3 s1 r.2.2).bind (fun s2 =>
        (lcd_mode_0 s2 r.2.1 r.2.2).map (fun s3 =>
          (r.2.2 &&& 0x08, s3.io_ports 0x41, s3.io_ports 0x0F)))))) = .ok (0x08, 0x08, 0x00) ∧
    (lcd_mode_0 (Machine.with_lcd 0x23 0x01 0x00) 0x00 0x20).map
      (fun s3 => (s3.io_ports 0x41, s3.io_ports 0x0F)) = .ok (0x20, 0x02) :=
  ⟨lcd_mode_0_eq t _if stat, by decide, by decide⟩

/-! ## C30: the palette transform -/

/-- C30. For a palette register that reads `P` and an index `i` in 0..3,
`get_palette_color` returns `3 - ((P >> 2i) & 3)`; for `c` in 0..3, `u2_to_u8 c` is
`0x55 * c`; the shades 0, 1, 2, 3 are sent by `c ↦ u2_to_u8 (3 - c)` to 0xFF, 0xAA, 0x55,
0x00 in that order (four different bytes), and `u8_to_u2` recovers `c` from `u2_to_u8 c`,
hence the shade from its framebuffer byte as `3 - u8_to_u2 byte`. -/
theorem palette_transform (s : Machine) (reg P i : Nat) (hi : i ≤ 3) (hP : read_io8 s reg = .ok P) :
    get_palette_color s reg i = .ok (3 - ((P >>> (2 * i)) &&& 3)) ∧
    (∀ c ≤ 3, u2_to_u8 c = .ok (0x55 * c)) ∧
    [0, 1, 2, 3].map (fun c => u2_to_u8 (3 - c)) = [.ok 0xFF, .ok 0xAA, .ok 0x55, .ok 0x00] ∧
    (∀ c ≤ 3, ∀ d ≤ 3, u2_to_u8 (3 - c) = u2_to_u8 (3 - d) → c = d) ∧
    (∀ c ≤ 3, (u2_to_u8 c).map u8_to_u2 = .ok c) ∧
    (∀ c ≤ 3, (u2_to_u8 (3 - c)).map (fun byte => 3 - u8_to_u2 byte) = .ok c) := by
  refine ⟨?_, by decide, by decide, by decide, by decide, by decide⟩
  unfold get_palette_color
  rw [if_neg (by omega), hP, ok_bind]

theorem palette_transform_witness :
    (2 ≤ 3 ∧ read_io8 (Machine.with_io 0x47 0xE4) BGP = .ok 0xE4) ∧
    get_palette_color (Machine.with_io 0x47 0xE4) BGP 2 = .ok (3 - ((0xE4 >>> (2 * 2)) &&& 3)) :=
  ⟨⟨by decide, by decide⟩,
   (palette_transform (Machine.with_io 0x47 0xE4) BGP 0xE4 2 (by decide) (by decide)).1⟩

/-- The four colours of the palette byte 0xE4, and the framebuffer byte of each. -/
theorem palette_0xE4 :
    [0, 1, 2, 3].map (fun i => (get_palette_color (Machine.with_io 0x47 0xE4) BGP i).bind u2_to_u8)
      = [.ok 0xFF, .ok 0xAA, .ok 0x55, .ok 0x00] := by
  decide

/-! ## C34, C35: the state after initialisation -/

/-- `initialize_cpu` always returns: the registers of `initialize_cpu_registers`, the
thirty port writes, IE = 0 and IME clear. -/
theorem initialize_cpu_eq (s : Machine) :
    initialize_cpu s = .ok
      { s with cpu := initialize_cpu_registers s.cpu, io_ports := initial_io_ports s.io_ports,
               ie := 0x00, ime := false } := by
  unfold initialize_cpu
  simp only [write_io8_port _ TIMA _ (by decide) (by decide), write_io8_port _ TMA _ (by decide) (by decide),
    write_io8_port _ TAC _ (by decide) (by decide), write_io8_port _ NR10 _ (by decide) (by decide),
    write_io8_port _ NR11 _ (by decide) (by decide), write_io8_port _ NR12 _ (by decide) (by decide),
    write_io8_port _ NR14 _ (by decide) (by decide), write_io8_port _ NR21 _ (by decide) (by decide),
    write_io8_port _ NR22 _ (by decide) (by decide), write_io8_port _ NR24 _ (by decide) (by decide),
    write_io8_port _ NR30 _ (by decide) (by decide), write_io8_port _ NR31 _ (by decide) (by decide),
    write_io8_port _ NR32 _ (by decide) (by decide), write_io8_port _ NR33 _ (by decide) (by decide),
    write_io8_port _ NR41 _ (by decide) (by decide), write_io8_port _ NR42 _ (by decide) (by decide),
    write_io8_port _ NR43 _ (by decide) (by decide), write_io8_port _ NR50 _ (by decide) (by decide),
    write_io8_port _ NR51 _ (by decide) (by decide), write_io8_port _ NR52 _ (by decide) (by decide),
    write_io8_port _ LCDC _ (by decide) (by decide), write_io8_port _ SCY _ (by decide) (by decide),
    write_io8_port _ SCX _ (by decide) (by decide), write_io8_port _ LYC _ (by decide) (by decide),
    write_io8_port _ BGP _ (by decide) (by decide), write_io8_port _ OBP0 _ (by decide) (by decide),
    write_io8_port _ OBP1 _ (by decide) (by decide), write_io8_port _ WY _ (by decide) (by decide),
    write_io8_port _ WX _ (by decide) (by decide), ok_bind]
  rfl

theorem initialize_cpu_registers_eq (r : Registers) :
    initialize_cpu_registers r =
      { f := { zero := 0, cy := false, h := false, n := false, zf := true }
        a := 0x11, c := 0x00, b := 0x00, e := 0x08, d := 0x00, l := 0x7C, h := 0x00
        sp := 0xFFFE, pc := 0x0100 } := by
  simp [initialize_cpu_registers, Registers.set_af, Registers.set_bc, Registers.set_de,
    Registers.set_hl, Flags.ofByte]

/-- C34 (amended). After `gameboy_init`, for every previous state and every ROM, the CPU
registers hold the constants of the second block of `initialize_cpu`: AF = 0x1180,
BC = 0x0000, DE = 0x0008, HL = 0x007C, SP = 0xFFFE, PC = 0x0100, and IME is false. -/
theorem boot_registers (s : Machine) (rom_size : Nat) (rom saved_ram : Nat → Nat) :
    ∃ s', gameboy_init s rom_size rom saved_ram = .ok s' ∧
      s'.cpu.af = 0x1180 ∧ s'.cpu.bc = 0x0000 ∧ s'.cpu.de = 0x0008 ∧ s'.cpu.hl = 0x007C ∧
      s'.cpu.sp = 0xFFFE ∧ s'.cpu.pc = 0x0100 ∧ s'.ime = false := by
  unfold gameboy_init
  simp only [initialize_cpu_eq, ok_bind, initialize_cpu_registers_eq]
  refine ⟨_, rfl, ?_, ?_, ?_, ?_, ?_, ?_, ?_⟩ <;>
    simp [initialize_cartridge_registers, Registers.af, Registers.bc, Registers.de, Registers.hl,
      Flags.toByte, b2n]

/-- C34 (counterexample). After `gameboy_init` from the blank machine, AF, BC, DE and HL
are 0x1180, 0x0000, 0x0008 and 0x007C, not 0x01B0, 0x0013, 0x00D8 and 0x014D. -/
theorem boot_registers_are_overridden :
    (gameboy_init Machine.blank 0x8000 (fun _ => 0) (fun _ => 0)).map
        (fun s => (s.cpu.af, s.cpu.bc, s.cpu.de, s.cpu.hl))
      = .ok (0x1180, 0x0000, 0x0008, 0x007C) ∧
    (gameboy_init Machine.blank 0x8000 (fun _ => 0) (fun _ => 0)).map
        (fun s => (s.cpu.af, s.cpu.bc, s.cpu.de, s.cpu.hl))
      ≠ .ok (0x01B0, 0x0013, 0x00D8, 0x014D) := by
  decide!

/-! ### C35 -/

/-- C35 (the code at the inputs of the claim). After `initialize_cpu` from a zeroed I/O
area every register of the boot table holds its listed value, except NR30: the port
0xFF1A is written twice, with 0x7F and then, after NR43, with 0xBF, and holds 0xBF; the
port 0xFF23 (NR44) is not written. -/
theorem boot_io_ports (s : Machine) :
    ∃ s', initialize_cpu { s with io_ports := fun _ => 0 } = .ok s' ∧
      [TIMA, TMA, TAC, LCDC, STAT, SCY, SCX, LY, LYC, BGP, OBP0, OBP1, WY, WX, IF].map
          (fun a => s'.io_ports (a - 0xFF00))
        = [0, 0, 0, 0x91, 0, 0, 0, 0, 0, 0xFC, 0xFF, 0xFF, 0, 0, 0] ∧
      s'.ie = 0 ∧
      [NR10, NR11, NR12, NR14, NR21, NR22, NR24, NR31, NR32, NR33, NR41, NR42, NR43, NR50, NR51,
        NR52].map (fun a => s'.io_ports (a - 0xFF00))
        = [0x80, 0xBF, 0xF3, 0xBF, 0x3F, 0x00, 0xBF, 0xFF, 0x9F, 0xBF, 0xFF, 0x00, 0x00, 0x77, 0xF3,
            0xF1] ∧
      s'.io_ports (NR30 - 0xFF00) = 0xBF ∧ s'.io_ports (NR44 - 0xFF00) = 0x00 := by
  rw [initialize_cpu_eq]
  refine ⟨_, rfl, ?_, rfl, ?_, ?_, ?_⟩ <;> rfl

/-! ## Serial and Joypad interrupts -/

/-- With Serial or Joypad the only pending source, which of the five tests of `cpu_step` hold. -/
theorem serial_joypad_bits :
    ∀ irq < 256, (irq &&& 0x1F = 8 ∨ irq &&& 0x1F = 16) →
      irq &&& 1 = 0 ∧ irq &&& 2 = 0 ∧ irq &&& 4 = 0 ∧ (irq &&& 8 ≠ 0 ∨ irq &&& 16 ≠ 0) := by
  decide!

theorem cpu_interrupts_serial_joypad (s : Machine)
    (hirq : ((s.ie % 256) &&& (s.io_ports 0x0F % 256)) &&& 0x1F = 8 ∨
      ((s.ie % 256) &&& (s.io_ports 0x0F % 256)) &&& 0x1F = 16) :
    cpu_interrupts s = .error .assert_failed := by
  have hlt : (s.ie % 256) &&& (s.io_ports 0x0F % 256) < 256 :=
    lt_of_le_of_lt Nat.and_le_left (Nat.mod_lt _ (by decide))
  obtain ⟨h0, h1, h2, h34⟩ := serial_joypad_bits _ hlt hirq
  unfold cpu_interrupts
  rw [read_io8_IF, ok_bind]
  simp only [show INTERRUPTS_VBLANK = 1 from rfl, show INTERRUPTS_LCDSTAT = 2 from rfl,
    show INTERRUPTS_TIMER = 4 from rfl, show INTERRUPTS_SERIAL = 8 from rfl,
    show INTERRUPTS_JOYPAD = 16 from rfl, h0, h1, h2, ne_eq, not_true_eq_false, ↓reduceIte,
    pure_bind]
  rcases h34 with h3 | h4
  · rw [if_pos h3]
  · by_cases h3 : (s.ie % 256) &&& (s.io_ports 0x0F % 256) &&& 8 = 0
    · rw [if_neg (not_not.mpr h3), if_pos h4]
    · rw [if_pos h3]

/-- C36 (amended). With IME set and Serial (bit 3) or Joypad (bit 4) the only source pending
in IE & IF, the next instruction step of `cpu_step` does not complete: it stops at the
`assert(false)` that heads the branch of that source, whatever the budget. -/
theorem serial_joypad_step_aborts (s : Machine) (hime : s.ime = true)
    (hirq : ((s.ie % 256) &&& (s.io_ports 0x0F % 256)) &&& 0x1F = 8 ∨
      ((s.ie % 256) &&& (s.io_ports 0x0F % 256)) &&& 0x1F = 16) :
    cpu_step_once s = .error .assert_failed ∧
    ∀ (fuel : Nat) (m : Int), 0 < m → cpu_step (fuel + 1) m s = .error .assert_failed := by
  have h1 : cpu_step_once s = .error .assert_failed := by
    have h := cpu_interrupts_serial_joypad (s.set_f { s.cpu.f with zero := 0 }) hirq
    have hi : (s.set_f { s.cpu.f with zero := 0 }).ime = true := hime
    unfold cpu_step_once
    simp only [hi, if_true, h]
    rfl
  refine ⟨h1, fun fuel m hm => ?_⟩
  unfold cpu_step
  rw [if_pos hm]
  simp only [h1]
  rfl

theorem serial_joypad_step_aborts_witness :
    (Machine.with_interrupts 0x08 0x08).ime = true ∧
    cpu_step_once (Machine.with_interrupts 0x08 0x08) = .error .assert_failed :=
  ⟨rfl, (serial_joypad_step_aborts (Machine.with_interrupts 0x08 0x08) rfl
    (Or.inl (by decide))).1⟩

/-- C36 (counterexample). With IME set and only Serial pending, and with IME set and only
Joypad pending, the step does not complete and services nothing: it is an assertion failure. -/
theorem serial_and_joypad_are_not_serviced :
    (cpu_step_once (Machine.with_interrupts 0x08 0x08)).map (fun r => (r.1, r.2.cpu.pc, r.2.ime))
      = .error .assert_failed ∧
    (cpu_step_once (Machine.with_interrupts 0x10 0x10)).map (fun r => (r.1, r.2.cpu.pc, r.2.ime))
      = .error .assert_failed ∧
    (cpu_step 1 4 (Machine.with_interrupts 0x08 0x08)).map (fun r => (r.1, r.2.cpu.pc, r.2.ime))
      = .error .assert_failed := by
  decide!

/-! ## Totality of the decoder and of the memory map -/

/-- Every byte decodes to a handler whose length is 1, 2 or 3. -/
theorem cpu_decode_table :
    ∀ opcode < 256,
      (cpu_decode opcode).map (fun h => decide (1 ≤ h.length ∧ h.length ≤ 3)) = .ok true := by
  decide!

/-- Function `map_memory` returns a cell at every address outside 0xFEA0-0xFF7F: its last
branch is taken at no 16-bit address. -/
theorem map_memory_total (s : Machine) (a : Nat)
    (h : ¬ (0xFEA0 ≤ a % 65536 ∧ a % 65536 ≤ 0xFF7F)) : ∃ c, map_memory s a = .ok c := by
  have hlt : a % 65536 < 65536 := Nat.mod_lt _ (by decide)
  simp only [map_memory]
  generalize a % 65536 = x at h hlt
  by_cases c1 : x ≤ 0x3FFF
  · rw [if_pos c1]; exact ⟨_, rfl⟩
  rw [if_neg c1]
  by_cases c2 : 0x4000 ≤ x ∧ x ≤ 0x7FFF
  · rw [if_pos c2]; exact ⟨_, rfl⟩
  rw [if_neg c2]
  by_cases c3 : 0x8000 ≤ x ∧ x ≤ 0x9FFF
  · rw [if_pos c3]; exact ⟨_, rfl⟩
  rw [if_neg c3]
  by_cases c4 : 0xA000 ≤ x ∧ x ≤ 0xBFFF
  · rw [if_pos c4]; exact ⟨_, rfl⟩
  rw [if_neg c4]
  by_cases c5 : 0xC000 ≤ x ∧ x ≤ 0xCFFF
  · rw [if_pos c5]; exact ⟨_, rfl⟩
  rw [if_neg c5]
  by_cases c6 : 0xD000 ≤ x ∧ x ≤ 0xDFFF
  · rw [if_pos c6]; exact ⟨_, rfl⟩
  rw [if_neg c6]
  by_cases c7 : 0xE000 ≤ x ∧ x ≤ 0xFDFF
  · rw [if_pos c7]; exact ⟨_, rfl⟩
  rw [if_neg c7]
  by_cases c8 : 0xFE00 ≤ x ∧ x ≤ 0xFE9F
  · rw [if_pos c8]; exact ⟨_, rfl⟩
  have u1 : ¬ (0xFEA0 ≤ x ∧ x ≤ 0xFEFF) := by omega
  have u2 : ¬ (0xFF00 ≤ x ∧ x ≤ 0xFF7F) := by omega
  rw [if_neg c8, if_neg u1, if_neg u2]
  by_cases c9 : 0xFF80 ≤ x ∧ x ≤ 0xFFFE
  · rw [if_pos c9]; exact ⟨_, rfl⟩
  have c10 : x = 0xFFFF := by omega
  rw [if_neg c9, if_pos c10]; exact ⟨_, rfl⟩

/-- C37. Function `cpu_decode` returns a handler for every one of the 256 opcode values, and
the length of the handler is between 1 and 3.  At every address, `read_memory8` and
`write_memory8` either handle the access themselves (the unusable range 0xFEA0-0xFEFF, the
I/O range 0xFF00-0xFF7F, and for writes the MBC1 registers below 0x8000), or go through
`map_memory` at an address where it returns a cell: none of its three asserting branches is
reached. -/
theorem decode_and_memory_map_total :
    (∀ opcode : Nat, ∃ h, cpu_decode (opcode % 256) = .ok h ∧ 1 ≤ h.length ∧ h.length ≤ 3) ∧
    (∀ (s : Machine) (a : Nat),
      (0xFEA0 ≤ a % 65536 ∧ a % 65536 ≤ 0xFEFF ∧ read_memory8 s a = .ok 0xFF ∧
        ∀ v, write_memory8 s a v = .ok s) ∨
      (0xFF00 ≤ a % 65536 ∧ a % 65536 ≤ 0xFF7F ∧ read_memory8 s a = read_io8 s a ∧
        ∀ v, write_memory8 s a v = write_io8 s a v) ∨
      (∃ c, map_memory s a = .ok c ∧ read_memory8 s a = s.load c ∧
        ∀ v, a % 65536 ≤ 0x7FFF ∨ write_memory8 s a v = s.store (v % 256) c)) := by
  constructor
  · intro opcode
    have h := cpu_decode_table (opcode % 256) (Nat.mod_lt _ (by decide))
    cases hd : cpu_decode (opcode % 256) with
    | error e => rw [hd] at h; cases h
    | ok hdl =>
      rw [hd] at h
      have h2 : decide (1 ≤ hdl.length ∧ hdl.length ≤ 3) = true := Except.ok.inj h
      exact ⟨hdl, rfl, of_decide_eq_true h2⟩
  · intro s a
    by_cases h1 : 0xFEA0 ≤ a % 65536 ∧ a % 65536 ≤ 0xFEFF
    · left
      refine ⟨h1.1, h1.2, ?_, fun v => ?_⟩
      · unfold read_memory8
        simp only []
        rw [if_pos h1]
      · have n0 : ¬ (0xFF00 ≤ a % 65536 ∧ a % 65536 ≤ 0xFF7F) := by omega
        have n1 : ¬ a % 65536 ≤ 0x1FFF := by omega
        have n2 : ¬ (0x2000 ≤ a % 65536 ∧ a % 65536 ≤ 0x3FFF) := by omega
        have n3 : ¬ (0x4000 ≤ a % 65536 ∧ a % 65536 ≤ 0x5FFF) := by omega
        have n4 : ¬ (0x6000 ≤ a % 65536 ∧ a % 65536 ≤ 0x7FFF) := by omega
        unfold write_memory8
        rw [if_neg n0]
        unfold write_memory8_mapped
        simp only []
        rw [if_neg n1, if_neg n2, if_neg n3, if_neg n4, if_pos h1]
    · by_cases h2 : 0xFF00 ≤ a % 65536 ∧ a % 65536 ≤ 0xFF7F
      · right; left
        refine ⟨h2.1, h2.2, ?_, fun v => ?_⟩
        · unfold read_memory8
          simp only []
          rw [if_neg h1, if_pos h2, read_io8_mod]
        · unfold write_memory8
          rw [if_pos h2]
      · right; right
        obtain ⟨c, hc⟩ := map_memory_total s a (by omega)
        have hm : map_memory s (a % 65536) = map_memory s a := by
          simp only [map_memory, Nat.mod_mod]
        refine ⟨c, hc, ?_, fun v => ?_⟩
        · unfold read_memory8
          simp only []
          rw [if_neg h1, if_neg h2, hm, hc]
          rfl
        · by_cases h3 : a % 65536 ≤ 0x7FFF
          · exact Or.inl h3
          · right
            have n1 : ¬ a % 65536 ≤ 0x1FFF := by omega
            have n2 : ¬ (0x2000 ≤ a % 65536 ∧ a % 65536 ≤ 0x3FFF) := by omega
            have n3 : ¬ (0x4000 ≤ a % 65536 ∧ a % 65536 ≤ 0x5FFF) := by omega
            have n4 : ¬ (0x6000 ≤ a % 65536 ∧ a % 65536 ≤ 0x7FFF) := by omega
            unfold write_memory8
            rw [if_neg h2]
            unfold write_memory8_mapped
            simp only []
            rw [if_neg n1, if_neg n2, if_neg n3, if_neg n4, if_neg h1, hm, hc]
            rfl

/-! ## Termination of `cpu_step` -/

/-- A stuck machine stays stuck: the step returns 0 cycles. -/
theorem stuck_step (s : Machine) (h : s.stuck) :
    ∃ s', cpu_step_once s = .ok (0, s') ∧ s'.stuck := by
  obtain ⟨hint, hpc, opcode, hop, hdec⟩ := h
  obtain ⟨s0, hstep, hcpu, hime, hram, hio, hin, hrom, hsize⟩ := cpu_step_once_no_interrupt s hint
  have hpc0 : s0.cpu.pc = s.cpu.pc := by rw [hcpu]
  have hop0 : read_memory8 s0 s0.cpu.pc = .ok opcode := by
    rw [hpc0, read_memory8_congr s s0 hram hio hin hrom hsize, hop]
  have hie : s0.ie = s.ie := hram.2.2.2.2.2.2.2.1
  refine ⟨s0, ?_, ?_, ?_, opcode, hop0, hdec⟩
  · rw [hstep]
    exact cpu_fetch_execute_undefined s0 opcode hop0 hdec (by rw [hpc0]; exact hpc)
  · intro h0
    rw [hie, hio]
    exact hint (hime ▸ h0)
  · rw [hpc0]; exact hpc

/-- From a stuck machine, `cpu_step` with a positive budget exhausts any number of iterations. -/
theorem cpu_step_stuck (fuel : Nat) :
    ∀ (s : Machine) (m : Int), 0 < m → s.stuck → cpu_step fuel m s = .error .out_of_fuel := by
  induction fuel with
  | zero =>
    intro s m hm _
    unfold cpu_step
    rw [if_pos hm]
  | succ n ih =>
    intro s m hm hs
    obtain ⟨s', hstep, hs'⟩ := stuck_step s hs
    unfold cpu_step
    rw [if_pos hm]
    simp only [hstep, ok_bind]
    have e : m - ((0 : Nat) : Int) = m := by simp
    rw [e]
    exact ih s' m hm hs'

/-- With enough iterations, a loop whose every step takes at least one cycle ends. -/
theorem cpu_step_returns (P : Machine → Prop)
    (hP : ∀ t, P t → ∃ c t', cpu_step_once t = .ok (c, t') ∧ 0 < c ∧ P t') (k : Nat) :
    ∀ (s : Machine) (m : Int), P s → m ≤ k →
      ∃ r s', r ≤ 0 ∧ P s' ∧ ∀ fuel, k ≤ fuel → cpu_step fuel m s = .ok (r, s') := by
  induction k with
  | zero =>
    intro s m hs hm
    refine ⟨m, s, by omega, hs, fun fuel _ => ?_⟩
    have n0 : ¬ m > 0 := by omega
    unfold cpu_step
    rw [if_neg n0]
  | succ k ih =>
    intro s m hs hm
    by_cases hpos : m > 0
    · obtain ⟨c, t', hstep, hc, ht'⟩ := hP s hs
      obtain ⟨r, s', hr, hs', hrun⟩ := ih t' (m - c) ht' (by omega)
      refine ⟨r, s', hr, hs', fun fuel hfuel => ?_⟩
      obtain ⟨f, rfl⟩ : ∃ f, fuel = f + 1 := ⟨fuel - 1, by omega⟩
      unfold cpu_step
      rw [if_pos hpos]
      simp only [hstep, ok_bind]
      exact hrun f (by omega)
    · refine ⟨m, s, by omega, hs, fun fuel _ => ?_⟩
      unfold cpu_step
      rw [if_neg hpos]

/-- The step of the one-instruction loop: 12 cycles, and the same state again. -/
theorem jr_self_step : cpu_step_once Machine.jr_self = .ok (12, Machine.jr_self) := by
  set_option maxRecDepth 100000 in rfl

/-- C38 (amended). Let `P` hold of the machine state and be kept by every instruction step,
each step from a state of `P` returning at least one cycle. Then for every positive cycle
budget `m`, `cpu_step(m)` terminates: after at most `m` instruction steps the remaining
budget is <= 0 and the function returns that non-positive remainder. -/
theorem cpu_step_terminates (P : Machine → Prop)
    (hP : ∀ t, P t → ∃ c t', cpu_step_once t = .ok (c, t') ∧ 0 < c ∧ P t')
    (s : Machine) (hs : P s) (m : Int) (hm : 0 < m) :
    ∃ r s', r ≤ 0 ∧ P s' ∧ ∀ fuel, m.toNat ≤ fuel → cpu_step fuel m s = .ok (r, s') :=
  cpu_step_returns P hP m.toNat s m hs (by omega)

theorem cpu_step_terminates_witness :
    (∀ t, t = Machine.jr_self →
      ∃ c t', cpu_step_once t = .ok (c, t') ∧ 0 < c ∧ t' = Machine.jr_self) ∧
    (∃ r s', r ≤ 0 ∧ s' = Machine.jr_self ∧
      ∀ fuel, (30 : Int).toNat ≤ fuel → cpu_step fuel 30 Machine.jr_self = .ok (r, s')) :=
  ⟨fun t ht => by rw [ht]; exact ⟨12, Machine.jr_self, jr_self_step, by decide, rfl⟩,
   cpu_step_terminates (fun t => t = Machine.jr_self)
     (fun t ht => by rw [ht]; exact ⟨12, Machine.jr_self, jr_self_step, by decide, rfl⟩)
     Machine.jr_self rfl 30 (by decide)⟩

/-- C38 (counterexample). With the undefined opcode 0xD3 at PC = 0x0100 and no interrupt
pending, `cpu_step(1)` returns for no number of iterations, and neither does
`gameboy_step_once`: the first batch of line 0 never ends. -/
theorem undefined_opcode_never_returns :
    read_memory8 Machine.undefined_at_pc Machine.undefined_at_pc.cpu.pc = .ok 0xD3 ∧
    (¬ ∃ fuel r, cpu_step fuel 1 Machine.undefined_at_pc = .ok r) ∧
    (¬ ∃ fuel r, gameboy_step_once fuel Machine.undefined_at_pc = .ok r) := by
  have hs : Machine.undefined_at_pc.stuck :=
    ⟨fun _ => by decide, by decide, 0xD3, by decide, by decide⟩
  refine ⟨by decide, ?_, ?_⟩
  · rintro ⟨fuel, r, hr⟩
    rw [cpu_step_stuck fuel _ 1 (by decide) hs] at hr
    cases hr
  · rintro ⟨fuel, r, hr⟩
    have h1 : (lcd_before_mode_2_batch Machine.undefined_at_pc 0).map
        (fun t => (t.ime, t.ie, t.cpu.pc)) = .ok (true, 0, 0x0100) := by decide!
    have h2 : (lcd_before_mode_2_batch Machine.undefined_at_pc 0).bind
        (fun t => read_memory8 t 0x0100) = .ok 0xD3 := by decide!
    cases hb : lcd_before_mode_2_batch Machine.undefined_at_pc 0 with
    | error e => rw [hb] at h1; cases h1
    | ok t =>
      rw [hb] at h1 h2
      have h3 : (t.ime, t.ie, t.cpu.pc) = (true, 0, 0x0100) := Except.ok.inj h1
      have hie : t.ie = 0 := congrArg (fun p => p.2.1) h3
      have hpc : t.cpu.pc = 0x0100 := congrArg (fun p => p.2.2) h3
      have ht : t.stuck := by
        refine ⟨fun _ => ?_, by rw [hpc]; decide, 0xD3, by rw [hpc]; exact h2, by decide⟩
        rw [hie]
        simp
      unfold gameboy_step_once gameboy_lines at hr
      rw [gameboy_line_visible fuel 0 0 _ (by decide), hb] at hr
      rw [bind_ok, cpu_step_stuck fuel t (80 + 0) (by decide) ht] at hr
      cases hr

/-! ## BIT on (HL) -/

/-- C39 (the code at two inputs of the claim). `BIT 0,(HL)` writes the byte it has read back
through `write_x8`. With HL = 0x2000 and 0x05 in the ROM there, the step takes 8 cycles and
the ROM bank register goes from 0 to 5; with HL = 0xFF46 holding 0xC0, the step runs a DMA
transfer and OAM byte 0 goes from 0xEE to the byte 0x03 of work RAM. -/
theorem bit_hl_writes_back :
    Machine.bit_hl_rom_bank.rom_bank_number = 0 ∧
    read_memory8 Machine.bit_hl_rom_bank 0x2000 = .ok 0x05 ∧
    (cpu_step_once Machine.bit_hl_rom_bank).map (fun r => (r.1, r.2.rom_bank_number)) = .ok (8, 5) ∧
    read_memory8 Machine.bit_hl_dma 0xFF46 = .ok 0xC0 ∧
    read_memory8 Machine.bit_hl_dma 0xFE00 = .ok 0xEE ∧
    (cpu_step_once Machine.bit_hl_dma).bind (fun r => read_memory8 r.2 0xFE00) = .ok 0x03 := by
  decide!

/-! ## The stack: push then pop, CALL then RET -/

/-- A push onto a stack in work RAM or high RAM: only SP changes among the registers, and
the word is read back at the new SP. -/
theorem push16_read_back (s : Machine) (w : Nat)
    (h0 : is_wram_or_hram ((s.cpu.sp % 65536 + 65536 - 2) % 65536))
    (h1 : is_wram_or_hram ((s.cpu.sp % 65536 + 65536 - 1) % 65536)) :
    ∃ s1, push16 s w = .ok s1 ∧
      s1.cpu = { s.cpu with sp := (s.cpu.sp % 65536 + 65536 - 2) % 65536 } ∧
      read_memory16 s1 ((s.cpu.sp % 65536 + 65536 - 2) % 65536) = .ok (w % 65536) := by
  obtain ⟨s1, hp, hf, hr0, hr1⟩ :=
    push16_ram s w (ram_at_of_wram_or_hram s _ h0) (ram_at_of_wram_or_hram s _ h1)
  have hw := read_memory16_of_bytes s1 _ _ _ (Nat.mod_lt _ (by decide)) (Nat.mod_lt _ (by decide))
    hr0 hr1
  have e1 : w % 65536 / 256 % 256 * 256 + w % 65536 % 256 = w % 65536 := by omega
  rw [e1] at hw
  exact ⟨s1, hp, hf.1, hw⟩

/-- A pop depends on the registers through SP only. -/
theorem pop16_of_read (t : Machine) (w : Nat) (h : read_memory16 t t.cpu.sp = .ok w) :
    pop16 t = .ok (w, { t with cpu := { t.cpu with sp := (t.cpu.sp + 2) % 65536 } }) := by
  unfold pop16
  rw [h, ok_bind]

theorem a16_of_bytes (lo hi : Nat) (hlo : lo < 256) (hhi : hi < 256) :
    ((hi <<< 8) ||| lo) % 65536 = hi * 256 + lo := by
  have h := word_of_bytes lo hi hlo hhi
  simp only [Nat.zero_or, Nat.shiftLeft_zero] at h
  rw [Nat.lor_comm]
  exact h

theorem cpu_fetch_execute_call (s : Machine) (lo hi : Nat)
    (hop : read_memory8 s s.cpu.pc = .ok 0xCD) (hlo : read_memory8 s (s.cpu.pc + 1) = .ok lo)
    (hhi : read_memory8 s (s.cpu.pc + 2) = .ok hi) :
    cpu_fetch_execute s
      = emulate_call (upd (upd (upd (fun _ => 0) 0 0xCD) 1 lo) 2 hi) (s.set_pc (s.cpu.pc + 3)) := by
  unfold cpu_fetch_execute
  rw [hop, ok_bind, show cpu_decode 0xCD = .ok Handler.call from by decide, ok_bind]
  simp only [Handler.length, Nat.add_one_sub_one, read_code, hlo, hhi, ok_bind, Handler.emulate]

theorem cpu_fetch_execute_ret (s : Machine) (hop : read_memory8 s s.cpu.pc = .ok 0xC9) :
    cpu_fetch_execute s = emulate_ret (upd (fun _ => 0) 0 0xC9) (s.set_pc (s.cpu.pc + 1)) := by
  unfold cpu_fetch_execute
  rw [hop, ok_bind, show cpu_decode 0xC9 = .ok Handler.ret from by decide, ok_bind]
  simp only [Handler.length, Nat.sub_self, read_code, ok_bind, Handler.emulate]

/-- C40. For every 16-bit value `w` and every SP such that `(SP - 2) mod 2^16` and
`(SP - 1) mod 2^16` lie in work RAM or high RAM, `push16(w)` followed by `pop16()` returns
`w` and restores SP. Consequently the instruction `CALL nn` (0xCD lo hi) at PC takes 24
cycles and sets PC to `nn`, and if the byte at `nn` is then `RET` (0xC9), that instruction
takes 16 cycles and resumes at `PC + 3`, the address of the instruction after the CALL, with
SP as it was before the CALL. -/
theorem call_then_ret (s : Machine) (w : Nat)
    (h0 : is_wram_or_hram ((s.cpu.sp % 65536 + 65536 - 2) % 65536))
    (h1 : is_wram_or_hram ((s.cpu.sp % 65536 + 65536 - 1) % 65536)) :
    (∃ s1 s2, push16 s w = .ok s1 ∧ pop16 s1 = .ok (w % 65536, s2) ∧
      s2.cpu.sp = s.cpu.sp % 65536) ∧
    (∀ lo hi, read_memory8 s s.cpu.pc = .ok 0xCD → read_memory8 s (s.cpu.pc + 1) = .ok lo →
      read_memory8 s (s.cpu.pc + 2) = .ok hi →
      ∃ t1, cpu_fetch_execute s = .ok (24, t1) ∧ t1.cpu.pc = hi * 256 + lo ∧
        (read_memory8 t1 t1.cpu.pc = .ok 0xC9 →
          ∃ t2, cpu_fetch_execute t1 = .ok (16, t2) ∧ t2.cpu.pc = (s.cpu.pc + 3) % 65536 ∧
            t2.cpu.sp = s.cpu.sp % 65536)) := by
  have e2 : ((s.cpu.sp % 65536 + 65536 - 2) % 65536 + 2) % 65536 = s.cpu.sp % 65536 := by omega
  constructor
  · obtain ⟨s1, hp, hcpu, hw⟩ := push16_read_back s w h0 h1
    have hsp : s1.cpu.sp = (s.cpu.sp % 65536 + 65536 - 2) % 65536 := by rw [hcpu]
    rw [← hsp] at hw
    refine ⟨s1, _, hp, pop16_of_read s1 _ hw, ?_⟩
    show (s1.cpu.sp + 2) % 65536 = _
    rw [hsp, e2]
  · intro lo hi hop hlo hhi
    have blo : lo < 256 := read_memory8_lt s _ _ hlo
    have bhi : hi < 256 := read_memory8_lt s _ _ hhi
    obtain ⟨s1, hp, hcpu, hw⟩ :=
      push16_read_back (s.set_pc (s.cpu.pc + 3)) (s.set_pc (s.cpu.pc + 3)).cpu.pc h0 h1
    have hsp : s1.cpu.sp = (s.cpu.sp % 65536 + 65536 - 2) % 65536 := by rw [hcpu]; rfl
    have ha16 : decode_a16 (upd (upd (upd (fun _ => 0) 0 0xCD) 1 lo) 2 hi) = hi * 256 + lo :=
      a16_of_bytes lo hi blo bhi
    have hnn : (hi * 256 + lo) % 65536 = hi * 256 + lo := by omega
    refine ⟨{ s1 with cpu := { s1.cpu with pc := hi * 256 + lo } }, ?_, rfl, fun hret => ?_⟩
    · rw [cpu_fetch_execute_call s lo hi hop hlo hhi]
      unfold emulate_call call
      rw [hp, ok_bind, ok_bind, ha16, hnn]
    · rw [cpu_fetch_execute_ret _ hret]
      have hr : read_memory16
          (Machine.set_pc { s1 with cpu := { s1.cpu with pc := hi * 256 + lo } } (hi * 256 + lo + 1))
          (Machine.set_pc { s1 with cpu := { s1.cpu with pc := hi * 256 + lo } }
            (hi * 256 + lo + 1)).cpu.sp
          = .ok ((s.cpu.pc + 3) % 65536) := by
        have e3 : (s.set_pc (s.cpu.pc + 3)).cpu.pc % 65536 = (s.cpu.pc + 3) % 65536 :=
          Nat.mod_mod _ _
        rw [e3] at hw
        rw [← hw]
        exact (read_memory16_congr s1 _ (fun a => read_memory8_cpu s1 _ a) _).trans
          (congrArg (read_memory16 s1) hsp)
      unfold emulate_ret
      rw [pop16_of_read _ _ hr]
      refine ⟨_, rfl, ?_, ?_⟩
      · show (s.cpu.pc + 3) % 65536 % 65536 = _
        rw [Nat.mod_mod]
      · show (s1.cpu.sp + 2) % 65536 = _
        rw [hsp, e2]

theorem call_then_ret_witness :
    (is_wram_or_hram ((Machine.call_ret.cpu.sp % 65536 + 65536 - 2) % 65536) ∧
      is_wram_or_hram ((Machine.call_ret.cpu.sp % 65536 + 65536 - 1) % 65536)) ∧
    ((∃ s1 s2, push16 Machine.call_ret 0x1234 = .ok s1 ∧ pop16 s1 = .ok (0x1234 % 65536, s2) ∧
      s2.cpu.sp = Machine.call_ret.cpu.sp % 65536) ∧
    (∀ lo hi, read_memory8 Machine.call_ret Machine.call_ret.cpu.pc = .ok 0xCD →
      read_memory8 Machine.call_ret (Machine.call_ret.cpu.pc + 1) = .ok lo →
      read_memory8 Machine.call_ret (Machine.call_ret.cpu.pc + 2) = .ok hi →
      ∃ t1, cpu_fetch_execute Machine.call_ret = .ok (24, t1) ∧ t1.cpu.pc = hi * 256 + lo ∧
        (read_memory8 t1 t1.cpu.pc = .ok 0xC9 →
          ∃ t2, cpu_fetch_execute t1 = .ok (16, t2) ∧
            t2.cpu.pc = (Machine.call_ret.cpu.pc + 3) % 65536 ∧
            t2.cpu.sp = Machine.call_ret.cpu.sp % 65536))) :=
  ⟨⟨by decide, by decide⟩, call_then_ret Machine.call_ret 0x1234 (by decide) (by decide)⟩

/-! ## Rendering: one tile row -/

theorem tile_index_le (low high bit : Nat) : tile_index low high bit ≤ 3 := by
  unfold tile_index
  have h1 : (high >>> bit) &&& 1 ≤ 1 := Nat.and_le_right
  have h2 : (low >>> bit) &&& 1 ≤ 1 := Nat.and_le_right
  generalize (high >>> bit) &&& 1 = a at h1
  generalize (low >>> bit) &&& 1 = b at h2
  interval_cases a <;> interval_cases b <;> decide

theorem u2_to_u8_shade (P i : Nat) : u2_to_u8 (3 - ((P >>> (2 * i)) &&& 3)) = .ok (shade P i) := by
  have h : ∀ v ≤ 3, u2_to_u8 (3 - v) = .ok (0x55 * (3 - v)) := by decide
  exact h _ Nat.and_le_right

/-- The colour of a pixel of non-zero index, as `draw_tile_line` computes it. -/
theorem pixel_colour (s : Machine) (preg P i : Nat) (hi : i ≤ 3) (hP : read_io8 s preg = .ok P) :
    (get_palette_color s preg i).bind u2_to_u8 = .ok (shade P i) := by
  unfold get_palette_color
  rw [if_neg (by omega), hP, ok_bind]
  exact u2_to_u8_shade P i

/-- One iteration of the loop of `draw_tile_line`. -/
theorem draw_tile_pixels_succ (w h : Nat) (x y : Int) (low high preg : Nat) (fx : Bool)
    (n k : Nat) (S : Machine) :
    draw_tile_pixels w h x y low high preg fx (n + 1) k S =
      if tile_hit w h x y low high fx k then
        (get_palette_color S preg (tile_index low high (tile_bit fx k))).bind (fun color =>
          (u2_to_u8 color).bind (fun byte =>
            draw_tile_pixels w h x y low high preg fx n (k + 1)
              { S with gameboy_framebuffer := upd S.gameboy_framebuffer (tile_pos w x y k) byte }))
      else draw_tile_pixels w h x y low high preg fx n (k + 1) S := by
  have e : tile_index low high (tile_bit fx k)
      = ((high >>> (if fx = true then k else 7 - k)) &&& 1) <<< 1 |||
        (low >>> (if fx = true then k else 7 - k)) &&& 1 := rfl
  rw [draw_tile_pixels]
  simp only [tile_hit, tile_pos]
  rw [e]
  generalize ((high >>> (if fx = true then k else 7 - k)) &&& 1) <<< 1 |||
        (low >>> (if fx = true then k else 7 - k)) &&& 1 = i
  by_cases h0 : i = 0
  · rw [if_pos h0, if_neg (fun hh => hh.1 h0)]
    rfl
  rw [if_neg h0]
  by_cases h1 : x + (k : Int) < 0
  · rw [if_pos h1, if_neg (fun hh => by omega)]
    rfl
  rw [if_neg h1]
  by_cases h2 : y < 0
  · rw [if_pos h2, if_neg (fun hh => by omega)]
    rfl
  rw [if_neg h2]
  by_cases h3 : x + (k : Int) ≥ w
  · rw [if_pos h3, if_neg (fun hh => by omega)]
    rfl
  rw [if_neg h3]
  by_cases h4 : y ≥ h
  · rw [if_pos h4, if_neg (fun hh => by omega)]
    rfl
  rw [if_neg h4, if_pos ⟨h0, by omega, by omega, by omega, by omega⟩]
  rfl

/-- The loop of `draw_tile_line`: the pixels of non-zero index inside the image receive
their colour, every other byte of the framebuffer is kept, and nothing else changes. -/
theorem draw_tile_pixels_run (s : Machine) (w h : Nat) (x y : Int) (low high preg P : Nat)
    (fx : Bool) (hP : read_io8 s preg = .ok P) :
    ∀ (n k : Nat) (F : Nat → Nat), ∃ F',
      draw_tile_pixels w h x y low high preg fx n k { s with gameboy_framebuffer := F }
        = .ok { s with gameboy_framebuffer := F' } ∧
      (∀ c, k ≤ c → c < k + n → tile_hit w h x y low high fx c →
        F' (tile_pos w x y c) = shade P (tile_index low high (tile_bit fx c))) ∧
      (∀ j, (∀ c, k ≤ c → c < k + n → tile_hit w h x y low high fx c → j ≠ tile_pos w x y c) →
        F' j = F j) := by
  intro n
  induction n with
  | zero =>
    intro k F
    exact ⟨F, rfl, fun c h1 h2 => by omega, fun j _ => rfl⟩
  | succ n ih =>
    intro k F
    by_cases hit : tile_hit w h x y low high fx k
    · obtain ⟨hidx, hx0, hy0, hxw, hyh⟩ := hit
      obtain ⟨F', hrun, hset, hkeep⟩ :=
        ih (k + 1) (upd F (tile_pos w x y k) (shade P (tile_index low high (tile_bit fx k))))
      have hcol := pixel_colour ({ s with gameboy_framebuffer := F } : Machine) preg P _
        (tile_index_le low high (tile_bit fx k)) hP
      have hpos : ∀ c, k + 1 ≤ c → tile_hit w h x y low high fx c →
          tile_pos w x y k ≠ tile_pos w x y c := by
        intro c hc hh
        obtain ⟨-, hx0', -, -, -⟩ := hh
        unfold tile_pos
        omega
      refine ⟨F', ?_, ?_, ?_⟩
      · rw [draw_tile_pixels_succ, if_pos ⟨hidx, hx0, hy0, hxw, hyh⟩]
        cases hg : get_palette_color ({ s with gameboy_framebuffer := F } : Machine) preg
            (tile_index low high (tile_bit fx k)) with
        | error e => rw [hg] at hcol; cases hcol
        | ok color =>
          rw [hg, bind_ok] at hcol
          rw [bind_ok, hcol, bind_ok]
          exact hrun
      · intro c h1 h2 hc
        by_cases e : c = k
        · rw [e, hkeep _ (fun c' h1' _ hc' => hpos c' h1' hc')]
          unfold upd
          rw [if_pos rfl]
        · exact hset c (by omega) (by omega) hc
      · intro j hj
        rw [hkeep j (fun c h1 h2 hc => hj c (by omega) (by omega) hc)]
        unfold upd
        rw [if_neg (hj k (le_refl k) (by omega) ⟨hidx, hx0, hy0, hxw, hyh⟩)]
    · obtain ⟨F', hrun, hset, hkeep⟩ := ih (k + 1) F
      refine ⟨F', ?_, ?_, ?_⟩
      · rw [draw_tile_pixels_succ, if_neg hit]
        exact hrun
      · intro c h1 h2 hc
        have : k ≠ c := fun e => hit (e ▸ hc)
        exact hset c (by omega) (by omega) hc
      · intro j hj
        rw [hkeep j (fun c h1 h2 hc => hj c (by omega) (by omega) hc)]

/-- A tile row outside the tile draws nothing. -/
theorem draw_tile_line_skip (S : Machine) (w h : Nat) (x y : Int) (T : Nat) (dy : Int) (preg : Nat)
    (fx fy : Bool) (hdy : dy < 0 ∨ 8 ≤ dy) :
    draw_tile_line S w h x y T 0 dy preg fx fy = .ok S := by
  unfold draw_tile_line
  rw [if_neg (by decide)]
  by_cases h0 : dy < 0
  · rw [if_pos h0]
  · rw [if_neg h0, if_pos (by omega)]

/-- Row `r` of the tile at `T`, drawn at `(x, y)`: the pixels of non-zero index inside the
image receive their colour; every other framebuffer byte and the rest of the state is kept. -/
theorem draw_tile_line_run (s : Machine) (w h : Nat) (x y : Int) (T r preg : Nat) (fx fy : Bool)
    (low high P : Nat) (hr : r < 8)
    (hlow : read_memory8 s (T % 65536 + 2 * r) = .ok low)
    (hhigh : read_memory8 s (T % 65536 + 2 * r + 1) = .ok high)
    (hP : read_io8 s preg = .ok P) (F : Nat → Nat) :
    ∃ F',
      draw_tile_line { s with gameboy_framebuffer := F } w h x y T 0
          (if fy then 7 - (r : Int) else r) preg fx fy
        = .ok { s with gameboy_framebuffer := F' } ∧
      (∀ c, c < 8 → tile_hit w h x y low high fx c →
        F' (tile_pos w x y c) = shade P (tile_index low high (tile_bit fx c))) ∧
      (∀ j, (∀ c, c < 8 → tile_hit w h x y low high fx c → j ≠ tile_pos w x y c) →
        F' j = F j) := by
  obtain ⟨F', hrun, hset, hkeep⟩ := draw_tile_pixels_run s w h x y low high preg P fx hP 8 0 F
  refine ⟨F', ?_, fun c hc => hset c (Nat.zero_le c) (by omega),
    fun j hj => hkeep j (fun c _ hc => hj c (by omega))⟩
  have hty : (if fy = true then 7 - (if fy = true then 7 - (r : Int) else r)
      else (if fy = true then 7 - (r : Int) else r)) = (r : Int) := by
    cases fy <;> simp
  have hoff : ((r : Int) * 2).toNat = 2 * r := by omega
  have hlow' : read_memory8 ({ s with gameboy_framebuffer := F } : Machine) (T % 65536 + 2 * r + 0)
      = .ok low := hlow
  have hhigh' : read_memory8 ({ s with gameboy_framebuffer := F } : Machine) (T % 65536 + 2 * r + 1)
      = .ok high := hhigh
  have n1 : ¬ (if fy = true then 7 - (r : Int) else r) < 0 := by split_ifs <;> omega
  have n2 : ¬ (if fy = true then 7 - (r : Int) else r) ≥ 8 := by split_ifs <;> omega
  unfold draw_tile_line
  rw [if_neg (by decide), if_neg n1, if_neg n2]
  simp only [hty, hoff]
  rw [hlow', ok_bind, hhigh', ok_bind]
  exact hrun

/-- C31. For a tile at address `T`, a row `r` in 0..7 whose bytes at `T + 2r` and
`T + 2r + 1` are `low` and `high`, and a palette register that reads `P`, `draw_tile_line`
at image position `(x, y)` returns, and changes the framebuffer only: without X-flip the
byte at column `x + c` of row `y` (for each `c` in 0..7 inside the image) is the colour of
palette index `(((high >> (7 - c)) & 1) << 1) | ((low >> (7 - c)) & 1)`; with X-flip it is
the colour of the index of bit `c`, that of tile column `7 - c`; pixels whose index is 0
and every byte outside these columns are left untouched. -/
theorem draw_tile_line_pixels (s : Machine) (w h : Nat) (x y : Int) (T r preg : Nat)
    (fx fy : Bool) (low high P : Nat) (hr : r < 8)
    (hlow : read_memory8 s (T % 65536 + 2 * r) = .ok low)
    (hhigh : read_memory8 s (T % 65536 + 2 * r + 1) = .ok high)
    (hP : read_io8 s preg = .ok P) :
    ∃ s', draw_tile_line s w h x y T 0 (if fy then 7 - (r : Int) else r) preg fx fy = .ok s' ∧
      s' = { s with gameboy_framebuffer := s'.gameboy_framebuffer } ∧
      (∀ c : Nat, c < 8 → 0 ≤ x + c → x + c < w → 0 ≤ y → y < h →
        (((high >>> (if fx then c else 7 - c)) &&& 1) <<< 1) |||
            ((low >>> (if fx then c else 7 - c)) &&& 1) ≠ 0 →
        s'.gameboy_framebuffer (y.toNat * w + (x + c).toNat)
          = 0x55 * (3 - ((P >>> (2 * ((((high >>> (if fx then c else 7 - c)) &&& 1) <<< 1) |||
              ((low >>> (if fx then c else 7 - c)) &&& 1)))) &&& 3))) ∧
      (∀ j, (∀ c : Nat, c < 8 → 0 ≤ x + c → x + c < w → 0 ≤ y → y < h →
          (((high >>> (if fx then c else 7 - c)) &&& 1) <<< 1) |||
            ((low >>> (if fx then c else 7 - c)) &&& 1) ≠ 0 →
          j ≠ y.toNat * w + (x + c).toNat) →
        s'.gameboy_framebuffer j = s.gameboy_framebuffer j) := by
  obtain ⟨F', hrun, hset, hkeep⟩ :=
    draw_tile_line_run s w h x y T r preg fx fy low high P hr hlow hhigh hP s.gameboy_framebuffer
  refine ⟨_, hrun, rfl, ?_, ?_⟩
  · intro c hc a1 a2 a3 a4 hi
    exact hset c hc ⟨hi, a1, a3, a2, a4⟩
  · intro j hj
    exact hkeep j (fun c hc hh => hj c hc hh.2.1 hh.2.2.2.1 hh.2.2.1 hh.2.2.2.2 hh.1)

theorem draw_tile_line_pixels_witness :
    ((0 : Nat) < 8 ∧ read_memory8 Machine.one_sprite (0x8010 % 65536 + 2 * 0) = .ok 0xF0 ∧
      read_memory8 Machine.one_sprite (0x8010 % 65536 + 2 * 0 + 1) = .ok 0xCC ∧
      read_io8 Machine.one_sprite OBP0 = .ok 0xE4) ∧
    (draw_tile_line Machine.one_sprite 160 144 0 0 0x8010 0 0 OBP0 true false).map
      (fun s' => (List.range 9).map s'.gameboy_framebuffer)
      = .ok [0x33, 0x33, 0x55, 0x55, 0xAA, 0xAA, 0x00, 0x00, 0x33] ∧
    ∃ s', draw_tile_line Machine.one_sprite 160 144 0 0 0x8010 0
        (if false then 7 - ((0 : Nat) : Int) else (0 : Nat)) OBP0 true false = .ok s' ∧
      s' = { Machine.one_sprite with gameboy_framebuffer := s'.gameboy_framebuffer } :=
  ⟨⟨by decide, by decide, by decide, by decide⟩, by decide!,
   (draw_tile_line_pixels Machine.one_sprite 160 144 0 0 0x8010 0 OBP0 true false 0xF0 0xCC 0xE4
      (by decide) (by decide) (by decide) (by decide)).imp (fun _ h => ⟨h.1, h.2.1⟩)⟩

/-! ## Rendering: one pixel of the line -/

/-- A read of video RAM returns the byte of `vram_memory`. -/
theorem read_memory8_vram (s : Machine) (a : Nat) (h0 : 0x8000 ≤ a) (h1 : a ≤ 0x9FFF) :
    read_memory8 s a = .ok (s.vram_memory (a - 0x8000) % 256) := by
  have ha : a % 65536 = a := Nat.mod_eq_of_lt (by omega)
  have n1 : ¬ (0xFEA0 ≤ a ∧ a ≤ 0xFEFF) := by omega
  have n2 : ¬ (0xFF00 ≤ a ∧ a ≤ 0xFF7F) := by omega
  have n3 : ¬ a ≤ 0x3FFF := by omega
  have n4 : ¬ (0x4000 ≤ a ∧ a ≤ 0x7FFF) := by omega
  have hlt : a - 0x8000 < 8 * 1024 := by omega
  simp only [read_memory8, map_memory, ha, Nat.mod_mod]
  rw [if_neg n1, if_neg n2, if_neg n3, if_neg n4, if_pos ⟨h0, h1⟩, bind_ok]
  simp only [Machine.load]
  rw [if_pos hlt]

/-- A read of OAM returns the byte of `oam_memory`. -/
theorem read_memory8_oam_byte (s : Machine) (a : Nat) (h0 : 0xFE00 ≤ a) (h1 : a ≤ 0xFE9F) :
    read_memory8 s a = .ok (s.oam_memory (a - 0xFE00) % 256) := by
  have ha : a % 65536 = a := Nat.mod_eq_of_lt (by omega)
  have n1 : ¬ (0xFEA0 ≤ a ∧ a ≤ 0xFEFF) := by omega
  have n2 : ¬ (0xFF00 ≤ a ∧ a ≤ 0xFF7F) := by omega
  have n3 : ¬ a ≤ 0x3FFF := by omega
  have n4 : ¬ (0x4000 ≤ a ∧ a ≤ 0x7FFF) := by omega
  have n5 : ¬ (0x8000 ≤ a ∧ a ≤ 0x9FFF) := by omega
  have n6 : ¬ (0xA000 ≤ a ∧ a ≤ 0xBFFF) := by omega
  have n7 : ¬ (0xC000 ≤ a ∧ a ≤ 0xCFFF) := by omega
  have n8 : ¬ (0xD000 ≤ a ∧ a ≤ 0xDFFF) := by omega
  have n9 : ¬ (0xE000 ≤ a ∧ a ≤ 0xFDFF) := by omega
  have hlt : a - 0xFE00 < 0xA0 := by omega
  simp only [read_memory8, map_memory, ha, Nat.mod_mod]
  rw [if_neg n1, if_neg n2, if_neg n3, if_neg n4, if_neg n5, if_neg n6, if_neg n7, if_neg n8,
    if_neg n9, if_pos ⟨h0, h1⟩, bind_ok]
  simp only [Machine.load]
  rw [if_pos hlt]

/-- What a tile row drawn at `(x, y)` does to the pixel of column `X` of row `y`: the pixel
receives the colour of the tile column `X - x` when that column exists and its index is not
zero, and is kept otherwise. -/
theorem draw_tile_line_at (s : Machine) (w h : Nat) (x y : Int) (T r preg : Nat) (fx fy : Bool)
    (low high P : Nat) (hr : r < 8)
    (hlow : read_memory8 s (T % 65536 + 2 * r) = .ok low)
    (hhigh : read_memory8 s (T % 65536 + 2 * r + 1) = .ok high)
    (hP : read_io8 s preg = .ok P) (F : Nat → Nat)
    (hy0 : 0 ≤ y) (hyh : y < h) (X : Nat) (hX : X < w) :
    ∃ F',
      draw_tile_line { s with gameboy_framebuffer := F } w h x y T 0
          (if fy then 7 - (r : Int) else r) preg fx fy
        = .ok { s with gameboy_framebuffer := F' } ∧
      F' (y.toNat * w + X) =
        if x ≤ X ∧ (X : Int) < x + 8 ∧ tile_index low high (tile_bit fx ((X : Int) - x).toNat) ≠ 0
        then shade P (tile_index low high (tile_bit fx ((X : Int) - x).toNat))
        else F (y.toNat * w + X) := by
  obtain ⟨F', hrun, hset, hkeep⟩ :=
    draw_tile_line_run s w h x y T r preg fx fy low high P hr hlow hhigh hP F
  refine ⟨F', hrun, ?_⟩
  by_cases hc : x ≤ X ∧ (X : Int) < x + 8 ∧ tile_index low high (tile_bit fx ((X : Int) - x).toNat) ≠ 0
  · rw [if_pos hc]
    obtain ⟨c1, c2, c3⟩ := hc
    have hpos : tile_pos w x y ((X : Int) - x).toNat = y.toNat * w + X := by
      unfold tile_pos
      omega
    rw [← hpos]
    exact hset _ (by omega) ⟨c3, by omega, hy0, by omega, hyh⟩
  · rw [if_neg hc]
    refine hkeep _ (fun c hc8 hh => ?_)
    obtain ⟨i0, a1, -, a3, -⟩ := hh
    intro e
    unfold tile_pos at e
    have e2 : (x + (c : Int)).toNat = X := by omega
    have e3 : ((X : Int) - x).toNat = c := by omega
    exact hc ⟨by omega, by omega, by rw [e3]; exact i0⟩

/-! ## Rendering: the background -/

theorem bg_tile_address_range (bg_tiles : Bool) (n : Nat) (hn : n < 256) :
    0x8000 ≤ bg_tile_address bg_tiles n ∧ bg_tile_address bg_tiles n ≤ 0x97F0 := by
  unfold bg_tile_address signed8
  cases bg_tiles
  · simp only [Bool.false_eq_true, if_false]; omega
  · simp only [if_true]
    split_ifs <;> omega

/-- The address that `draw_background_line` computes for tile number `n`. -/
theorem bg_tile_address_eq (bg_tiles : Bool) (n : Nat) (hn : n < 256) :
    (((if bg_tiles = true then (0x9000 : Int) else 0x8000) +
        (if bg_tiles = true then (if n < 128 then (n : Int) else (n : Int) - 256) else (n : Int)) * 0x10)
      % 65536).toNat = bg_tile_address bg_tiles n := by
  unfold bg_tile_address signed8
  cases bg_tiles
  · simp only [Bool.false_eq_true, if_false]; omega
  · simp only [if_true]
    split_ifs <;> omega

/-- One iteration of the loop of `draw_background_line`, seen from the pixel of column `X`:
the pixel is painted when tile column `screen_x / 8` holds background column
`(X + dx) mod 256` and the index there is not zero. -/
theorem draw_background_column_at (s : Machine) (w h : Nat) (y : Int) (map_address : Nat)
    (hmap : map_address = 0x9800 ∨ map_address = 0x9C00) (bg_tiles : Bool) (dx row : Nat)
    (hdx : dx < 256) (hrow : row < 256) (hy0 : 0 ≤ y) (hyh : y < h) (X : Nat) (hX : X < w)
    (hX256 : X < 256) (n k : Nat) (hk : k < 256) (F : Nat → Nat) :
    ∃ F1,
      draw_background_columns w h 0 y map_address bg_tiles dx (row / 8) (row % 8) (n + 1) k
          { s with gameboy_framebuffer := F }
        = draw_background_columns w h 0 y map_address bg_tiles dx (row / 8) (row % 8) n (k + 1)
          { s with gameboy_framebuffer := F1 } ∧
      F1 (y.toNat * w + X) =
        if bg_index s map_address bg_tiles row ((X + dx) % 256) ≠ 0 ∧ k / 8 = (X + dx) % 256 / 8
        then shade (s.io_ports 0x47 % 256) (bg_index s map_address bg_tiles row ((X + dx) % 256))
        else F (y.toNat * w + X) := by
  have hmr : 0x8000 ≤ map_address + (row / 8 * 32 + k / 8) ∧
      map_address + (row / 8 * 32 + k / 8) ≤ 0x9FFF := by omega
  have hread : read_memory8 ({ s with gameboy_framebuffer := F } : Machine)
      (map_address + (row / 8 * 32 + k / 8))
      = .ok (s.vram_memory (map_address + (row / 8 * 32 + k / 8) - 0x8000) % 256) :=
    read_memory8_vram _ _ hmr.1 hmr.2
  generalize hti : s.vram_memory (map_address + (row / 8 * 32 + k / 8) - 0x8000) % 256 = ti at hread
  have hti256 : ti < 256 := by rw [← hti]; exact Nat.mod_lt _ (by decide)
  obtain ⟨hT0, hT1⟩ := bg_tile_address_range bg_tiles ti hti256
  have hTm : bg_tile_address bg_tiles ti % 65536 = bg_tile_address bg_tiles ti :=
    Nat.mod_eq_of_lt (by omega)
  have hr : row % 8 < 8 := Nat.mod_lt _ (by decide)
  have hlow : read_memory8 s (bg_tile_address bg_tiles ti % 65536 + 2 * (row % 8))
      = .ok (s.vram_memory (bg_tile_address bg_tiles ti + 2 * (row % 8) - 0x8000) % 256) := by
    rw [hTm]; exact read_memory8_vram s _ (by omega) (by omega)
  have hhigh : read_memory8 s (bg_tile_address bg_tiles ti % 65536 + 2 * (row % 8) + 1)
      = .ok (s.vram_memory (bg_tile_address bg_tiles ti + 2 * (row % 8) + 1 - 0x8000) % 256) := by
    rw [hTm]; exact read_memory8_vram s _ (by omega) (by omega)
  have hP : read_io8 s BGP = .ok (s.io_ports 0x47 % 256) :=
    read_io8_port s BGP (by decide)
  generalize hl : s.vram_memory (bg_tile_address bg_tiles ti + 2 * (row % 8) - 0x8000) % 256 = low
    at hlow
  generalize hh : s.vram_memory (bg_tile_address bg_tiles ti + 2 * (row % 8) + 1 - 0x8000) % 256
    = high at hhigh
  obtain ⟨Fa, hrunA, hA⟩ := draw_tile_line_at s w h (0 + 8 * ((k / 8 : Nat) : Int) - dx) y
    (bg_tile_address bg_tiles ti) (row % 8) BGP false false low high _ hr hlow hhigh hP F hy0 hyh X hX
  obtain ⟨Fb, hrunB, hB⟩ := draw_tile_line_at s w h (0 + 8 * ((k / 8 : Nat) : Int) + 32 * 8 - dx) y
    (bg_tile_address bg_tiles ti) (row % 8) BGP false false low high _ hr hlow hhigh hP Fa hy0 hyh X hX
  rw [if_neg (show ¬ false = true by decide)] at hrunA hrunB
  refine ⟨Fb, ?_, ?_⟩
  · rw [draw_background_columns, hread, ok_bind]
    simp only []
    rw [bg_tile_address_eq bg_tiles ti hti256, hrunA, ok_bind, hrunB, ok_bind]
  · rw [hB, hA]
    by_cases htc : k / 8 = (X + dx) % 256 / 8
    · have hnum : bg_tile_number s map_address row ((X + dx) % 256) = ti := by
        unfold bg_tile_number
        rw [← htc, Nat.add_assoc, hti]
      have hidx : bg_index s map_address bg_tiles row ((X + dx) % 256)
          = tile_index low high (7 - (X + dx) % 256 % 8) := by
        unfold bg_index
        rw [hnum, hl, hh]
      rw [hidx]
      by_cases hD : X + dx < 256
      · have n2 : ¬ ((0 : Int) + 8 * ((k / 8 : Nat) : Int) + 32 * 8 - dx ≤ X ∧
            (X : Int) < 0 + 8 * ((k / 8 : Nat) : Int) + 32 * 8 - dx + 8 ∧
            tile_index low high (tile_bit false
              ((X : Int) - (0 + 8 * ((k / 8 : Nat) : Int) + 32 * 8 - dx)).toNat) ≠ 0) := by
          intro hc; omega
        have e1 : ((X : Int) - (0 + 8 * ((k / 8 : Nat) : Int) - dx)).toNat = (X + dx) % 256 % 8 := by
          omega
        have r1 : (0 : Int) + 8 * ((k / 8 : Nat) : Int) - dx ≤ X ∧
            (X : Int) < 0 + 8 * ((k / 8 : Nat) : Int) - dx + 8 := by omega
        rw [if_neg n2, e1]
        simp only [tile_bit, Bool.false_eq_true, if_false, r1, true_and, and_iff_left htc]
      · have n1 : ¬ ((0 : Int) + 8 * ((k / 8 : Nat) : Int) - dx ≤ X ∧
            (X : Int) < 0 + 8 * ((k / 8 : Nat) : Int) - dx + 8 ∧
            tile_index low high (tile_bit false
              ((X : Int) - (0 + 8 * ((k / 8 : Nat) : Int) - dx)).toNat) ≠ 0) := by
          intro hc; omega
        have e2 : ((X : Int) - (0 + 8 * ((k / 8 : Nat) : Int) + 32 * 8 - dx)).toNat
            = (X + dx) % 256 % 8 := by omega
        have r2 : (0 : Int) + 8 * ((k / 8 : Nat) : Int) + 32 * 8 - dx ≤ X ∧
            (X : Int) < 0 + 8 * ((k / 8 : Nat) : Int) + 32 * 8 - dx + 8 := by omega
        rw [if_neg n1, e2]
        simp only [tile_bit, Bool.false_eq_true, if_false, r2, true_and, and_iff_left htc]
    · have n1 : ¬ ((0 : Int) + 8 * ((k / 8 : Nat) : Int) - dx ≤ X ∧
          (X : Int) < 0 + 8 * ((k / 8 : Nat) : Int) - dx + 8 ∧
          tile_index low high (tile_bit false
            ((X : Int) - (0 + 8 * ((k / 8 : Nat) : Int) - dx)).toNat) ≠ 0) := by
        intro hc; omega
      have n2 : ¬ ((0 : Int) + 8 * ((k / 8 : Nat) : Int) + 32 * 8 - dx ≤ X ∧
          (X : Int) < 0 + 8 * ((k / 8 : Nat) : Int) + 32 * 8 - dx + 8 ∧
          tile_index low high (tile_bit false
            ((X : Int) - (0 + 8 * ((k / 8 : Nat) : Int) + 32 * 8 - dx)).toNat) ≠ 0) := by
        intro hc; omega
      rw [if_neg n2, if_neg n1, if_neg (fun hc => htc hc.2)]

/-- The loop of `draw_background_line` from `screen_x = k`, seen from the pixel of column
`X`: the pixel is painted when its background index is not zero and the tile column that
holds it is still to come. -/
theorem draw_background_columns_at (s : Machine) (w h : Nat) (y : Int) (map_address : Nat)
    (hmap : map_address = 0x9800 ∨ map_address = 0x9C00) (bg_tiles : Bool) (dx row : Nat)
    (hdx : dx < 256) (hrow : row < 256) (hy0 : 0 ≤ y) (hyh : y < h) (X : Nat) (hX : X < w)
    (hX256 : X < 256) :
    ∀ (n k : Nat) (F : Nat → Nat), k + n = 256 → ∃ F',
      draw_background_columns w h 0 y map_address bg_tiles dx (row / 8) (row % 8) n k
          { s with gameboy_framebuffer := F }
        = .ok { s with gameboy_framebuffer := F' } ∧
      F' (y.toNat * w + X) =
        if bg_index s map_address bg_tiles row ((X + dx) % 256) ≠ 0 ∧
            k ≤ 8 * ((X + dx) % 256 / 8) + 7
        then shade (s.io_ports 0x47 % 256) (bg_index s map_address bg_tiles row ((X + dx) % 256))
        else F (y.toNat * w + X) := by
  intro n
  induction n with
  | zero =>
    intro k F hk
    refine ⟨F, rfl, ?_⟩
    rw [if_neg (fun hc => by omega)]
  | succ n ih =>
    intro k F hk
    obtain ⟨F1, hstep, h1⟩ := draw_background_column_at s w h y map_address hmap bg_tiles dx row
      hdx hrow hy0 hyh X hX hX256 n k (by omega) F
    obtain ⟨F', hrun, h2⟩ := ih (k + 1) F1 (by omega)
    refine ⟨F', hstep.trans hrun, ?_⟩
    rw [h2, h1]
    generalize bg_index s map_address bg_tiles row ((X + dx) % 256) = i
    generalize shade (s.io_ports 0x47 % 256) i = v
    generalize F (y.toNat * w + X) = f
    split_ifs <;> first | rfl | (exfalso; omega)

/-- Function `draw_background_line` seen from the pixel of column `X` of row `y`: the pixel
receives the colour of the background pixel in column `(X + dx) mod 256` of row `dy mod 256`
when the index there is not zero, and is kept otherwise. -/
theorem draw_background_line_at (s : Machine) (w h : Nat) (y : Int) (map_address : Nat)
    (hmap : map_address = 0x9800 ∨ map_address = 0x9C00) (bg_tiles : Bool) (dx dy : Nat)
    (hy0 : 0 ≤ y) (hyh : y < h) (X : Nat) (hX : X < w) (hX256 : X < 256) (F : Nat → Nat) :
    ∃ F',
      draw_background_line { s with gameboy_framebuffer := F } w h 0 y map_address bg_tiles dx dy
        = .ok { s with gameboy_framebuffer := F' } ∧
      F' (y.toNat * w + X) =
        if bg_index s map_address bg_tiles (dy % 256) ((X + dx % 256) % 256) ≠ 0
        then shade (s.io_ports 0x47 % 256)
          (bg_index s map_address bg_tiles (dy % 256) ((X + dx % 256) % 256))
        else F (y.toNat * w + X) := by
  have hm : map_address % 65536 = map_address := by omega
  obtain ⟨F', hrun, hF⟩ := draw_background_columns_at s w h y map_address hmap bg_tiles (dx % 256)
    (dy % 256) (Nat.mod_lt _ (by decide)) (Nat.mod_lt _ (by decide)) hy0 hyh X hX hX256 256 0 F rfl
  refine ⟨F', ?_, ?_⟩
  · unfold draw_background_line
    simp only [hm]
    exact hrun
  · rw [hF, if_congr (and_iff_left (Nat.zero_le _)) rfl rfl]

/-! ## Rendering: the line -/

/-- With sprites disabled (LCDC bit 1 clear), `draw_sprites_line` draws nothing. -/
theorem draw_sprites_line_off (S : Machine) (w h : Nat) (x y dy : Int) (background : Bool)
    (hoff : (S.io_ports 0x40 % 256) &&& 2 = 0) :
    draw_sprites_line S w h x y dy background = .ok S := by
  unfold draw_sprites_line
  rw [read_io8_port S LCDC (by decide), ok_bind]
  simp only [show (1 : Nat) <<< 1 = 2 from rfl, show LCDC - 0xFF00 = 0x40 from rfl, hoff]
  rfl

/-- The rendering of a line is its three passes over the row cleared to colour 0: the
sprites behind the background, the background, the sprites in front. -/
theorem render_line_of_passes (s : Machine) (ly : Nat) (F1 F2 F3 : Nat → Nat)
    (h1 : draw_sprites_line
        { s with gameboy_framebuffer := fun j =>
            if ly * 160 ≤ j ∧ j < ly * 160 + 160 then shade (s.io_ports 0x47 % 256) 0
            else s.gameboy_framebuffer j }
        160 144 0 ly ly true = .ok { s with gameboy_framebuffer := F1 })
    (h2 : draw_background_line { s with gameboy_framebuffer := F1 } 160 144 0 ly
        (if (s.io_ports 0x40 % 256) &&& 8 ≠ 0 then 0x9C00 else 0x9800)
        (!(((s.io_ports 0x40 % 256) &&& 0x10) != 0)) (s.io_ports 0x43 % 256)
        (ly + s.io_ports 0x42 % 256) = .ok { s with gameboy_framebuffer := F2 })
    (h3 : draw_sprites_line { s with gameboy_framebuffer := F2 } 160 144 0 ly ly false
        = .ok { s with gameboy_framebuffer := F3 }) :
    render_line s ly = .ok { s with gameboy_framebuffer := F3 } := by
  have hc : get_palette_color s BGP 0 = .ok (3 - (((s.io_ports 0x47 % 256) >>> (2 * 0)) &&& 3)) := by
    unfold get_palette_color
    rw [if_neg (by omega), read_io8_port s BGP (by decide), ok_bind]
    rfl
  unfold render_line
  rw [hc, ok_bind, u2_to_u8_shade, ok_bind]
  simp only [show GAMEBOY_SCREEN_WIDTH = 160 from rfl, show GAMEBOY_SCREEN_HEIGHT = 144 from rfl]
  rw [h1, ok_bind, read_io8_port _ LCDC (by decide), ok_bind, read_io8_port _ SCX (by decide),
    ok_bind, read_io8_port _ SCY (by decide), ok_bind]
  simp only [show (1 : Nat) <<< 4 = 0x10 from rfl, show (1 : Nat) <<< 3 = 8 from rfl,
    show LCDC - 0xFF00 = 0x40 from rfl, show SCX - 0xFF00 = 0x43 from rfl,
    show SCY - 0xFF00 = 0x42 from rfl]
  rw [h2, ok_bind, h3]

/-- The three VRAM reads behind a background pixel succeed and give `bg_index`. -/
theorem bg_index_reads (s : Machine) (map_address : Nat)
    (hmap : map_address = 0x9800 ∨ map_address = 0x9C00) (bg_tiles : Bool) (row col : Nat)
    (hrow : row < 256) (hcol : col < 256) :
    ∃ n low high,
      read_memory8 s (map_address + (row / 8) * 32 + col / 8) = .ok n ∧
      read_memory8 s (bg_tile_address bg_tiles n + 2 * (row % 8)) = .ok low ∧
      read_memory8 s (bg_tile_address bg_tiles n + 2 * (row % 8) + 1) = .ok high ∧
      bg_index s map_address bg_tiles row col = tile_index low high (7 - col % 8) := by
  have hn : bg_tile_number s map_address row col < 256 := Nat.mod_lt _ (by decide)
  obtain ⟨hT0, hT1⟩ := bg_tile_address_range bg_tiles _ hn
  exact ⟨bg_tile_number s map_address row col, _, _,
    read_memory8_vram s _ (by omega) (by omega),
    read_memory8_vram s _ (by omega) (by omega),
    read_memory8_vram s _ (by omega) (by omega), rfl⟩

theorem shade_of_zero_or (P i f : Nat) (hf : f = shade P 0) :
    (if i ≠ 0 then shade P i else f) = shade P i := by
  by_cases h : i = 0
  · rw [if_neg (not_not.mpr h), hf, h]
  · rw [if_pos h]

/-- C32. With sprites disabled (LCDC bit 1 clear), the rendering of a visible line
`ly < 144` returns, and for every `x` in 0..159 the framebuffer byte at `(x, ly)` is
`0x55 * (3 - ((BGP >> 2i) & 3))`, where `i` is the 2-bit index of pixel column
`(x + SCX) mod 256` in row `(ly + SCY) mod 256` of the background: the tile number `n` is
read from the map at 0x9C00 if LCDC bit 3 is set, else 0x9800, at entry
`(row / 8) * 32 + column / 8`; the two bytes of the tile row are read at
`T + 2 (row mod 8)` and the next address, with `T = 0x8000 + 16 n` if LCDC bit 4 is set and
`T = 0x9000 + 16 n` for `n` signed otherwise; `i` is made of bit `7 - column mod 8` of the
two bytes. -/
theorem background_pixel (s : Machine) (ly x lcdc scx scy bgp : Nat) (hly : ly < 144)
    (hx : x < 160) (hlcdc : read_io8 s LCDC = .ok lcdc) (hscx : read_io8 s SCX = .ok scx)
    (hscy : read_io8 s SCY = .ok scy) (hbgp : read_io8 s BGP = .ok bgp)
    (hoff : lcdc &&& 2 = 0) :
    ∃ s' n low high,
      render_line s ly = .ok s' ∧
      read_memory8 s ((if lcdc &&& 8 ≠ 0 then 0x9C00 else 0x9800)
        + ((ly + scy) % 256 / 8) * 32 + (x + scx) % 256 / 8) = .ok n ∧
      read_memory8 s ((if lcdc &&& 0x10 ≠ 0 then 0x8000 + 16 * n else (0x9000 + 16 * signed8 n).toNat)
        + 2 * ((ly + scy) % 256 % 8)) = .ok low ∧
      read_memory8 s ((if lcdc &&& 0x10 ≠ 0 then 0x8000 + 16 * n else (0x9000 + 16 * signed8 n).toNat)
        + 2 * ((ly + scy) % 256 % 8) + 1) = .ok high ∧
      s'.gameboy_framebuffer (ly * 160 + x)
        = 0x55 * (3 - ((bgp >>> (2 * tile_index low high (7 - (x + scx) % 256 % 8))) &&& 3)) := by
  have e1 : lcdc = s.io_ports 0x40 % 256 :=
    (Except.ok.inj (hlcdc.symm.trans (read_io8_port s LCDC (by decide))))
  have e2 : scx = s.io_ports 0x43 % 256 :=
    (Except.ok.inj (hscx.symm.trans (read_io8_port s SCX (by decide))))
  have e3 : scy = s.io_ports 0x42 % 256 :=
    (Except.ok.inj (hscy.symm.trans (read_io8_port s SCY (by decide))))
  have e4 : bgp = s.io_ports 0x47 % 256 :=
    (Except.ok.inj (hbgp.symm.trans (read_io8_port s BGP (by decide))))
  subst e1 e2 e3 e4
  have hmap : (if (s.io_ports 0x40 % 256) &&& 8 ≠ 0 then 0x9C00 else 0x9800) = 0x9800 ∨
      (if (s.io_ports 0x40 % 256) &&& 8 ≠ 0 then 0x9C00 else 0x9800) = 0x9C00 := by
    split_ifs
    · exact Or.inr rfl
    · exact Or.inl rfl
  have hbg : ∀ n, bg_tile_address (!(((s.io_ports 0x40 % 256) &&& 0x10) != 0)) n
      = if (s.io_ports 0x40 % 256) &&& 0x10 ≠ 0 then 0x8000 + 16 * n
        else (0x9000 + 16 * signed8 n).toNat := by
    intro n
    unfold bg_tile_address
    by_cases hb : (s.io_ports 0x40 % 256) &&& 0x10 = 0
    · simp [hb]
    · simp [hb]
  have h1 := draw_sprites_line_off
    ({ s with gameboy_framebuffer := fun j =>
        if ly * 160 ≤ j ∧ j < ly * 160 + 160 then shade (s.io_ports 0x47 % 256) 0
        else s.gameboy_framebuffer j } : Machine) 160 144 0 ly ly true hoff
  obtain ⟨F2, h2, hF2⟩ := draw_background_line_at s 160 144 ly
    (if (s.io_ports 0x40 % 256) &&& 8 ≠ 0 then 0x9C00 else 0x9800) hmap
    (!(((s.io_ports 0x40 % 256) &&& 0x10) != 0)) (s.io_ports 0x43 % 256)
    (ly + s.io_ports 0x42 % 256) (by omega) (by omega) x hx (by omega)
    (fun j => if ly * 160 ≤ j ∧ j < ly * 160 + 160 then shade (s.io_ports 0x47 % 256) 0
      else s.gameboy_framebuffer j)
  have h3 := draw_sprites_line_off ({ s with gameboy_framebuffer := F2 } : Machine) 160 144 0 ly ly
    false hoff
  have hrun := render_line_of_passes s ly _ F2 F2 h1 h2 h3
  obtain ⟨n, low, high, r1, r2, r3, hidx⟩ := bg_index_reads s
    (if (s.io_ports 0x40 % 256) &&& 8 ≠ 0 then 0x9C00 else 0x9800) hmap
    (!(((s.io_ports 0x40 % 256) &&& 0x10) != 0)) ((ly + s.io_ports 0x42 % 256) % 256)
    ((x + s.io_ports 0x43 % 256) % 256) (Nat.mod_lt _ (by decide)) (Nat.mod_lt _ (by decide))
  rw [hbg n] at r2 r3
  refine ⟨_, n, low, high, hrun, r1, r2, r3, ?_⟩
  have hpos : ((ly : Int)).toNat * 160 + x = ly * 160 + x := by
    rw [Int.toNat_ofNat]
  have hmm : (x + s.io_ports 0x43 % 256 % 256) % 256 = (x + s.io_ports 0x43 % 256) % 256 := by
    rw [Nat.mod_mod]
  rw [hpos, hmm, hidx] at hF2
  show F2 (ly * 160 + x) = _
  rw [hF2]
  exact shade_of_zero_or _ _ _ (if_pos ⟨by omega, by omega⟩)

theorem background_pixel_witness :
    ((0 : Nat) < 144 ∧ (0 : Nat) < 160 ∧ read_io8 Machine.one_tile_background LCDC = .ok 0x91 ∧
      read_io8 Machine.one_tile_background SCX = .ok 0x03 ∧
      read_io8 Machine.one_tile_background SCY = .ok 0x02 ∧
      read_io8 Machine.one_tile_background BGP = .ok 0xE4 ∧ 0x91 &&& 2 = 0) ∧
    ∃ s' n low high,
      render_line Machine.one_tile_background 0 = .ok s' ∧
      read_memory8 Machine.one_tile_background ((if 0x91 &&& 8 ≠ 0 then 0x9C00 else 0x9800)
        + ((0 + 0x02) % 256 / 8) * 32 + (0 + 0x03) % 256 / 8) = .ok n ∧
      read_memory8 Machine.one_tile_background
        ((if 0x91 &&& 0x10 ≠ 0 then 0x8000 + 16 * n else (0x9000 + 16 * signed8 n).toNat)
        + 2 * ((0 + 0x02) % 256 % 8)) = .ok low ∧
      read_memory8 Machine.one_tile_background
        ((if 0x91 &&& 0x10 ≠ 0 then 0x8000 + 16 * n else (0x9000 + 16 * signed8 n).toNat)
        + 2 * ((0 + 0x02) % 256 % 8) + 1) = .ok high ∧
      s'.gameboy_framebuffer (0 * 160 + 0)
        = 0x55 * (3 - ((0xE4 >>> (2 * tile_index low high (7 - (0 + 0x03) % 256 % 8))) &&& 3)) :=
  ⟨⟨by decide, by decide, by decide, by decide, by decide, by decide, by decide⟩,
   background_pixel Machine.one_tile_background 0 0 0x91 0x03 0x02 0xE4 (by decide) (by decide)
     (by decide) (by decide) (by decide) (by decide) (by decide)⟩

/-- The first eight bytes of line 0 of `Machine.one_tile_background`: background columns
3..10, of which 3..7 belong to tile 1 and 8..10 to the blank tile 0. -/
theorem one_tile_background_line :
    (render_line Machine.one_tile_background 0).map
      (fun s' => (List.range 8).map s'.gameboy_framebuffer)
      = .ok [0xAA, 0x55, 0x55, 0xFF, 0xFF, 0xFF, 0xFF, 0xFF] := by
  decide!

/-! ## Rendering: the sprites -/

/-- The four bytes of OAM entry `k`, as `draw_sprites_line` reads them. -/
theorem sprite_reads (S : Machine) (k i : Nat) (hk : k < 40) (hi : i < 4) :
    read_memory8 S (0xFE00 + 4 * k + i) = .ok (sprite_byte S k i) := by
  rw [read_memory8_oam_byte _ _ (by omega) (by omega)]
  unfold sprite_byte
  exact congrArg (fun j => Except.ok (S.oam_memory j % 256)) (by omega)

theorem sprite_byte_lt (s : Machine) (k i : Nat) : sprite_byte s k i < 256 :=
  Nat.mod_lt _ (by decide)

/-- The palette register of a sprite reads `sprite_palette`. -/
theorem sprite_palette_read (s : Machine) (k : Nat) :
    read_io8 s (if sprite_byte s k 3 &&& 16 ≠ 0 then OBP1 else OBP0) = .ok (sprite_palette s k) := by
  unfold sprite_palette
  by_cases h : sprite_byte s k 3 &&& 16 = 0
  · rw [if_neg (not_not.mpr h), if_neg (not_not.mpr h)]
    exact read_io8_port s OBP0 (by decide)
  · rw [if_pos h, if_pos h]
    exact read_io8_port s OBP1 (by decide)

/-- One iteration of the loop of `draw_sprites_line` in 8x8 mode, seen from the pixel
`(X, ly)`: the pixel is painted when the sprite belongs to the pass, covers the pixel and
has a non-zero index there. -/
theorem draw_sprite_at (s : Machine) (ly X k : Nat) (hly : ly < 144) (hX : X < 160) (hk : k < 40)
    (background : Bool) (n : Nat) (F : Nat → Nat) :
    ∃ F1,
      draw_sprites 160 144 0 ly ly background false (n + 1) k { s with gameboy_framebuffer := F }
        = draw_sprites 160 144 0 ly ly background false n (k + 1)
            { s with gameboy_framebuffer := F1 } ∧
      F1 (ly * 160 + X) =
        if ((sprite_byte s k 3 &&& 0x80) != 0) = background ∧ sprite_covers s k X ly ∧
            sprite_index s k X ly ≠ 0
        then shade (sprite_palette s k) (sprite_index s k X ly)
        else F (ly * 160 + X) := by
  have ha : (0xFE00 + k * 4) % 65536 = 0xFE00 + 4 * k := by omega
  have r0 := sprite_reads ({ s with gameboy_framebuffer := F } : Machine) k 0 hk (by decide)
  have r1 := sprite_reads ({ s with gameboy_framebuffer := F } : Machine) k 1 hk (by decide)
  have r2 := sprite_reads ({ s with gameboy_framebuffer := F } : Machine) k 2 hk (by decide)
  have r3 := sprite_reads ({ s with gameboy_framebuffer := F } : Machine) k 3 hk (by decide)
  have b0 := sprite_byte_lt s k 0
  have b1 := sprite_byte_lt s k 1
  have b2 := sprite_byte_lt s k 2
  have hstep : draw_sprites 160 144 0 ly ly background false (n + 1) k
      { s with gameboy_framebuffer := F }
      = (if (((sprite_byte s k 3 &&& 128) != 0) != background) = true then
          draw_sprites 160 144 0 ly ly background false n (k + 1) { s with gameboy_framebuffer := F }
        else
          (draw_tile_line { s with gameboy_framebuffer := F } 160 144
            (0 + ((sprite_byte s k 1 : Int) - 8)) ly (32768 + sprite_byte s k 2 * 16) 0
            ((ly : Int) - ((sprite_byte s k 0 : Int) - 16))
            (if sprite_byte s k 3 &&& 16 ≠ 0 then OBP1 else OBP0)
            ((sprite_byte s k 3 &&& 32) != 0) ((sprite_byte s k 3 &&& 64) != 0)).bind
          (fun y => draw_sprites 160 144 0 ly ly background false n (k + 1) y)) := by
    rw [draw_sprites]
    simp only [ha]
    rw [r0, ok_bind, r1, ok_bind, r2, ok_bind, r3, ok_bind]
    simp only [show (1 : Nat) <<< 7 = 0x80 from rfl, show (1 : Nat) <<< 4 = 0x10 from rfl,
      show (1 : Nat) <<< 5 = 0x20 from rfl, show (1 : Nat) <<< 6 = 0x40 from rfl,
      Bool.false_eq_true, if_false]
    rfl
  have hpos : ((ly : Int)).toNat * 160 + X = ly * 160 + X := by rw [Int.toNat_ofNat]
  by_cases hprio : (((sprite_byte s k 3 &&& 128) != 0) != background) = true
  · refine ⟨F, ?_, ?_⟩
    · rw [hstep, if_pos hprio]
    · rw [if_neg]
      rintro ⟨hp, -, -⟩
      rw [hp] at hprio
      simp at hprio
  · have hp : ((sprite_byte s k 3 &&& 0x80) != 0) = background := by
      cases hb : ((sprite_byte s k 3 &&& 0x80) != 0) <;> cases background <;> simp_all
    by_cases hrow : (ly : Int) - ((sprite_byte s k 0 : Int) - 16) < 0 ∨
        8 ≤ (ly : Int) - ((sprite_byte s k 0 : Int) - 16)
    · refine ⟨F, ?_, ?_⟩
      · rw [hstep, if_neg hprio, draw_tile_line_skip _ _ _ _ _ _ _ _ _ _ hrow, bind_ok]
      · rw [if_neg]
        rintro ⟨-, hc, -⟩
        unfold sprite_covers at hc
        omega
    · have hrlt : sprite_row s k ly < 8 := by
        unfold sprite_row
        split_ifs <;> omega
      have hdy : (if ((sprite_byte s k 3 &&& 64) != 0) = true then 7 - (sprite_row s k ly : Int)
          else (sprite_row s k ly : Int)) = (ly : Int) - ((sprite_byte s k 0 : Int) - 16) := by
        unfold sprite_row
        by_cases h6 : sprite_byte s k 3 &&& 64 = 0
        · simp only [h6, bne_self_eq_false, Bool.false_eq_true, if_false, ne_eq, not_true_eq_false]
          omega
        · have h6b : ((sprite_byte s k 3 &&& 64) != 0) = true := by simpa using h6
          rw [if_pos h6b, if_pos h6]
          omega
      have hT : (32768 + sprite_byte s k 2 * 16) % 65536 = 0x8000 + 16 * sprite_byte s k 2 := by
        omega
      have hlow : read_memory8 s ((32768 + sprite_byte s k 2 * 16) % 65536 + 2 * sprite_row s k ly)
          = .ok (s.vram_memory (0x8000 + 16 * sprite_byte s k 2 + 2 * sprite_row s k ly - 0x8000)
              % 256) := by
        rw [hT]; exact read_memory8_vram s _ (by omega) (by omega)
      have hhigh : read_memory8 s
          ((32768 + sprite_byte s k 2 * 16) % 65536 + 2 * sprite_row s k ly + 1)
          = .ok (s.vram_memory (0x8000 + 16 * sprite_byte s k 2 + 2 * sprite_row s k ly + 1 - 0x8000)
              % 256) := by
        rw [hT]; exact read_memory8_vram s _ (by omega) (by omega)
      obtain ⟨F1, hrun, hF1⟩ := draw_tile_line_at s 160 144 (0 + ((sprite_byte s k 1 : Int) - 8)) ly
        (32768 + sprite_byte s k 2 * 16) (sprite_row s k ly)
        (if sprite_byte s k 3 &&& 16 ≠ 0 then OBP1 else OBP0)
        ((sprite_byte s k 3 &&& 32) != 0) ((sprite_byte s k 3 &&& 64) != 0) _ _ _ hrlt hlow hhigh
        (sprite_palette_read s k) F (by omega) (by omega) X hX
      rw [hdy] at hrun
      rw [hpos] at hF1
      refine ⟨F1, ?_, ?_⟩
      · rw [hstep, if_neg hprio, hrun, bind_ok]
      · rw [hF1]
        by_cases hcol : (0 : Int) + ((sprite_byte s k 1 : Int) - 8) ≤ X ∧
            (X : Int) < 0 + ((sprite_byte s k 1 : Int) - 8) + 8
        · have hc : ((X : Int) - (0 + ((sprite_byte s k 1 : Int) - 8))).toNat
              = X + 8 - sprite_byte s k 1 := by omega
          have hcov : sprite_covers s k X ly := by
            unfold sprite_covers; omega
          rw [hc]
          simp only [hcol, true_and, hp, hcov]
          rfl
        · have n1 : ¬ ((0 : Int) + ((sprite_byte s k 1 : Int) - 8) ≤ X ∧
              (X : Int) < 0 + ((sprite_byte s k 1 : Int) - 8) + 8 ∧
              tile_index
                (s.vram_memory (0x8000 + 16 * sprite_byte s k 2 + 2 * sprite_row s k ly - 0x8000)
                  % 256)
                (s.vram_memory
                  (0x8000 + 16 * sprite_byte s k 2 + 2 * sprite_row s k ly + 1 - 0x8000) % 256)
                (tile_bit ((sprite_byte s k 3 &&& 32) != 0)
                  ((X : Int) - (0 + ((sprite_byte s k 1 : Int) - 8))).toNat) ≠ 0) :=
            fun hc => hcol ⟨hc.1, hc.2.1⟩
          rw [if_neg n1, if_neg]
          rintro ⟨-, hc, -⟩
          unfold sprite_covers at hc
          omega

/-- The loop of `draw_sprites_line` in 8x8 mode from entry `k`, seen from a pixel that only
the sprite of entry `k0` covers: the pixel is painted when that sprite is still to come,
belongs to the pass and has a non-zero index there. -/
theorem draw_sprites_at (s : Machine) (ly X k0 : Nat) (hly : ly < 144) (hX : X < 160)
    (hone : ∀ k, k < 40 → k ≠ k0 → ¬ sprite_covers s k X ly) (background : Bool) :
    ∀ (n k : Nat) (F : Nat → Nat), k + n = 40 → ∃ F',
      draw_sprites 160 144 0 ly ly background false n k { s with gameboy_framebuffer := F }
        = .ok { s with gameboy_framebuffer := F' } ∧
      F' (ly * 160 + X) =
        if k ≤ k0 ∧ k0 < 40 ∧ ((sprite_byte s k0 3 &&& 0x80) != 0) = background ∧
            sprite_covers s k0 X ly ∧ sprite_index s k0 X ly ≠ 0
        then shade (sprite_palette s k0) (sprite_index s k0 X ly)
        else F (ly * 160 + X) := by
  intro n
  induction n with
  | zero =>
    intro k F hk
    refine ⟨F, rfl, ?_⟩
    rw [if_neg (fun hc => by omega)]
  | succ n ih =>
    intro k F hk
    obtain ⟨F1, hstep, h1⟩ := draw_sprite_at s ly X k hly hX (by omega) background n F
    obtain ⟨F', hrun, h2⟩ := ih (k + 1) F1 (by omega)
    refine ⟨F', hstep.trans hrun, ?_⟩
    rw [h2, h1]
    by_cases hkk : k = k0
    · subst hkk
      rw [if_neg (fun hc => by omega)]
      have hlt : k < 40 := by omega
      simp only [le_refl, true_and, hlt]
    · have n1 : ¬ (((sprite_byte s k 3 &&& 0x80) != 0) = background ∧ sprite_covers s k X ly ∧
          sprite_index s k X ly ≠ 0) := fun hc => hone k (by omega) hkk hc.2.1
      rw [if_neg n1]
      have e : k + 1 ≤ k0 ↔ k ≤ k0 := ⟨fun h => by omega, fun h => by omega⟩
      exact if_congr (and_congr_left (fun _ => e)) rfl rfl

/-- With sprites enabled in 8x8 mode (LCDC bit 1 set, bit 2 clear), `draw_sprites_line` is
the loop over the 40 entries of OAM. -/
theorem draw_sprites_line_on (S : Machine) (w h : Nat) (x y dy : Int) (background : Bool)
    (hon : (S.io_ports 0x40 % 256) &&& 2 ≠ 0) (h8 : (S.io_ports 0x40 % 256) &&& 4 = 0) :
    draw_sprites_line S w h x y dy background = draw_sprites w h x y dy background false 40 0 S := by
  unfold draw_sprites_line
  rw [read_io8_port S LCDC (by decide), ok_bind]
  simp only [show (1 : Nat) <<< 1 = 2 from rfl, show (1 : Nat) <<< 2 = 4 from rfl,
    show LCDC - 0xFF00 = 0x40 from rfl, h8]
  have e : ((S.io_ports 0x40 % 256 &&& 2) != 0) = true := by simpa using hon
  rw [e]
  rfl

theorem ite_ne_zero_swap (i a b : Nat) : (if i ≠ 0 then a else b) = if i = 0 then b else a := by
  by_cases h : i = 0
  · rw [if_neg (not_not.mpr h), if_pos h]
  · rw [if_pos h, if_neg h]

/-- C33. Let sprites be enabled in 8x8 mode (LCDC bit 1 set, bit 2 clear), let the sprite
of OAM entry `k0` cover the pixel `(x, ly)` of a visible line with a non-zero palette index
there, and let no other entry cover the pixel. After the line is rendered the framebuffer
byte of the pixel is: the sprite's colour (its index through OBP1 if flag bit 4 is set,
else OBP0) if flag bit 7 is clear, whatever the background pixel is; if flag bit 7 is set,
the sprite's colour when the background index of the pixel is 0, and the colour of the
background index through BGP when it is not. A sprite with OAM bytes `(Y, X)` covers rows
`Y - 16 .. Y - 9` and columns `X - 8 .. X - 1` (`sprite_covers`). -/
theorem sprite_priority (s : Machine) (ly x k0 lcdc scx scy bgp : Nat) (hly : ly < 144)
    (hx : x < 160) (hk0 : k0 < 40) (hlcdc : read_io8 s LCDC = .ok lcdc)
    (hscx : read_io8 s SCX = .ok scx) (hscy : read_io8 s SCY = .ok scy)
    (hbgp : read_io8 s BGP = .ok bgp) (hon : lcdc &&& 2 ≠ 0) (h8 : lcdc &&& 4 = 0)
    (hcov : sprite_covers s k0 x ly) (hone : ∀ k, k < 40 → k ≠ k0 → ¬ sprite_covers s k x ly)
    (hj : sprite_index s k0 x ly ≠ 0) :
    ∃ s', render_line s ly = .ok s' ∧
      s'.gameboy_framebuffer (ly * 160 + x) =
        if sprite_byte s k0 3 &&& 0x80 = 0 then
          shade (sprite_palette s k0) (sprite_index s k0 x ly)
        else if bg_index s (if lcdc &&& 8 ≠ 0 then 0x9C00 else 0x9800) (!((lcdc &&& 0x10) != 0))
            ((ly + scy) % 256) ((x + scx) % 256) = 0 then
          shade (sprite_palette s k0) (sprite_index s k0 x ly)
        else
          shade bgp (bg_index s (if lcdc &&& 8 ≠ 0 then 0x9C00 else 0x9800)
            (!((lcdc &&& 0x10) != 0)) ((ly + scy) % 256) ((x + scx) % 256)) := by
  have e1 : lcdc = s.io_ports 0x40 % 256 :=
    (Except.ok.inj (hlcdc.symm.trans (read_io8_port s LCDC (by decide))))
  have e2 : scx = s.io_ports 0x43 % 256 :=
    (Except.ok.inj (hscx.symm.trans (read_io8_port s SCX (by decide))))
  have e3 : scy = s.io_ports 0x42 % 256 :=
    (Except.ok.inj (hscy.symm.trans (read_io8_port s SCY (by decide))))
  have e4 : bgp = s.io_ports 0x47 % 256 :=
    (Except.ok.inj (hbgp.symm.trans (read_io8_port s BGP (by decide))))
  subst e1 e2 e3 e4
  have hmap : (if (s.io_ports 0x40 % 256) &&& 8 ≠ 0 then 0x9C00 else 0x9800) = 0x9800 ∨
      (if (s.io_ports 0x40 % 256) &&& 8 ≠ 0 then 0x9C00 else 0x9800) = 0x9C00 := by
    split_ifs
    · exact Or.inr rfl
    · exact Or.inl rfl
  -- the sprites behind the background
  obtain ⟨F1, p1, hF1⟩ := draw_sprites_at s ly x k0 hly hx hone true 40 0
    (fun j => if ly * 160 ≤ j ∧ j < ly * 160 + 160 then shade (s.io_ports 0x47 % 256) 0
      else s.gameboy_framebuffer j) rfl
  have h1 := (draw_sprites_line_on
    ({ s with gameboy_framebuffer := fun j =>
        if ly * 160 ≤ j ∧ j < ly * 160 + 160 then shade (s.io_ports 0x47 % 256) 0
        else s.gameboy_framebuffer j } : Machine) 160 144 0 ly ly true hon h8).trans p1
  -- the background
  obtain ⟨F2, h2, hF2⟩ := draw_background_line_at s 160 144 ly
    (if (s.io_ports 0x40 % 256) &&& 8 ≠ 0 then 0x9C00 else 0x9800) hmap
    (!(((s.io_ports 0x40 % 256) &&& 0x10) != 0)) (s.io_ports 0x43 % 256)
    (ly + s.io_ports 0x42 % 256) (by omega) (by omega) x hx (by omega) F1
  -- the sprites in front
  obtain ⟨F3, p3, hF3⟩ := draw_sprites_at s ly x k0 hly hx hone false 40 0 F2 rfl
  have h3 := (draw_sprites_line_on ({ s with gameboy_framebuffer := F2 } : Machine) 160 144 0 ly ly
    false hon h8).trans p3
  refine ⟨_, render_line_of_passes s ly F1 F2 F3 h1 h2 h3, ?_⟩
  have hpos : ((ly : Int)).toNat * 160 + x = ly * 160 + x := by rw [Int.toNat_ofNat]
  have hmm : (x + s.io_ports 0x43 % 256 % 256) % 256 = (x + s.io_ports 0x43 % 256) % 256 := by
    rw [Nat.mod_mod]
  rw [hpos, hmm] at hF2
  show F3 (ly * 160 + x) = _
  rw [hF3, hF2, hF1]
  by_cases h7 : sprite_byte s k0 3 &&& 0x80 = 0
  · have hb : ((sprite_byte s k0 3 &&& 0x80) != 0) = false := by simp [h7]
    have c3 : 0 ≤ k0 ∧ k0 < 40 ∧ ((sprite_byte s k0 3 &&& 0x80) != 0) = false ∧
        sprite_covers s k0 x ly ∧ sprite_index s k0 x ly ≠ 0 := ⟨Nat.zero_le _, hk0, hb, hcov, hj⟩
    rw [if_pos c3, if_pos h7]
  · have hb : ((sprite_byte s k0 3 &&& 0x80) != 0) = true := by simpa using h7
    have n3 : ¬ (0 ≤ k0 ∧ k0 < 40 ∧ ((sprite_byte s k0 3 &&& 0x80) != 0) = false ∧
        sprite_covers s k0 x ly ∧ sprite_index s k0 x ly ≠ 0) := by
      rintro ⟨-, -, hc, -⟩
      rw [hb] at hc
      cases hc
    have c1 : 0 ≤ k0 ∧ k0 < 40 ∧ ((sprite_byte s k0 3 &&& 0x80) != 0) = true ∧
        sprite_covers s k0 x ly ∧ sprite_index s k0 x ly ≠ 0 := ⟨Nat.zero_le _, hk0, hb, hcov, hj⟩
    rw [if_neg n3, if_pos c1, if_neg h7]
    exact ite_ne_zero_swap _ _ _

theorem sprite_priority_witness :
    ((0 : Nat) < 144 ∧ (2 : Nat) < 160 ∧ (0 : Nat) < 40 ∧
      read_io8 Machine.one_sprite LCDC = .ok 0x93 ∧ read_io8 Machine.one_sprite SCX = .ok 0 ∧
      read_io8 Machine.one_sprite SCY = .ok 0 ∧ read_io8 Machine.one_sprite BGP = .ok 0xE4 ∧
      0x93 &&& 2 ≠ 0 ∧ 0x93 &&& 4 = 0 ∧ sprite_covers Machine.one_sprite 0 2 0 ∧
      (∀ k, k < 40 → k ≠ 0 → ¬ sprite_covers Machine.one_sprite k 2 0) ∧
      sprite_index Machine.one_sprite 0 2 0 ≠ 0) ∧
    ∃ s', render_line Machine.one_sprite 0 = .ok s' ∧
      s'.gameboy_framebuffer (0 * 160 + 2) =
        if sprite_byte Machine.one_sprite 0 3 &&& 0x80 = 0 then
          shade (sprite_palette Machine.one_sprite 0) (sprite_index Machine.one_sprite 0 2 0)
        else if bg_index Machine.one_sprite (if 0x93 &&& 8 ≠ 0 then 0x9C00 else 0x9800)
            (!((0x93 &&& 0x10) != 0)) ((0 + 0) % 256) ((2 + 0) % 256) = 0 then
          shade (sprite_palette Machine.one_sprite 0) (sprite_index Machine.one_sprite 0 2 0)
        else
          shade 0xE4 (bg_index Machine.one_sprite (if 0x93 &&& 8 ≠ 0 then 0x9C00 else 0x9800)
            (!((0x93 &&& 0x10) != 0)) ((0 + 0) % 256) ((2 + 0) % 256)) :=
  ⟨⟨by decide, by decide, by decide, by decide, by decide, by decide, by decide, by decide,
      by decide, by decide, by decide, by decide⟩,
   sprite_priority Machine.one_sprite 0 2 0 0x93 0 0 0xE4 (by decide) (by decide) (by decide)
     (by decide) (by decide) (by decide) (by decide) (by decide) (by decide) (by decide)
     (by decide) (by decide)⟩

/-- The first nine bytes of line 0 of `Machine.one_sprite`: the X-flipped row of the sprite
over background colour 0. -/
theorem one_sprite_line :
    (render_line Machine.one_sprite 0).map (fun s' => (List.range 9).map s'.gameboy_framebuffer)
      = .ok [0xFF, 0xFF, 0x55, 0x55, 0xAA, 0xAA, 0x00, 0x00, 0xFF] ∧
    shade (sprite_palette Machine.one_sprite 0) (sprite_index Machine.one_sprite 0 2 0) = 0x55 := by
  decide!

end Gameboy
